import Mathlib

/-!
# serialplot: the streaming data model (`src/stream.cpp`)

A shallow embedding of `Stream` and of the collaborators it drives.

* `double` samples are exact rationals (`ℚ`): rounding is not modelled.
* `unsigned` values are natural numbers; where the source relies on
  wrap-around (`nc - 1` in the shrink loop of `setNumChannels`) the
  arithmetic is taken modulo `UINT_RANGE` explicitly.
* Heap objects that are shared through pointers (the X buffer) live in an
  explicit heap, `Stream.xHeap`, and are referred to by address; objects
  with a single owner (the channels and their ring buffers) are stored
  inline, in list order.
* `Q_ASSERT` aborts the call: every operation returns an outcome that holds
  the failed assertion, if any, the state reached when the call returned
  or aborted, and the signals emitted up to there.
-/

namespace SerialPlot

/-! ## Machine arithmetic and loops -/

/-- Number of values of the C++ type `unsigned` (32 bits). -/
def UINT_RANGE : Nat := 2 ^ 32

/-- Subtraction of two `unsigned` values, with wrap-around. -/
def usub (a b : Nat) : Nat := (a % UINT_RANGE + UINT_RANGE - b % UINT_RANGE) % UINT_RANGE

/-- The loop `for (unsigned i = 0; i < n; i++) body(i)`, run on a state:
`body 0` runs first, `body (n - 1)` last. -/
def forLoop {σ : Type} (body : Nat → σ → σ) : Nat → σ → σ
  | 0, st => st
  | n + 1, st => body n (forLoop body n st)

/-- The loop `for (unsigned i = lo; i < hi; i++) body(i)`; it does not run
when `hi ≤ lo`. -/
def forRange {σ : Type} (lo hi : Nat) (body : Nat → σ → σ) (st : σ) : σ :=
  forLoop (fun k => body (lo + k)) (hi - lo) st

/-! ## Collaborators of `Stream` -/

/-- Modelled from the spec: the class `RingBuffer` (`ringbuffer.h`, not among
the sources), the spec's CircularSampleBuffer of §3: `capacity` (number of
samples retained), `values` (fixed-size storage), `writeCursor` (next slot
to overwrite), `count` (samples written so far, capped at capacity). -/
structure RingBuffer where
  capacity : Nat
  values : List ℚ
  writeCursor : Nat
  count : Nat
deriving DecidableEq

/-- Modelled from the spec: the constructor `RingBuffer(n)`, a buffer
"created with a capacity at channel creation" that holds no sample yet
(§8: new channels are initialised empty, `count() == 0`). -/
def RingBuffer.new (n : Nat) : RingBuffer :=
  { capacity := n, values := List.replicate n 0, writeCursor := 0, count := 0 }

/-- Modelled from the spec: the storage after writing `samples` one after the
other from slot `pos` on, "wrapping around capacity" (§4.1 `append`). -/
def RingBuffer.writeWrapped (capacity : Nat) : List ℚ → Nat → List ℚ → List ℚ
  | values, _, [] => values
  | values, pos, v :: vs =>
    RingBuffer.writeWrapped capacity (values.set (pos % capacity) v) (pos + 1) vs

/-- Modelled from the spec: `RingBuffer::addSamples`, the spec's `append` of
§4.1: "writes `values.length` samples starting at `writeCursor`, wrapping
around capacity; advances `writeCursor = (writeCursor + n) % capacity`;
`count = min(capacity, count + n)`". -/
def RingBuffer.addSamples (b : RingBuffer) (samples : List ℚ) : RingBuffer :=
  { capacity := b.capacity
    values := RingBuffer.writeWrapped b.capacity b.values b.writeCursor samples
    writeCursor := (b.writeCursor + samples.length) % b.capacity
    count := min b.capacity (b.count + samples.length) }

/-- Modelled from the spec: `read(logicalIndex)` of §4.1: logical index 0 is
the oldest retained sample and `count - 1` the newest (the slot written
last, just before `writeCursor`); `none` is the failure `OutOfRange`, raised
when `logicalIndex ≥ count`. -/
def RingBuffer.read (b : RingBuffer) (logicalIndex : Nat) : Option ℚ :=
  if logicalIndex < b.count then
    b.values[(b.writeCursor + b.capacity - b.count + logicalIndex) % b.capacity]?
  else none

/-- Modelled from the spec: the X buffers `IndexBuffer(n)` and
`LinIndexBuffer(n, min, max)` (`indexbuffer.h`, `linindexbuffer.h`, not among
the sources), the two variants of the spec's XCoordinateSource (§3). -/
inductive XFrameBuffer
  | indexBuffer (size : Nat)
  | linIndexBuffer (size : Nat) (min max : ℚ)
deriving DecidableEq

/-- Modelled from the spec: the gain/offset settings of one channel kept by
the registry (ChannelTransform of §3). -/
structure ChannelInfo where
  gainEn : Bool
  gain : ℚ
  offsetEn : Bool
  offset : ℚ
deriving DecidableEq

/-- Settings of a channel nobody configured: no gain, no offset. -/
def ChannelInfo.unconfigured : ChannelInfo :=
  { gainEn := false, gain := 1, offsetEn := false, offset := 0 }

/-- Modelled from the spec: the class `ChannelInfoModel`
(`channelinfomodel.h`, not among the sources), the spec's ChannelRegistry:
per-channel settings and the registry's own channel count. -/
structure ChannelInfoModel where
  infos : List ChannelInfo
  numOfChannels : Nat
deriving DecidableEq

/-- Modelled from the spec: the constructor `ChannelInfoModel(nc)`. -/
def ChannelInfoModel.new (nc : Nat) : ChannelInfoModel :=
  { infos := [], numOfChannels := nc }

/-- Settings of channel `ci`. -/
def ChannelInfoModel.info (m : ChannelInfoModel) (ci : Nat) : ChannelInfo :=
  m.infos.getD ci ChannelInfo.unconfigured

/-- Modelled from the spec: `gainEnabled()` of channel `ci` (§6). -/
def ChannelInfoModel.gainEn (m : ChannelInfoModel) (ci : Nat) : Bool := (m.info ci).gainEn

/-- Modelled from the spec: `gain()` of channel `ci` (§6). -/
def ChannelInfoModel.gain (m : ChannelInfoModel) (ci : Nat) : ℚ := (m.info ci).gain

/-- Modelled from the spec: `offsetEnabled()` of channel `ci` (§6). -/
def ChannelInfoModel.offsetEn (m : ChannelInfoModel) (ci : Nat) : Bool := (m.info ci).offsetEn

/-- Modelled from the spec: `offset()` of channel `ci` (§6). -/
def ChannelInfoModel.offset (m : ChannelInfoModel) (ci : Nat) : ℚ := (m.info ci).offset

/-- Modelled from the spec: `ChannelInfoModel::gainOrOffsetEn`, "any channel
has `gainEnabled || offsetEnabled`" (§4.3 step 3), over the channels the
registry counts. -/
def ChannelInfoModel.gainOrOffsetEn (m : ChannelInfoModel) : Bool :=
  (List.range m.numOfChannels).any (fun ci => m.gainEn ci || m.offsetEn ci)

/-- Modelled from the spec: `ChannelInfoModel::setNumOfChannels`, which sets
the registry's channel count. -/
def ChannelInfoModel.setNumOfChannels (m : ChannelInfoModel) (nc : Nat) : ChannelInfoModel :=
  { m with numOfChannels := nc }

/-- Modelled from the spec: the class `SamplePack` (`samplepack.h`, not among
the sources), the spec's SampleBatch of §3: `numChannels`, `numSamples`,
`hasX`, the samples of every channel and the companion X batch. -/
structure SamplePack where
  numSamples : Nat
  numChannels : Nat
  hasX : Bool
  yData : List (List ℚ)
  xData : List ℚ
deriving DecidableEq

/-- Modelled from the spec: `SamplePack::data(ci)`, the samples of channel
`ci` of the batch. -/
def SamplePack.data (p : SamplePack) (ci : Nat) : List ℚ := p.yData.getD ci []

/-- A batch is well formed when it holds `numChannels` channels of
`numSamples` samples each ("all channels same length", §3). -/
def SamplePack.WF (p : SamplePack) : Prop :=
  p.yData.length = p.numChannels ∧ ∀ row ∈ p.yData, row.length = p.numSamples

instance (p : SamplePack) : Decidable p.WF := by
  unfold SamplePack.WF; infer_instance

/-- The class `StreamChannel` as `Stream` uses it: the channel index, the
address of the X buffer it reads and the ring buffer it owns. -/
structure StreamChannel where
  index : Nat
  xData : Nat
  yData : RingBuffer
deriving DecidableEq

/-! ## `Stream` -/

/-- The fields of `Stream`. `xData` is the address, in `xHeap`, of the current
X buffer; `xHeap` holds every X buffer allocated so far. -/
structure Stream where
  infoModel : ChannelInfoModel
  numSamples : Nat
  paused : Bool
  xAsIndex : Bool
  xMin : ℚ
  xMax : ℚ
  hasx : Bool
  xData : Nat
  xHeap : List XFrameBuffer
  channels : List StreamChannel
deriving DecidableEq

/-- The assertions of `stream.cpp` that can fail. -/
inductive Failure
  | channelMismatch
  | xRingBufferUnimplemented
  | gainOffsetDisabled
deriving DecidableEq

/-- The signals of `Stream`. -/
inductive Signal
  | dataAdded
  | numChannelsChanged (nc : Nat)
deriving DecidableEq

/-- Calls into the base class `Sink` (`sink.h`, not among the sources), which
passes them on to the sinks that follow this one; they are recorded, in
order, and touch no field of `Stream`. -/
inductive SinkCall
  | feedIn (data : SamplePack)
  | setNumChannels (nc : Nat) (x : Bool)
deriving DecidableEq

/-- What a call of a `Stream` operation did: the assertion that failed (if
any), the state when the call returned or aborted, the signals emitted and
the calls made into `Sink`. -/
structure Outcome where
  failure : Option Failure
  stream : Stream
  emitted : List Signal
  sinkCalls : List SinkCall
deriving DecidableEq

/-- Accessor `Stream::hasX`. -/
def Stream.hasX (s : Stream) : Bool := s.hasx

/-- Accessor `Stream::numChannels`: `channels.length()`. -/
def Stream.numChannels (s : Stream) : Nat := s.channels.length

/-- Accessor `Stream::channel(index)`; `none` when `Q_ASSERT(index < numChannels())`
fails. -/
def Stream.channel (s : Stream) (index : Nat) : Option StreamChannel := s.channels[index]?

/-- Method `Stream::makeXBuffer`: the X buffer for the current mode and capacity. -/
def Stream.makeXBuffer (s : Stream) : XFrameBuffer :=
  if s.xAsIndex then XFrameBuffer.indexBuffer s.numSamples
  else XFrameBuffer.linIndexBuffer s.numSamples s.xMin s.xMax

/-- The assignment `xData = makeXBuffer()`: the new buffer is allocated on the
heap and `xData` takes its address. -/
def Stream.assignNewXBuffer (s : Stream) : Stream :=
  { s with xHeap := s.xHeap ++ [s.makeXBuffer], xData := s.xHeap.length }

/-- The constructor `Stream::Stream(nc, x, ns)`. -/
def Stream.construct (nc : Nat) (x : Bool) (ns : Nat) : Outcome :=
  let s0 : Stream :=
    { infoModel := ChannelInfoModel.new nc, numSamples := ns, paused := false,
      xAsIndex := true, xMin := 0, xMax := 1, hasx := x,
      xData := 0, xHeap := [], channels := [] }
  if x then
    { failure := some Failure.xRingBufferUnimplemented, stream := s0, emitted := [], sinkCalls := [] }
  else
    let s1 := s0.assignNewXBuffer
    let chs := forLoop
      (fun i (chs : List StreamChannel) =>
        chs ++ [{ index := i, xData := s1.xData, yData := RingBuffer.new ns }])
      nc s1.channels
    { failure := none, stream := { s1 with channels := chs }, emitted := [], sinkCalls := [] }

/-- The shrink loop of `setNumChannels`,
`for (unsigned i = oldNum - 1; i > nc - 1; i--) delete channels.takeLast();`
with `bound` the value of the `unsigned` expression `nc - 1` and the second
argument the current `i`. At `i = 0` the test `i > bound` is false. -/
def takeLastLoop (bound : Nat) : Nat → List StreamChannel → List StreamChannel
  | 0, chs => chs
  | i + 1, chs => if i + 1 > bound then takeLastLoop bound i chs.dropLast else chs

/-- The end of `Stream::setNumChannels`, from `if (nc != oldNum)` on. -/
def Stream.finishSetNumChannels (s : Stream) (oldNum nc : Nat) (x : Bool) : Outcome :=
  if nc ≠ oldNum then
    { failure := none
      stream := { s with infoModel := s.infoModel.setNumOfChannels nc }
      emitted := [Signal.numChannelsChanged nc]
      sinkCalls := [SinkCall.setNumChannels nc x] }
  else
    { failure := none, stream := s, emitted := [], sinkCalls := [SinkCall.setNumChannels nc x] }

/-- Method `Stream::setNumChannels(nc, x)`. -/
def Stream.setNumChannels (s : Stream) (nc : Nat) (x : Bool) : Outcome :=
  let oldNum := s.numChannels
  if oldNum = nc ∧ x = s.hasx then
    { failure := none, stream := s, emitted := [], sinkCalls := [] }
  else
    let s1 : Stream :=
      if nc > oldNum then
        { s with
          channels :=
            forRange oldNum nc
              (fun i (chs : List StreamChannel) =>
                chs ++ [{ index := i, xData := s.xData, yData := RingBuffer.new s.numSamples }])
              s.channels }
      else if nc < oldNum then
        { s with channels := takeLastLoop (usub nc 1) (oldNum - 1) s.channels }
      else s
    if x ≠ s1.hasx then
      if x then
        { failure := some Failure.xRingBufferUnimplemented, stream := s1, emitted := [], sinkCalls := [] }
      else
        let s2 := s1.assignNewXBuffer
        let s3 : Stream :=
          { s2 with channels := s2.channels.map (fun c => { c with xData := s2.xData }), hasx := x }
        s3.finishSetNumChannels oldNum nc x
    else s1.finishSetNumChannels oldNum nc x

/-- The two batches `feedIn` works with: `pack`, the caller's batch (a
`const SamplePack&`), and `mPack`, the copy made by `applyGainOffset`
(`none` is `nullptr`). -/
structure PackStore where
  pack : SamplePack
  mPack : Option SamplePack
deriving DecidableEq

/-- A write `mdata[i] = f(mdata[i])` through `double* mdata = mPack->data(ci)`. -/
def PackStore.updateCopy (st : PackStore) (ci i : Nat) (f : ℚ → ℚ) : PackStore :=
  { st with mPack := st.mPack.map (fun m =>
      { m with yData := m.yData.modify (fun row => row.modify f i) ci }) }

/-- The body of the channel loop of `applyGainOffset`. -/
def Stream.applyGainOffsetChannel (s : Stream) (ns ci : Nat) (st : PackStore) : PackStore :=
  let gainEn := s.infoModel.gainEn ci
  let offsetEn := s.infoModel.offsetEn ci
  if gainEn || offsetEn then
    let gain := s.infoModel.gain ci
    let offset := s.infoModel.offset ci
    let st1 := if gainEn then forLoop (fun i st => st.updateCopy ci i (fun v => v * gain)) ns st else st
    if offsetEn then forLoop (fun i st => st.updateCopy ci i (fun v => v + offset)) ns st1 else st1
  else st

/-- Method `Stream::applyGainOffset(pack)`: the store after the call, with the
returned copy in `mPack`; `none` when `Q_ASSERT(infoModel()->gainOrOffsetEn())`
fails. -/
def Stream.applyGainOffset (s : Stream) (st : PackStore) : Option PackStore :=
  if s.infoModel.gainOrOffsetEn then
    let st0 : PackStore := { st with mPack := some st.pack }
    let ns := st.pack.numSamples
    some (forLoop (s.applyGainOffsetChannel ns) s.numChannels st0)
  else none

/-- The batch `feedIn` ingests: `(mPack == nullptr) ? pack : *mPack`. -/
def PackStore.effective (st : PackStore) : SamplePack := st.mPack.getD st.pack

/-- What a call of `feedIn` did: as `Outcome`, with the caller's batch as it
is after the call. -/
structure FeedOutcome where
  failure : Option Failure
  stream : Stream
  pack : SamplePack
  emitted : List Signal
  sinkCalls : List SinkCall
deriving DecidableEq

/-- The body of the channel loop of `feedIn`:
`buf->addSamples(data, ns)` on the ring buffer of channel `ci`. -/
def feedChannel (st : PackStore) (ns ci : Nat) (chs : List StreamChannel) : List StreamChannel :=
  chs.modify (fun c => { c with yData := c.yData.addSamples ((st.effective.data ci).take ns) }) ci

/-- Method `Stream::feedIn(pack)`. -/
def Stream.feedIn (s : Stream) (pack : SamplePack) : FeedOutcome :=
  if ¬ (pack.numChannels = s.numChannels ∧ pack.hasX = s.hasX) then
    { failure := some Failure.channelMismatch, stream := s, pack := pack, emitted := [], sinkCalls := [] }
  else if s.paused then
    { failure := none, stream := s, pack := pack, emitted := [], sinkCalls := [] }
  else
    let ns := pack.numSamples
    if s.hasx then
      { failure := some Failure.xRingBufferUnimplemented, stream := s, pack := pack,
        emitted := [], sinkCalls := [] }
    else
      let st0 : PackStore := { pack := pack, mPack := none }
      match (if s.infoModel.gainOrOffsetEn then s.applyGainOffset st0 else some st0) with
      | none =>
        { failure := some Failure.gainOffsetDisabled, stream := s, pack := st0.pack,
          emitted := [], sinkCalls := [] }
      | some st =>
        let chs := forLoop (feedChannel st ns) s.numChannels s.channels
        { failure := none
          stream := { s with channels := chs }
          pack := st.pack
          emitted := [Signal.dataAdded]
          sinkCalls := [SinkCall.feedIn st.effective] }

/-- The store with the samples of the copy rewritten by `F`; the caller's
batch is left alone. -/
def PackStore.mapCopy (st : PackStore) (F : List (List ℚ) → List (List ℚ)) : PackStore :=
  { st with mPack := st.mPack.map (fun m => { m with yData := F m.yData }) }

/-- What the two sample loops of `applyGainOffset` do to the row of channel
`ci`, a row of the copy. -/
def Stream.transformRow (s : Stream) (ns ci : Nat) (row : List ℚ) : List ℚ :=
  let row1 :=
    if s.infoModel.gainEn ci then
      forLoop (fun i (r : List ℚ) => r.modify (fun v => v * s.infoModel.gain ci) i) ns row
    else row
  if s.infoModel.offsetEn ci then
    forLoop (fun i (r : List ℚ) => r.modify (fun v => v + s.infoModel.offset ci) i) ns row1
  else row1

/-- The batch `feedIn` ingests, whether a copy was made or not. -/
def Stream.ingested (s : Stream) (pack : SamplePack) : Option PackStore :=
  if s.infoModel.gainOrOffsetEn then s.applyGainOffset { pack := pack, mPack := none }
  else some { pack := pack, mPack := none }

/-- The stream `Stream(2, false, 4)`: two channels of capacity 4. -/
def exampleStream : Stream := (Stream.construct 2 false 4).stream

/-- The stream `exampleStream` once the registry holds gain 2 and offset 10,
both enabled, for channel 0; channel 1 has neither. -/
def exampleGainStream : Stream :=
  { exampleStream with
    infoModel := { exampleStream.infoModel with
      infos := [{ gainEn := true, gain := 2, offsetEn := true, offset := 10 }] } }

/-- A batch of one sample, the value 5, for each of two channels. -/
def exampleBatch : SamplePack :=
  { numSamples := 1, numChannels := 2, hasX := false, yData := [[5], [5]], xData := [] }

/-- A batch of two samples for each of two channels. -/
def exampleHistory : SamplePack :=
  { numSamples := 2, numChannels := 2, hasX := false, yData := [[1, 2], [3, 4]], xData := [] }

/-- The stream `exampleStream` after it ingested `exampleHistory`: its two
channels hold different samples. -/
def exampleFedStream : Stream := (exampleStream.feedIn exampleHistory).stream

/-! ## Buffers: clearing, resizing, X values -/

/-- Modelled from the spec: the sample stored at logical index `i`, read from
the slot `read` looks at; 0 stands for a slot outside the storage. -/
def RingBuffer.sample (b : RingBuffer) (i : Nat) : ℚ :=
  b.values.getD ((b.writeCursor + b.capacity - b.count + i) % b.capacity) 0

/-- Modelled from the spec: `RingBuffer::clear`, the spec's `clear()` of §4.1:
"sets `count = 0`, `writeCursor = 0`; retained storage may be reused without
reallocation". -/
def RingBuffer.clear (b : RingBuffer) : RingBuffer :=
  { b with writeCursor := 0, count := 0 }

/-- Modelled from the spec: `RingBuffer::resize`, the spec's `resize` of §4.1:
"preserves the newest `min(count, newCapacity)` samples in oldest-to-newest
order, re-indexed from 0; clears the rest" (new slots are zero until
written, §3). -/
def RingBuffer.resize (b : RingBuffer) (newCapacity : Nat) : RingBuffer :=
  let kept := min b.count newCapacity
  { capacity := newCapacity
    values :=
      (List.range kept).map (fun i => b.sample (b.count - kept + i)) ++
        List.replicate (newCapacity - kept) 0
    writeCursor := kept % newCapacity
    count := kept }

/-- A ring buffer is well formed when its storage has `capacity` slots and it
holds at most `capacity` samples. -/
def RingBuffer.WF (b : RingBuffer) : Prop :=
  b.values.length = b.capacity ∧ b.count ≤ b.capacity

instance (b : RingBuffer) : Decidable b.WF := by
  unfold RingBuffer.WF; infer_instance

/-- Modelled from the spec: the capacity of an X buffer. -/
def XFrameBuffer.size : XFrameBuffer → Nat
  | XFrameBuffer.indexBuffer n => n
  | XFrameBuffer.linIndexBuffer n _ _ => n

/-- Modelled from the spec: `resize(newCapacity)` of an X buffer (§4.2): the
index source keeps no state beyond its capacity, the linear source keeps its
range and "recomputes its step size". -/
def XFrameBuffer.resize : XFrameBuffer → Nat → XFrameBuffer
  | XFrameBuffer.indexBuffer _, n => XFrameBuffer.indexBuffer n
  | XFrameBuffer.linIndexBuffer _ lo hi, n => XFrameBuffer.linIndexBuffer n lo hi

/-- Modelled from the spec: `valueAt(logicalIndex)` of an X buffer (§3, §4.2):
the index source gives the position, the linear source
`min + position * (max - min) / (capacity - 1)`; `none` beyond the capacity. -/
def XFrameBuffer.sample : XFrameBuffer → Nat → Option ℚ
  | XFrameBuffer.indexBuffer n, i => if i < n then some (i : ℚ) else none
  | XFrameBuffer.linIndexBuffer n lo hi, i =>
    if i < n then some (lo + (i : ℚ) * (hi - lo) / ((n : ℚ) - 1)) else none

/-! ## `Stream`: `pause`, `clear`, `setNumSamples`, `setXAxis` -/

/-- Method `Stream::pause(paused)`. -/
def Stream.pause (s : Stream) (paused : Bool) : Outcome :=
  { failure := none, stream := { s with paused := paused }, emitted := [], sinkCalls := [] }

/-- Method `Stream::clear()`: `clear()` on the ring buffer of every channel. -/
def Stream.clear (s : Stream) : Outcome :=
  { failure := none
    stream := { s with channels := s.channels.map (fun c => { c with yData := c.yData.clear }) }
    emitted := []
    sinkCalls := [] }

/-- Method `Stream::setNumSamples(value)`: `xData->resize(value)` acts on the X
buffer at address `xData`, in place. -/
def Stream.setNumSamples (s : Stream) (value : Nat) : Outcome :=
  if value = s.numSamples then
    { failure := none, stream := s, emitted := [], sinkCalls := [] }
  else
    let s1 : Stream := { s with numSamples := value }
    let s2 : Stream := { s1 with xHeap := s1.xHeap.modify (fun b => b.resize value) s1.xData }
    { failure := none
      stream := { s2 with
        channels := s2.channels.map (fun c => { c with yData := c.yData.resize value }) }
      emitted := []
      sinkCalls := [] }

/-- Method `Stream::setXAxis(asIndex, min, max)`. -/
def Stream.setXAxis (s : Stream) (asIndex : Bool) (min max : ℚ) : Outcome :=
  let s1 : Stream := { s with xAsIndex := asIndex, xMin := min, xMax := max }
  if !s1.hasX then
    let s2 := s1.assignNewXBuffer
    { failure := none
      stream := { s2 with channels := s2.channels.map (fun c => { c with xData := s2.xData }) }
      emitted := []
      sinkCalls := [] }
  else
    { failure := none, stream := s1, emitted := [], sinkCalls := [] }

/-- The ring buffers of the channels, in channel order. -/
def Stream.buffers (s : Stream) : List RingBuffer := s.channels.map (fun c => c.yData)

/-- The X value channel `c` sees at logical index `i`: the value of the X
buffer its `xData` points to. -/
def Stream.xAt (s : Stream) (c : StreamChannel) (i : Nat) : Option ℚ :=
  (s.xHeap[c.xData]?).bind (fun b => b.sample i)

/-- Every channel buffer has capacity `numSamples()`. -/
def Stream.SameCapacity (s : Stream) : Prop :=
  ∀ b ∈ s.buffers, b.capacity = s.numSamples

/-- All channel buffers hold the same number of samples. -/
def Stream.SameCount (s : Stream) : Prop :=
  ∀ b ∈ s.buffers, ∀ b' ∈ s.buffers, b.count = b'.count

/-- The buffers of the stream are synchronised: any two channel buffers have
the same fill count and the same capacity. -/
def Stream.Synchronised (s : Stream) : Prop :=
  ∀ b ∈ s.buffers, ∀ b' ∈ s.buffers, b.count = b'.count ∧ b.capacity = b'.capacity

instance (s : Stream) : Decidable s.SameCapacity := by
  unfold Stream.SameCapacity; infer_instance

instance (s : Stream) : Decidable s.SameCount := by
  unfold Stream.SameCount; infer_instance

instance (s : Stream) : Decidable s.Synchronised := by
  unfold Stream.Synchronised; infer_instance

/-- The X buffer `xData` points to exists and has size `numSamples()`. -/
def Stream.XSized (s : Stream) : Prop :=
  ∃ b, s.xHeap[s.xData]? = some b ∧ b.size = s.numSamples

/-- The states a stream built by `Stream(nc, false, ns)` can be in: the state
the constructor leaves, and the state any call of `feedIn`, `setNumChannels`,
`setNumSamples`, `setXAxis`, `clear` or `pause` returns with (a call that
fails an assertion does not return). -/
inductive Stream.Reachable (nc ns : Nat) : Stream → Prop
  | construct : Stream.Reachable nc ns (Stream.construct nc false ns).stream
  | feedIn (s : Stream) (pack : SamplePack) :
      Stream.Reachable nc ns s → (s.feedIn pack).failure = none →
      Stream.Reachable nc ns (s.feedIn pack).stream
  | setNumChannels (s : Stream) (n : Nat) (x : Bool) :
      Stream.Reachable nc ns s → (s.setNumChannels n x).failure = none →
      Stream.Reachable nc ns (s.setNumChannels n x).stream
  | setNumSamples (s : Stream) (value : Nat) :
      Stream.Reachable nc ns s → Stream.Reachable nc ns (s.setNumSamples value).stream
  | setXAxis (s : Stream) (asIndex : Bool) (lo hi : ℚ) :
      Stream.Reachable nc ns s → Stream.Reachable nc ns (s.setXAxis asIndex lo hi).stream
  | clear (s : Stream) :
      Stream.Reachable nc ns s → Stream.Reachable nc ns s.clear.stream
  | pause (s : Stream) (paused : Bool) :
      Stream.Reachable nc ns s → Stream.Reachable nc ns (s.pause paused).stream

/-- A ring buffer of capacity 5 after the samples 1, 2, 3, 4, 5 were
appended. -/
def exampleFullBuffer : RingBuffer := (RingBuffer.new 5).addSamples [1, 2, 3, 4, 5]

/-- The stream `Stream(1, false, 10)` of the X-mode example: one channel of
capacity 10. -/
def exampleTenStream : Stream := (Stream.construct 1 false 10).stream

/-- The first step of `setNumChannels(nc, x)`: the stream once channels were
appended (`nc > oldNum`) or taken from the tail (`nc < oldNum`). -/
def Stream.withChannelCount (s : Stream) (nc : Nat) : Stream :=
  if nc > s.numChannels then
    { s with
      channels :=
        forRange s.numChannels nc
          (fun i (chs : List StreamChannel) =>
            chs ++ [{ index := i, xData := s.xData, yData := RingBuffer.new s.numSamples }])
          s.channels }
  else if nc < s.numChannels then
    { s with channels := takeLastLoop (usub nc 1) (s.numChannels - 1) s.channels }
  else s

/-- Every channel reads the X buffer of the stream, and that buffer is the
linear one for the range `lo .. hi` at the current capacity. -/
def Stream.LinearX (s : Stream) (lo hi : ℚ) : Prop :=
  (∀ c ∈ s.channels, c.xData = s.xData) ∧
  s.xHeap[s.xData]? = some (XFrameBuffer.linIndexBuffer s.numSamples lo hi)

/-- Every channel reads the X buffer of the stream, and that buffer is the
one allocated last. -/
def Stream.SharedX (s : Stream) : Prop :=
  (∀ c ∈ s.channels, c.xData = s.xData) ∧ s.xData + 1 = s.xHeap.length

/-- A batch of one sample for each of three channels. -/
def exampleThreeBatch : SamplePack :=
  { numSamples := 1, numChannels := 3, hasX := false, yData := [[1], [2], [3]], xData := [] }

/-! ## `PlotControlPanel`: confirmation of a large number of samples -/

/-- Constant `NUMSAMPLES_CONFIRM_AT` of `plotcontrolpanel.cpp`. -/
def NUMSAMPLES_CONFIRM_AT : Int := 1000000

/-- The members of `PlotControlPanel` that `onNumOfSamples` reads and writes:
the flag `warnNumOfSamples`, the stored `_numOfSamples` and the value shown by
the spin box `ui->spNumOfSamples`. -/
structure PlotControlPanel where
  warnNumOfSamples : Bool
  _numOfSamples : Int
  spNumOfSamples : Int
deriving DecidableEq

/-- What the user does with the confirmation dialog: the states the check box
"Don't show this again." goes through (`true` is checked), one for each
`stateChanged`, and whether the dialog is closed with the Apply button. -/
structure NSAnswer where
  stateChanged : List Bool
  apply : Bool
deriving DecidableEq

/-- The result of `onNumOfSamples`: the panel, the values the dialog was shown
for, and the arguments of the `numOfSamplesChanged` signals emitted. -/
structure NumOfSamplesOutcome where
  panel : PlotControlPanel
  asked : List Int
  emitted : List Int
deriving DecidableEq

/-- Method `PlotControlPanel::askNSConfirmation`: every `stateChanged` of the
check box stores `state == Qt::Unchecked` in `warnNumOfSamples`; the result is
`mb.exec() == QMessageBox::Apply`. -/
def PlotControlPanel.askNSConfirmation (p : PlotControlPanel) (answer : NSAnswer) :
    Bool × PlotControlPanel :=
  (answer.apply,
   { p with
     warnNumOfSamples :=
       answer.stateChanged.foldl (fun _ checked => !checked) p.warnNumOfSamples })

/-- Slot `PlotControlPanel::onNumOfSamples(value)`. While the spin box is set
back the slot is disconnected from it, so `setValue` is an assignment. -/
def PlotControlPanel.onNumOfSamples (p : PlotControlPanel) (value : Int) (answer : NSAnswer) :
    NumOfSamplesOutcome :=
  if p.warnNumOfSamples = true ∧ value > NUMSAMPLES_CONFIRM_AT then
    if (p.askNSConfirmation answer).1 = false then
      { panel :=
          { (p.askNSConfirmation answer).2 with
            spNumOfSamples := (p.askNSConfirmation answer).2._numOfSamples }
        asked := [value]
        emitted := [] }
    else
      { panel := { (p.askNSConfirmation answer).2 with _numOfSamples := value }
        asked := [value]
        emitted := [value] }
  else
    { panel := { p with _numOfSamples := value }, asked := [], emitted := [value] }

/-- A panel with warnings enabled that holds 1000 samples, the spin box
already showing the value the user typed, 2000000. -/
def examplePanel : PlotControlPanel :=
  { warnNumOfSamples := true, _numOfSamples := 1000, spNumOfSamples := 2000000 }

/-! ## `Plot`: size of the sample symbols -/

/-- Constant `SYMBOL_SHOW_AT_WIDTH` of `plot.cpp`. -/
def SYMBOL_SHOW_AT_WIDTH : Int := 5

/-- Constant `SYMBOL_SIZE_MAX` of `plot.cpp`. -/
def SYMBOL_SIZE_MAX : Int := 7

/-- The enumeration `Plot::ShowSymbols`. -/
inductive ShowSymbols
  | ShowSymbolsAuto
  | ShowSymbolsShow
  | ShowSymbolsHide
deriving DecidableEq

/-- The members of `Plot` that decide the symbol size. -/
structure Plot where
  showSymbols : ShowSymbols
  symbolSize : Int
deriving DecidableEq

/-- The symbol members as the constructor `Plot::Plot` leaves them. -/
def Plot.new : Plot := { showSymbols := ShowSymbols.ShowSymbolsAuto, symbolSize := 0 }

/-- Method `Plot::calcSymbolSize`, from the local `int symDisPx` on; its
value, the rounded pixel distance between two samples, is computed in floating
point from the scale map and the zoom and is the argument here. On the second
branch `symDisPx ≥ 5`, so `symDisPx-SYMBOL_SHOW_AT_WIDTH+1` stays between 1 and
`symDisPx` and cannot overflow. -/
def Plot.calcSymbolSize (p : Plot) (symDisPx : Int) : Plot :=
  if symDisPx < SYMBOL_SHOW_AT_WIDTH then { p with symbolSize := 0 }
  else { p with symbolSize := min SYMBOL_SIZE_MAX (symDisPx - SYMBOL_SHOW_AT_WIDTH + 1) }

/-- Method `Plot::setSymbols(shown)`; `symDisPx` is the pixel distance that
`calcSymbolSize` would compute. -/
def Plot.setSymbols (p : Plot) (shown : ShowSymbols) (symDisPx : Int) : Plot :=
  if shown = ShowSymbols.ShowSymbolsAuto then
    ({ p with showSymbols := shown } : Plot).calcSymbolSize symDisPx
  else if shown = ShowSymbols.ShowSymbolsShow then
    { p with showSymbols := shown, symbolSize := SYMBOL_SIZE_MAX }
  else { p with showSymbols := shown, symbolSize := 0 }

/-- Slot `Plot::onXScaleChanged`. -/
def Plot.onXScaleChanged (p : Plot) (symDisPx : Int) : Plot :=
  if p.showSymbols = ShowSymbols.ShowSymbolsAuto then p.calcSymbolSize symDisPx else p

/-! ## `ScalePicker`: picking a range on a scale with the mouse -/

/-- Constant `MIN_PICK_SIZE` of `scalepicker.cpp`, in pixels. -/
def MIN_PICK_SIZE : Int := 2

/-- Constant `SNAP_DISTANCE` of `scalepicker.cpp`, in pixels. -/
def SNAP_DISTANCE : Int := 5

/-- The three event types that `eventFilter` treats as mouse events. -/
inductive MouseEventType
  | MouseButtonPress
  | MouseButtonRelease
  | MouseMove
deriving DecidableEq

/-- What `eventFilter` reads from a `QMouseEvent`: its type, whether
`button() == Qt::LeftButton`, whether `modifiers()` holds `Qt::ShiftModifier`,
and the pixel position `positionPx(mouseEvent)` along the scale. -/
structure MouseEvent where
  type : MouseEventType
  leftButton : Bool
  shift : Bool
  posPx : Int
deriving DecidableEq

/-- The events `eventFilter` tells apart: mouse events, `QEvent::Leave`, and
all others. -/
inductive PickerEvent
  | mouse (e : MouseEvent)
  | leave
  | other
deriving DecidableEq

/-- What `eventFilter` reads from the scale widget while it handles one event:
the pixel positions of the major, medium and minor ticks in that order, which
`updateSnapPoints` stores in `snapPoints`, and the map `position` from a pixel
to a scale value. -/
structure ScaleView where
  ticksPx : List Int
  position : Int → ℚ

/-- The members of `ScalePicker` that `eventFilter` reads and writes. -/
structure ScalePicker where
  started : Bool
  pressed : Bool
  firstPos : ℚ
  firstPosPx : Int
  currentPosPx : Int
  snapPoints : List Int
deriving DecidableEq

/-- The result of `eventFilter`: the picker, the arguments of the `picked`
signals emitted, and the returned flag. -/
structure PickOutcome where
  picker : ScalePicker
  picked : List (ℚ × ℚ)
  handled : Bool
deriving DecidableEq

/-- The constructor `ScalePicker::ScalePicker`: it clears `started` and
`pressed`; `firstPos`, `firstPosPx` and `currentPosPx` are not initialised and
hold the values given here. -/
def ScalePicker.construct (firstPos : ℚ) (firstPosPx currentPosPx : Int) : ScalePicker :=
  { started := false, pressed := false, firstPos := firstPos, firstPosPx := firstPosPx,
    currentPosPx := currentPosPx, snapPoints := [] }

/-- The snap loop of `eventFilter`,
`for (auto sp : snapPoints) if (std::abs(posPx-sp) <= SNAP_DISTANCE) { posPx = sp; break; }`:
the result is the final `posPx`. -/
def ScalePicker.snap (posPx : Int) : List Int → Int
  | [] => posPx
  | sp :: rest => if |posPx - sp| ≤ SNAP_DISTANCE then sp else ScalePicker.snap posPx rest

/-- The local `posPx` of `eventFilter` after the snap block, which is skipped
when Shift is held. -/
def ScalePicker.snappedPx (e : MouseEvent) (snapPoints : List Int) : Int :=
  if e.shift = false then ScalePicker.snap e.posPx snapPoints else e.posPx

/-- Method `ScalePicker::eventFilter` (the overlays it repaints are not part
of the state). -/
def ScalePicker.eventFilter (sp : ScalePicker) (view : ScaleView) (event : PickerEvent) :
    PickOutcome :=
  match event with
  | PickerEvent.mouse e =>
    let posPx := ScalePicker.snappedPx e view.ticksPx
    let pos := view.position posPx
    let s1 : ScalePicker := { sp with snapPoints := view.ticksPx, currentPosPx := posPx }
    if e.type = MouseEventType.MouseButtonPress ∧ e.leftButton = true then
      { picker := { s1 with pressed := true, firstPos := pos, firstPosPx := posPx }
        picked := []
        handled := true }
    else if e.type = MouseEventType.MouseMove then
      if s1.started = false ∧ s1.pressed = true ∧ |posPx - s1.firstPosPx| > MIN_PICK_SIZE then
        { picker := { s1 with started := true }, picked := [], handled := true }
      else { picker := s1, picked := [], handled := true }
    else if s1.started = true then
      if s1.firstPos ≠ pos then
        { picker := { s1 with pressed := false, started := false }
          picked := [(s1.firstPos, pos)]
          handled := true }
      else
        { picker := { s1 with pressed := false, started := false }
          picked := []
          handled := true }
    else { picker := { s1 with pressed := false }, picked := [], handled := true }
  | PickerEvent.leave => { picker := sp, picked := [], handled := true }
  | PickerEvent.other => { picker := sp, picked := [], handled := false }

/-- A sequence of events handled one after the other, each with the scale as
it is at that moment: the final picker and all `picked` signals in order. -/
def ScalePicker.run (sp : ScalePicker) : List (ScaleView × PickerEvent) → ScalePicker × List (ℚ × ℚ)
  | [] => (sp, [])
  | (view, event) :: rest =>
    (((sp.eventFilter view event).picker.run rest).1,
     (sp.eventFilter view event).picked ++ ((sp.eventFilter view event).picker.run rest).2)

/-- Whether an event is a mouse move. -/
def PickerEvent.isMove : PickerEvent → Bool
  | PickerEvent.mouse e => decide (e.type = MouseEventType.MouseMove)
  | PickerEvent.leave => false
  | PickerEvent.other => false

/-- A scale without ticks on which the value of a pixel is its number. -/
def exampleView : ScaleView := { ticksPx := [], position := fun px => (px : ℚ) }

/-- A mouse event of the given type at a pixel, left button, no Shift. -/
def exampleMouse (type : MouseEventType) (posPx : Int) : ScaleView × PickerEvent :=
  (exampleView, PickerEvent.mouse { type := type, leftButton := true, shift := false, posPx := posPx })

/-- A drag that goes out and comes back: press at pixel 100, move to 110,
release at 101. -/
def exampleDragBack : List (ScaleView × PickerEvent) :=
  [exampleMouse MouseEventType.MouseButtonPress 100,
   exampleMouse MouseEventType.MouseMove 110,
   exampleMouse MouseEventType.MouseButtonRelease 101]

/-- A click: press and release at pixel 100. -/
def exampleClick : List (ScaleView × PickerEvent) :=
  [exampleMouse MouseEventType.MouseButtonPress 100,
   exampleMouse MouseEventType.MouseButtonRelease 100]

/-! ## `PlotManager`: curves and plot widgets -/

/-- The loop `for (unsigned i = 0; i < n; i++) body(i)` with a body that can
fail: the first failure ends the run. -/
def forLoopE {σ ε : Type} (body : Nat → σ → Except ε σ) : Nat → σ → Except ε σ
  | 0, st => Except.ok st
  | n + 1, st =>
    match forLoopE body n st with
    | Except.ok st1 => body n st1
    | Except.error e => Except.error e

/-- Method `Stream::allChannels`: `channel(ci)` for every `ci < numChannels()`. -/
def Stream.allChannels (s : Stream) : List StreamChannel :=
  (List.range s.numChannels).filterMap (fun ci => s.channel ci)

/-- A `QwtPlotCurve` as `PlotManager` keeps it: the buffers its series reads
(`xBuf` is the address of an X buffer; `yBuf` stands for the address of a
channel's ring buffer and is the index of that channel), whether it is
visible, and the plot widget it is attached to, as a position in
`plotWidgets`. Title and pen are left out. -/
structure PlotCurve where
  xBuf : Nat
  yBuf : Nat
  visible : Bool
  plot : Option Nat
deriving DecidableEq

/-- A `Plot` as `PlotManager` sees it: the channels it was given with
`setDispChannels` (their indices), whether the widget is visible, and whether
the "No Visible Channels" indicator is shown. The display settings copied
from the menu are left out. -/
structure PlotWidget where
  dispChannels : List Nat
  visible : Bool
  noChannel : Bool
deriving DecidableEq

/-- The widget `new Plot()` gives: no channels, the indicator hidden. -/
def PlotWidget.new : PlotWidget := { dispChannels := [], visible := true, noChannel := false }

/-- The ways the `PlotManager` methods modelled here can abort: `_stream` is
dereferenced while it is `nullptr`; `Q_ASSERT(index < numChannels())` of
`Stream::channel` fails; `plotWidgets[0]` is read or `plotWidgets.takeLast()`
is called on an empty list. -/
inductive PlotFailure
  | nullStream
  | channelIndex
  | plotWidgetIndex
  | takeLastEmpty
deriving DecidableEq

/-- The members `isMulti`, `curves` and `plotWidgets` of `PlotManager`. The
stream `_stream` points to is an argument of each method: `none` is `nullptr`
(a manager that shows a snapshot), `some s` the stream in its state at the
call. -/
structure PlotManager where
  isMulti : Bool
  curves : List PlotCurve
  plotWidgets : List PlotWidget
deriving DecidableEq

/-- Method `PlotManager::numOfCurves`. -/
def PlotManager.numOfCurves (pm : PlotManager) : Nat := pm.curves.length

/-- Method `PlotManager::addPlotWidget`: the manager and the position of the
new widget. -/
def PlotManager.addPlotWidget (pm : PlotManager) : PlotManager × Nat :=
  ({ pm with plotWidgets := pm.plotWidgets ++ [PlotWidget.new] }, pm.plotWidgets.length)

/-- A call of a `Plot` method through a pointer into `plotWidgets`. -/
def PlotManager.onPlot (pm : PlotManager) (plot : Nat) (f : PlotWidget → PlotWidget) :
    PlotManager :=
  { pm with plotWidgets := pm.plotWidgets.modify f plot }

/-- The call `curve->attach(plot)` for the curve at `index`. -/
def PlotManager.attach (pm : PlotManager) (index plot : Nat) : PlotManager :=
  { pm with curves := pm.curves.modify (fun c => { c with plot := some plot }) index }

/-- Method `PlotManager::checkNoVisChannels`. -/
def PlotManager.checkNoVisChannels (pm : PlotManager) : Except PlotFailure PlotManager :=
  if pm.plotWidgets.length = 0 then Except.error PlotFailure.plotWidgetIndex
  else
    Except.ok
      (if pm.isMulti = true then
        pm.onPlot 0
          (fun w => { w with noChannel := !(pm.curves.any (fun c => c.visible)), visible := true })
      else pm.onPlot 0 (fun w => { w with noChannel := !(pm.curves.any (fun c => c.visible)) }))

/-- One round of the multi-plot loop of `setMulti` for the curve at `i`: a new
widget with the curve's visibility, showing channel `i` when there is a
stream, and the curve attached to it. -/
def PlotManager.giveOwnPlot (stream : Option Stream) (i : Nat) (pm : PlotManager) :
    Except PlotFailure PlotManager :=
  match stream with
  | none =>
    Except.ok
      ((pm.addPlotWidget.1.onPlot pm.addPlotWidget.2
        (fun w => { w with visible := ((pm.curves[i]?).map (fun c => c.visible)).getD true })).attach
        i pm.addPlotWidget.2)
  | some s =>
    match s.channel i with
    | none => Except.error PlotFailure.channelIndex
    | some ch =>
      Except.ok
        ((pm.addPlotWidget.1.onPlot pm.addPlotWidget.2
          (fun w =>
            { w with
              visible := ((pm.curves[i]?).map (fun c => c.visible)).getD true
              dispChannels := [ch.index] })).attach
          i pm.addPlotWidget.2)

/-- The single-plot branch of `setMulti`: one new widget that shows all
channels of the stream, every curve attached to it. -/
def PlotManager.giveSharedPlot (stream : Option Stream) (pm : PlotManager) : PlotManager :=
  let shown : PlotManager :=
    match stream with
    | none => pm.addPlotWidget.1
    | some s =>
      pm.addPlotWidget.1.onPlot pm.addPlotWidget.2
        (fun w => { w with dispChannels := s.allChannels.map (fun c => c.index) })
  { shown with curves := shown.curves.map (fun c => { c with plot := some pm.addPlotWidget.2 }) }

/-- Method `PlotManager::setMulti(enabled)`. -/
def PlotManager.setMulti (pm : PlotManager) (stream : Option Stream) (enabled : Bool) :
    Except PlotFailure PlotManager :=
  let cleared : PlotManager :=
    { isMulti := enabled
      curves := pm.curves.map (fun c => { c with plot := none })
      plotWidgets := [] }
  match
    (if enabled = true then
      forLoopE (PlotManager.giveOwnPlot stream) cleared.curves.length cleared
    else Except.ok (PlotManager.giveSharedPlot stream cleared)) with
  | Except.error e => Except.error e
  | Except.ok filled =>
    if filled.plotWidgets.length ≠ 0 then filled.checkNoVisChannels else Except.ok filled

/-- Method `PlotManager::construct`: single-plot mode, then
`setMulti(menu->showMultiAction.isChecked())`; `curves` and `plotWidgets` are
empty lists in a new object. -/
def PlotManager.construct (stream : Option Stream) (showMulti : Bool) :
    Except PlotFailure PlotManager :=
  ({ isMulti := false, curves := [], plotWidgets := [] } : PlotManager).setMulti stream showMulti

/-- Method `PlotManager::_addCurve(curve)`. -/
def PlotManager._addCurve (pm : PlotManager) (stream : Option Stream) (curve : PlotCurve) :
    Except PlotFailure PlotManager :=
  let stored : PlotManager := { pm with curves := pm.curves ++ [curve] }
  let index := stored.curves.length - 1
  if stored.isMulti = false ∧ stored.plotWidgets.length = 0 then
    Except.error PlotFailure.plotWidgetIndex
  else
    let withPlot : PlotManager × Nat :=
      if stored.isMulti = true then stored.addPlotWidget else (stored, 0)
    match stream with
    | none => (withPlot.1.attach index withPlot.2).checkNoVisChannels
    | some s =>
      if stored.isMulti = true then
        match s.channel index with
        | none => Except.error PlotFailure.channelIndex
        | some ch =>
          ((withPlot.1.onPlot withPlot.2 (fun w => { w with dispChannels := [ch.index] })).attach
            index withPlot.2).checkNoVisChannels
      else
        ((withPlot.1.onPlot withPlot.2
          (fun w => { w with dispChannels := s.allChannels.map (fun c => c.index) })).attach
          index withPlot.2).checkNoVisChannels

/-- Method `PlotManager::addCurve(title, xBuf, yBuf)`: a new curve, visible and
not attached, handed to `_addCurve`. -/
def PlotManager.addCurve (pm : PlotManager) (stream : Option Stream) (xBuf yBuf : Nat) :
    Except PlotFailure PlotManager :=
  pm._addCurve stream { xBuf := xBuf, yBuf := yBuf, visible := true, plot := none }

/-- One round of the loop of `removeCurves`: the last curve is deleted if
there is one, and in multi-plot mode the last widget with it. -/
def PlotManager.removeLastCurve (pm : PlotManager) : Except PlotFailure PlotManager :=
  if pm.curves.length = 0 then Except.ok pm
  else if pm.isMulti = true then
    if pm.plotWidgets.length = 0 then Except.error PlotFailure.takeLastEmpty
    else
      Except.ok { pm with curves := pm.curves.dropLast, plotWidgets := pm.plotWidgets.dropLast }
  else Except.ok { pm with curves := pm.curves.dropLast }

/-- Method `PlotManager::removeCurves(number)`. -/
def PlotManager.removeCurves (pm : PlotManager) (stream : Option Stream) (number : Nat) :
    Except PlotFailure PlotManager :=
  match stream with
  | none => forLoopE (fun _ st => PlotManager.removeLastCurve st) number pm
  | some s =>
    if pm.isMulti = false then
      if pm.plotWidgets.length = 0 then Except.error PlotFailure.plotWidgetIndex
      else
        forLoopE (fun _ st => PlotManager.removeLastCurve st) number
          (pm.onPlot 0 (fun w => { w with dispChannels := s.allChannels.map (fun c => c.index) }))
    else forLoopE (fun _ st => PlotManager.removeLastCurve st) number pm

/-- One round of the grow loop of `onNumChannelsChanged`:
`addCurve(_stream->channel(i)->name(), _stream->channel(i)->xData(), _stream->channel(i)->yData())`. -/
def PlotManager.addChannelCurve (stream : Option Stream) (i : Nat) (pm : PlotManager) :
    Except PlotFailure PlotManager :=
  match stream with
  | none => Except.error PlotFailure.nullStream
  | some s =>
    match s.channel i with
    | none => Except.error PlotFailure.channelIndex
    | some ch => pm.addCurve stream ch.xData ch.index

/-- Slot `PlotManager::onNumChannelsChanged(value)` (the final `replot()`
changes none of the members kept here). -/
def PlotManager.onNumChannelsChanged (pm : PlotManager) (stream : Option Stream) (value : Nat) :
    Except PlotFailure PlotManager :=
  if value > pm.numOfCurves then
    forLoopE (fun k st => PlotManager.addChannelCurve stream (pm.numOfCurves + k) st)
      (value - pm.numOfCurves) pm
  else if value < pm.numOfCurves then pm.removeCurves stream (pm.numOfCurves - value)
  else Except.ok pm

/-- The constructor `PlotManager::PlotManager(plotArea, menu, stream, parent)`:
`construct`, then a curve for every channel of the stream. -/
def PlotManager.withStream (stream : Option Stream) (showMulti : Bool) :
    Except PlotFailure PlotManager :=
  match PlotManager.construct stream showMulti with
  | Except.error e => Except.error e
  | Except.ok pm =>
    match stream with
    | none => Except.ok pm
    | some s => forLoopE (fun i st => PlotManager.addChannelCurve stream i st) s.numChannels pm

/-- The constructor `PlotManager::PlotManager(plotArea, menu, snapshot, parent)`:
`_stream` is `nullptr`; `construct`, a curve for every channel of the
snapshot (its buffers `xData[ci]`, `yData[ci]` stand as `ci`), then
`checkNoVisChannels()`. -/
def PlotManager.withSnapshot (numChannels : Nat) (showMulti : Bool) :
    Except PlotFailure PlotManager :=
  match PlotManager.construct none showMulti with
  | Except.error e => Except.error e
  | Except.ok pm =>
    match forLoopE (fun ci st => PlotManager.addCurve st none ci ci) numChannels pm with
    | Except.error e => Except.error e
    | Except.ok pm1 => pm1.checkNoVisChannels

/-- The layout invariant of `PlotManager`: as many plot widgets as curves in
multi-plot mode, exactly one otherwise. -/
def PlotManager.LayoutOK (pm : PlotManager) : Prop :=
  if pm.isMulti = true then pm.plotWidgets.length = pm.curves.length
  else pm.plotWidgets.length = 1

instance (pm : PlotManager) : Decidable pm.LayoutOK := by
  unfold PlotManager.LayoutOK; infer_instance

/-- The managers that a constructor and then calls of `setMulti`, `addCurve`,
`removeCurves` and `onNumChannelsChanged` that return give. -/
inductive PlotManager.Reachable : PlotManager → Prop
  | withStream (stream : Option Stream) (showMulti : Bool) (pm : PlotManager) :
      PlotManager.withStream stream showMulti = Except.ok pm → PlotManager.Reachable pm
  | withSnapshot (numChannels : Nat) (showMulti : Bool) (pm : PlotManager) :
      PlotManager.withSnapshot numChannels showMulti = Except.ok pm → PlotManager.Reachable pm
  | setMulti (pm : PlotManager) (stream : Option Stream) (enabled : Bool) (pm1 : PlotManager) :
      PlotManager.Reachable pm → pm.setMulti stream enabled = Except.ok pm1 →
      PlotManager.Reachable pm1
  | addCurve (pm : PlotManager) (stream : Option Stream) (xBuf yBuf : Nat) (pm1 : PlotManager) :
      PlotManager.Reachable pm → pm.addCurve stream xBuf yBuf = Except.ok pm1 →
      PlotManager.Reachable pm1
  | removeCurves (pm : PlotManager) (stream : Option Stream) (number : Nat) (pm1 : PlotManager) :
      PlotManager.Reachable pm → pm.removeCurves stream number = Except.ok pm1 →
      PlotManager.Reachable pm1
  | onNumChannelsChanged (pm : PlotManager) (stream : Option Stream) (value : Nat)
      (pm1 : PlotManager) :
      PlotManager.Reachable pm → pm.onNumChannelsChanged stream value = Except.ok pm1 →
      PlotManager.Reachable pm1

/-- The manager of `exampleFedStream` (two channels) in multi-plot mode, as
its constructor leaves it: two curves and two widgets. -/
def exampleManager : PlotManager :=
  match PlotManager.withStream (some exampleFedStream) true with
  | Except.ok pm => pm
  | Except.error _ => { isMulti := true, curves := [], plotWidgets := [] }

theorem forLoop_invariant {σ : Type} (P : σ → Prop) (body : Nat → σ → σ)
    (hbody : ∀ i st, P st → P (body i st)) (n : Nat) (st : σ) (h : P st) :
    P (forLoop body n st) := by
  induction n with
  | zero => exact h
  | succ n ih => exact hbody n _ ih

/-- A loop that rewrites element `i` of a list in round `i`. -/
theorem forLoop_modify_getElem? {α : Type} (g : Nat → α → α) (n : Nat) (l : List α) (j : Nat) :
    (forLoop (fun i (l : List α) => l.modify (g i) i) n l)[j]? =
      if j < n then (l[j]?).map (g j) else l[j]? := by
  induction n with
  | zero => simp [forLoop]
  | succ n ih =>
    simp only [forLoop, List.getElem?_modify, ih]
    by_cases h1 : n = j
    · subst h1
      simp
    · by_cases h2 : j < n
      · have h3 : j < n + 1 := by omega
        simp [h1, h2, h3]
      · have h3 : ¬ j < n + 1 := by omega
        simp [h1, h2, h3]

theorem forLoop_modify_length {α : Type} (g : Nat → α → α) (n : Nat) (l : List α) :
    (forLoop (fun i (l : List α) => l.modify (g i) i) n l).length = l.length := by
  induction n with
  | zero => rfl
  | succ n ih => simp [forLoop, ih]

/-- A loop that rewrites every element of a list in place maps the list. -/
theorem forLoop_modify_eq_map {α : Type} (f : α → α) (n : Nat) (l : List α)
    (h : l.length ≤ n) :
    forLoop (fun i (l : List α) => l.modify f i) n l = l.map f := by
  apply List.ext_getElem?
  intro j
  rw [forLoop_modify_getElem? (fun _ => f) n l j, List.getElem?_map]
  by_cases hj : j < n
  · simp [hj]
  · have : l.length ≤ j := by omega
    simp [hj, List.getElem?_eq_none this]

/-- A loop that rewrites one fixed element of a list in every round. -/
theorem forLoop_modify_fixed {α : Type} (h : Nat → α → α) (ci n : Nat) (l : List α) :
    forLoop (fun i (l : List α) => l.modify (h i) ci) n l =
      l.modify (fun a => forLoop h n a) ci := by
  induction n with
  | zero =>
    apply List.ext_getElem?
    intro j
    simp [forLoop, List.getElem?_modify]
  | succ n ih =>
    apply List.ext_getElem?
    intro j
    simp only [forLoop, ih, List.getElem?_modify]
    cases l[j]? with
    | none => rfl
    | some a =>
      by_cases hc : ci = j <;> simp [hc]

/-! ## The copy made by `applyGainOffset` -/

theorem list_modify_modify {α : Type} (f g : α → α) (n : Nat) (l : List α) :
    (l.modify f n).modify g n = l.modify (fun a => g (f a)) n := by
  apply List.ext_getElem?
  intro j
  simp only [List.getElem?_modify]
  cases l[j]? with
  | none => rfl
  | some a => by_cases hc : n = j <;> simp [hc]

theorem list_modify_self {α : Type} (n : Nat) (l : List α) :
    l.modify (fun a => a) n = l := by
  apply List.ext_getElem?
  intro j
  simp only [List.getElem?_modify]
  cases l[j]? with
  | none => rfl
  | some a => simp

theorem PackStore.mapCopy_self (st : PackStore) : st.mapCopy (fun y => y) = st := by
  rcases st with ⟨p, _ | m⟩ <;> rfl

theorem PackStore.mapCopy_mapCopy (st : PackStore) (F G : List (List ℚ) → List (List ℚ)) :
    (st.mapCopy F).mapCopy G = st.mapCopy (fun y => G (F y)) := by
  rcases st with ⟨p, _ | m⟩ <;> rfl

theorem forLoop_mapCopy (H : Nat → List (List ℚ) → List (List ℚ)) (n : Nat) (st : PackStore) :
    forLoop (fun i (st : PackStore) => st.mapCopy (H i)) n st =
      st.mapCopy (fun y => forLoop H n y) := by
  induction n with
  | zero => exact (PackStore.mapCopy_self st).symm
  | succ n ih => simp only [forLoop, ih, PackStore.mapCopy_mapCopy]

/-- One sample loop of `applyGainOffset` rewrites the row of channel `ci` of
the copy, and nothing else. -/
theorem forLoop_updateCopy (ci ns : Nat) (f : ℚ → ℚ) (st : PackStore) :
    forLoop (fun i (st : PackStore) => st.updateCopy ci i f) ns st =
      st.mapCopy (fun y =>
        y.modify (fun row => forLoop (fun i (r : List ℚ) => r.modify f i) ns row) ci) := by
  have h := forLoop_mapCopy (fun i y => y.modify (fun row => row.modify f i) ci) ns st
  have h2 : (fun y : List (List ℚ) =>
      forLoop (fun i y => y.modify (fun row => row.modify f i) ci) ns y) =
      (fun y => y.modify (fun row => forLoop (fun i (r : List ℚ) => r.modify f i) ns row) ci) := by
    funext y
    exact forLoop_modify_fixed (fun i (row : List ℚ) => row.modify f i) ci ns y
  rw [h2] at h
  exact h

theorem Stream.applyGainOffsetChannel_eq (s : Stream) (ns ci : Nat) (st : PackStore) :
    s.applyGainOffsetChannel ns ci st =
      st.mapCopy (fun y => y.modify (s.transformRow ns ci) ci) := by
  unfold Stream.applyGainOffsetChannel Stream.transformRow
  cases hg : s.infoModel.gainEn ci <;> cases ho : s.infoModel.offsetEn ci
  · have : (fun y : List (List ℚ) => y.modify (fun row => row) ci) = fun y => y := by
      funext y; exact list_modify_self ci y
    simp only [Bool.or_self, Bool.false_eq_true, if_false]
    rw [this, PackStore.mapCopy_self]
  · simp only [Bool.or_true, Bool.false_eq_true, if_false, if_true]
    rw [forLoop_updateCopy]
  · simp only [Bool.or_false, Bool.false_eq_true, if_false, if_true]
    rw [forLoop_updateCopy]
  · simp only [Bool.or_self, if_true]
    rw [forLoop_updateCopy, forLoop_updateCopy, PackStore.mapCopy_mapCopy]
    congr 1
    funext y
    exact list_modify_modify _ _ ci y

/-- The copy `applyGainOffset` returns: the caller's batch is untouched, and
row `j` of the copy is row `j` of the batch put through the sample loops when
`j` is a channel of the stream, the same row otherwise. -/
theorem Stream.applyGainOffset_eq (s : Stream) (st st' : PackStore)
    (h : s.applyGainOffset st = some st') :
    st'.pack = st.pack ∧
    ∃ m, st'.mPack = some m ∧ m.numSamples = st.pack.numSamples ∧
      ∀ j, m.yData[j]? =
        if j < s.numChannels then (st.pack.yData[j]?).map (s.transformRow st.pack.numSamples j)
        else st.pack.yData[j]? := by
  unfold Stream.applyGainOffset at h
  split at h
  · simp only [Option.some.injEq] at h
    subst h
    have hfun : s.applyGainOffsetChannel st.pack.numSamples =
        fun ci (st0 : PackStore) =>
          st0.mapCopy (fun y => y.modify (s.transformRow st.pack.numSamples ci) ci) := by
      funext ci st0
      exact Stream.applyGainOffsetChannel_eq s _ ci st0
    rw [hfun, forLoop_mapCopy]
    refine ⟨rfl, ?_⟩
    refine ⟨_, rfl, rfl, ?_⟩
    intro j
    exact forLoop_modify_getElem? (fun ci => s.transformRow st.pack.numSamples ci) _ _ j
  · exact absurd h (by simp)

/-- On a row of at most `ns` samples the sample loops of `applyGainOffset`
multiply by the gain first, when gain is enabled, and add the offset next,
when offset is enabled. -/
theorem Stream.transformRow_eq_map (s : Stream) (ns ci : Nat) (row : List ℚ)
    (h : row.length ≤ ns) :
    s.transformRow ns ci row =
      row.map (fun v =>
        (if s.infoModel.gainEn ci then v * s.infoModel.gain ci else v) +
        (if s.infoModel.offsetEn ci then s.infoModel.offset ci else 0)) := by
  unfold Stream.transformRow
  cases hg : s.infoModel.gainEn ci <;> cases ho : s.infoModel.offsetEn ci
  · simp
  · simp only [Bool.false_eq_true, if_false, if_true]
    rw [forLoop_modify_eq_map _ ns row h]
  · simp only [Bool.false_eq_true, if_false, if_true, add_zero]
    rw [forLoop_modify_eq_map _ ns row h]
  · simp only [if_true]
    rw [forLoop_modify_eq_map _ ns row h, forLoop_modify_eq_map _ ns _ (by simpa using h)]
    simp

/-! ## `feedIn` -/

theorem ChannelInfoModel.flags_of_not_gainOrOffsetEn (m : ChannelInfoModel)
    (h : m.gainOrOffsetEn = false) (ci : Nat) (hci : ci < m.numOfChannels) :
    m.gainEn ci = false ∧ m.offsetEn ci = false := by
  unfold ChannelInfoModel.gainOrOffsetEn at h
  rw [List.any_eq_false] at h
  have := h ci (List.mem_range.mpr hci)
  simpa using this

theorem Stream.ingested_isSome (s : Stream) (pack : SamplePack) :
    ∃ st, s.ingested pack = some st := by
  unfold Stream.ingested Stream.applyGainOffset
  by_cases h : s.infoModel.gainOrOffsetEn = true
  · simp [h]
  · simp [h]

theorem Stream.ingested_pack (s : Stream) (pack : SamplePack) (st : PackStore)
    (h : s.ingested pack = some st) : st.pack = pack := by
  unfold Stream.ingested at h
  split at h
  · exact (Stream.applyGainOffset_eq s _ st h).1
  · simp only [Option.some.injEq] at h
    subst h
    rfl

/-- The run of `feedIn` on a stream that is not paused, for a batch of the
right shape. -/
theorem Stream.feedIn_active (s : Stream) (pack : SamplePack)
    (hactive : s.paused = false) (hnox : s.hasX = false)
    (hshape : pack.numChannels = s.numChannels ∧ pack.hasX = s.hasX)
    (st : PackStore) (hst : s.ingested pack = some st) :
    s.feedIn pack =
      { failure := none
        stream := { s with
          channels := forLoop (feedChannel st pack.numSamples) s.numChannels s.channels }
        pack := st.pack
        emitted := [Signal.dataAdded]
        sinkCalls := [SinkCall.feedIn st.effective] } := by
  have hx : s.hasx = false := hnox
  unfold Stream.ingested at hst
  unfold Stream.feedIn
  simp only [hshape, hactive, hx, and_self, not_true_eq_false, if_false, Bool.false_eq_true]
  rw [hst]

/-- The samples `feedIn` hands to the ring buffer of channel `i`. -/
theorem Stream.ingested_data (s : Stream) (pack : SamplePack) (st : PackStore)
    (hst : s.ingested pack = some st)
    (hshape : pack.numChannels = s.numChannels)
    (hwf : pack.WF) (hreg : s.numChannels ≤ s.infoModel.numOfChannels)
    (i : Nat) (hi : i < s.numChannels) :
    (st.effective.data i).take pack.numSamples =
      (pack.data i).map (fun v =>
        (if s.infoModel.gainEn i then v * s.infoModel.gain i else v) +
        (if s.infoModel.offsetEn i then s.infoModel.offset i else 0)) := by
  obtain ⟨hlen, hrows⟩ := hwf
  have hil : i < pack.yData.length := by omega
  have hrow : pack.yData[i]? = some pack.yData[i] := List.getElem?_eq_getElem hil
  have hrl : (pack.yData[i]).length = pack.numSamples := hrows _ (List.getElem_mem hil)
  have hdata : pack.data i = pack.yData[i] := by
    simp [SamplePack.data, List.getD_eq_getElem?_getD, hrow]
  unfold Stream.ingested at hst
  split at hst
  · obtain ⟨_, m, hm, _, hrowsm⟩ := Stream.applyGainOffset_eq s _ st hst
    have hmi := hrowsm i
    simp only [hi, if_true, hrow, Option.map_some'] at hmi
    have : st.effective.data i = s.transformRow pack.numSamples i pack.yData[i] := by
      simp [PackStore.effective, hm, SamplePack.data, List.getD_eq_getElem?_getD, hmi]
    rw [this, hdata, Stream.transformRow_eq_map s _ i _ (le_of_eq hrl)]
    apply List.take_of_length_le
    simp [hrl]
  · rename_i hno
    simp only [Option.some.injEq] at hst
    subst hst
    have hfl := ChannelInfoModel.flags_of_not_gainOrOffsetEn s.infoModel
      (by simpa using hno) i (by omega)
    simp only [PackStore.effective, Option.getD_none, hfl.1, hfl.2, Bool.false_eq_true, if_false,
      add_zero, List.map_id']
    rw [hdata]
    exact List.take_of_length_le (le_of_eq hrl)

theorem Stream.feedIn_channel (s : Stream) (pack : SamplePack)
    (hactive : s.paused = false) (hnox : s.hasX = false)
    (hshape : pack.numChannels = s.numChannels ∧ pack.hasX = s.hasX)
    (hwf : pack.WF) (hreg : s.numChannels ≤ s.infoModel.numOfChannels)
    (i : Nat) (c : StreamChannel) (hc : s.channel i = some c) :
    (s.feedIn pack).stream.channel i =
      some { c with
        yData := c.yData.addSamples ((pack.data i).map (fun v =>
          (if s.infoModel.gainEn i then v * s.infoModel.gain i else v) +
          (if s.infoModel.offsetEn i then s.infoModel.offset i else 0))) } := by
  obtain ⟨st, hst⟩ := Stream.ingested_isSome s pack
  have hc2 : s.channels[i]? = some c := hc
  have hi : i < s.numChannels := by
    have := List.getElem?_eq_some.mp hc2
    exact this.1
  rw [Stream.feedIn_active s pack hactive hnox hshape st hst]
  show (forLoop (feedChannel st pack.numSamples) s.numChannels s.channels)[i]? = _
  have hloop := forLoop_modify_getElem?
    (fun ci (c : StreamChannel) =>
      { c with yData := c.yData.addSamples ((st.effective.data ci).take pack.numSamples) })
    s.numChannels s.channels i
  have hbody : feedChannel st pack.numSamples =
      fun ci (chs : List StreamChannel) => chs.modify (fun c =>
        { c with yData := c.yData.addSamples ((st.effective.data ci).take pack.numSamples) }) ci := by
    funext ci chs
    rfl
  rw [hbody, hloop]
  simp only [hi, if_true, hc2, Option.map_some']
  rw [Stream.ingested_data s pack st hst hshape.1 hwf hreg i hi]

/-! ## `setNumChannels` -/

theorem forLoop_append {α : Type} (f : Nat → α) (n : Nat) (l : List α) :
    forLoop (fun k (l : List α) => l ++ [f k]) n l = l ++ (List.range n).map f := by
  induction n with
  | zero => simp [forLoop]
  | succ n ih => simp [forLoop, ih, List.range_succ]

theorem takeLastLoop_eq_take (bound i : Nat) (chs : List StreamChannel) :
    takeLastLoop bound i chs = chs.take (chs.length - (i - bound)) := by
  induction i generalizing chs with
  | zero => simp [takeLastLoop]
  | succ i ih =>
    unfold takeLastLoop
    by_cases h : i + 1 > bound
    · simp only [h, if_true]
      rw [ih, List.dropLast_eq_take, List.take_take, List.length_take]
      congr 1
      omega
    · simp only [h, if_false]
      have : i + 1 - bound = 0 := by omega
      simp [this]

theorem usub_one (nc : Nat) (h1 : 1 ≤ nc) (h2 : nc < UINT_RANGE) : usub nc 1 = nc - 1 := by
  unfold usub UINT_RANGE at *
  omega

/-- The run of `setNumChannels(nc, hasX())` when `nc` is not the current
number of channels. -/
theorem Stream.setNumChannels_sameX (s : Stream) (nc : Nat) (h : nc ≠ s.numChannels) :
    s.setNumChannels nc s.hasX =
      { failure := none
        stream := { s with
          channels :=
            if nc > s.numChannels then
              s.channels ++ (List.range (nc - s.numChannels)).map (fun k =>
                { index := s.numChannels + k, xData := s.xData,
                  yData := RingBuffer.new s.numSamples })
            else s.channels.take (s.channels.length - (s.numChannels - 1 - usub nc 1))
          infoModel := s.infoModel.setNumOfChannels nc }
        emitted := [Signal.numChannelsChanged nc]
        sinkCalls := [SinkCall.setNumChannels nc s.hasX] } := by
  have h' : ¬ (s.numChannels = nc ∧ s.hasX = s.hasx) := fun e => h e.1.symm
  unfold Stream.setNumChannels
  rw [if_neg h']
  by_cases hg : nc > s.numChannels
  · rw [if_pos hg]
    have hx : ¬ (s.hasX ≠ s.hasx) := fun e => e rfl
    rw [if_neg hx]
    unfold Stream.finishSetNumChannels
    rw [if_pos h, if_pos hg]
    unfold forRange
    rw [forLoop_append]
  · have hl : nc < s.numChannels := by omega
    rw [if_neg hg, if_pos hl]
    have hx : ¬ (s.hasX ≠ s.hasx) := fun e => e rfl
    rw [if_neg hx]
    unfold Stream.finishSetNumChannels
    rw [if_pos h, if_neg hg, takeLastLoop_eq_take]

/-- After `setNumChannels(nc, hasX())` with `1 ≤ nc` the stream has `nc`
channels. -/
theorem Stream.setNumChannels_numChannels (s : Stream) (nc : Nat)
    (h1 : 1 ≤ nc) (h2 : nc < UINT_RANGE) :
    (s.setNumChannels nc s.hasX).stream.numChannels = nc := by
  by_cases h : nc = s.numChannels
  · have : s.setNumChannels nc s.hasX =
        { failure := none, stream := s, emitted := [], sinkCalls := [] } := by
      unfold Stream.setNumChannels
      rw [if_pos ⟨h.symm, rfl⟩]
    rw [this]
    exact h.symm
  · rw [Stream.setNumChannels_sameX s nc h]
    unfold Stream.numChannels at *
    by_cases hg : nc > s.channels.length
    · simp only [hg, if_true, List.length_append, List.length_map, List.length_range]
      omega
    · simp only [hg, if_false, List.length_take, usub_one nc h1 h2]
      omega

/-- The signals of `setNumChannels(nc, x)`: `numChannelsChanged(nc)`, once,
when the call returns and `nc` is not the number of channels before the call,
and nothing otherwise; `dataAdded` is never among them. -/
theorem Stream.setNumChannels_emitted (s : Stream) (nc : Nat) (x : Bool) :
    (s.setNumChannels nc x).emitted =
      (if (s.setNumChannels nc x).failure = none ∧ nc ≠ s.numChannels then
        [Signal.numChannelsChanged nc] else []) ∧
    Signal.dataAdded ∉ (s.setNumChannels nc x).emitted := by
  unfold Stream.setNumChannels Stream.finishSetNumChannels
  by_cases h1 : s.numChannels = nc ∧ x = s.hasx
  · rw [if_pos h1]
    have : ¬ nc ≠ s.numChannels := fun e => e h1.1.symm
    simp [this]
  · rw [if_neg h1]
    by_cases h2 : nc = s.numChannels
    · have hg : ¬ nc > s.numChannels := by omega
      have hl : ¬ nc < s.numChannels := by omega
      cases x <;> cases hx : s.hasx <;> simp [h2, hx]
    · by_cases hg : nc > s.numChannels
      · cases x <;> cases hx : s.hasx <;> simp [h2, hg, hx]
      · have hl : nc < s.numChannels := by omega
        cases x <;> cases hx : s.hasx <;> simp [h2, hg, hl, hx]

/-! ## The claims -/

/-- On a stream that is not paused and whose registry counts at least the
stream's channels, for a batch of the stream's shape, `feedIn` appends to the
ring buffer of channel `i` the samples of the batch's channel `i`, in order,
each sample `v` as `(gainEn i ? v * gain i : v) + (offsetEn i ? offset i : 0)`:
gain before offset. A channel with neither flag set receives its samples
unchanged, also when another channel is transformed, and with gain 2 and
offset 10 the sample 5 is stored as 20. -/
theorem Stream.feedIn_transforms_counted_channels (s : Stream) (pack : SamplePack)
    (hactive : s.paused = false) (hnox : s.hasX = false)
    (hshape : pack.numChannels = s.numChannels ∧ pack.hasX = s.hasX)
    (hwf : pack.WF) (hreg : s.numChannels ≤ s.infoModel.numOfChannels) :
    (s.feedIn pack).failure = none ∧
    (s.feedIn pack).stream.numChannels = s.numChannels ∧
    (∀ i c, s.channel i = some c →
      (s.feedIn pack).stream.channel i =
        some { c with
          yData := c.yData.addSamples ((pack.data i).map (fun v =>
            (if s.infoModel.gainEn i then v * s.infoModel.gain i else v) +
            (if s.infoModel.offsetEn i then s.infoModel.offset i else 0))) }) ∧
    (∀ i c, s.channel i = some c →
      s.infoModel.gainEn i = false → s.infoModel.offsetEn i = false →
      (s.feedIn pack).stream.channel i =
        some { c with yData := c.yData.addSamples (pack.data i) }) ∧
    (exampleGainStream.feedIn exampleBatch).stream.channels.map (fun c => c.yData.read 0) =
      [some 20, some 5] := by
  obtain ⟨st, hst⟩ := Stream.ingested_isSome s pack
  refine ⟨?_, ?_, ?_, ?_, ?_⟩
  · rw [Stream.feedIn_active s pack hactive hnox hshape st hst]
  · rw [Stream.feedIn_active s pack hactive hnox hshape st hst]
    have hbody : feedChannel st pack.numSamples =
        fun ci (chs : List StreamChannel) => chs.modify (fun c =>
          { c with
            yData := c.yData.addSamples ((st.effective.data ci).take pack.numSamples) }) ci := by
      funext ci chs
      rfl
    show (forLoop (feedChannel st pack.numSamples) s.numChannels s.channels).length = _
    rw [hbody, forLoop_modify_length]
    rfl
  · intro i c hc
    exact Stream.feedIn_channel s pack hactive hnox hshape hwf hreg i c hc
  · intro i c hc hg ho
    rw [Stream.feedIn_channel s pack hactive hnox hshape hwf hreg i c hc]
    simp [hg, ho]
  · decide!

theorem Stream.feedIn_transforms_counted_channels_example :
    (exampleGainStream.paused = false ∧ exampleGainStream.hasX = false ∧
      exampleBatch.WF ∧
      exampleGainStream.numChannels ≤ exampleGainStream.infoModel.numOfChannels) ∧
    (exampleGainStream.feedIn exampleBatch).stream.channel 0 =
      some { index := 0, xData := 0, yData := (RingBuffer.new 4).addSamples [20] } :=
  ⟨by decide!,
   ((Stream.feedIn_transforms_counted_channels exampleGainStream exampleBatch (by decide!) (by decide!)
      (by decide!) (by decide!) (by decide!)).2.2.1 0
      { index := 0, xData := 0, yData := RingBuffer.new 4 } (by decide!)).trans (by decide!)⟩

/-- C2: while the stream is paused, `feedIn` of a batch of the stream's shape
changes nothing (every channel buffer keeps its contents and its fill count)
and emits no signal. -/
theorem feedIn_paused_changes_nothing (s : Stream) (pack : SamplePack)
    (hpaused : s.paused = true)
    (hshape : pack.numChannels = s.numChannels ∧ pack.hasX = s.hasX) :
    (s.feedIn pack).failure = none ∧
    (s.feedIn pack).stream = s ∧
    (∀ i, (s.feedIn pack).stream.channel i = s.channel i) ∧
    (s.feedIn pack).emitted = [] := by
  have h : s.feedIn pack =
      { failure := none, stream := s, pack := pack, emitted := [], sinkCalls := [] } := by
    unfold Stream.feedIn
    rw [if_neg (not_not.mpr hshape), if_pos hpaused]
  rw [h]
  exact ⟨rfl, rfl, fun _ => rfl, rfl⟩

theorem feedIn_paused_changes_nothing_witness :
    ({ exampleFedStream with paused := true } : Stream).paused = true ∧
    (({ exampleFedStream with paused := true } : Stream).feedIn exampleBatch).stream =
      { exampleFedStream with paused := true } :=
  ⟨rfl, (feedIn_paused_changes_nothing { exampleFedStream with paused := true } exampleBatch
    rfl (by decide!)).2.1⟩

/-- C3: a batch whose channel count or `hasX` differs from the stream's fails
the assertion of `feedIn` (ChannelMismatch); the call stops there, with no
channel buffer modified and no signal emitted. -/
theorem feedIn_mismatch_fails (s : Stream) (pack : SamplePack)
    (hmis : pack.numChannels ≠ s.numChannels ∨ pack.hasX ≠ s.hasX) :
    (s.feedIn pack).failure = some Failure.channelMismatch ∧
    (s.feedIn pack).stream = s ∧
    (∀ i, (s.feedIn pack).stream.channel i = s.channel i) ∧
    (s.feedIn pack).emitted = [] := by
  have hn : ¬ (pack.numChannels = s.numChannels ∧ pack.hasX = s.hasX) := by
    intro hc
    rcases hmis with h | h
    · exact h hc.1
    · exact h hc.2
  have h : s.feedIn pack =
      { failure := some Failure.channelMismatch, stream := s, pack := pack,
        emitted := [], sinkCalls := [] } := by
    unfold Stream.feedIn
    rw [if_pos hn]
  rw [h]
  exact ⟨rfl, rfl, fun _ => rfl, rfl⟩

theorem feedIn_mismatch_fails_witness :
    exampleBatch.numChannels ≠ (Stream.construct 3 false 4).stream.numChannels ∧
    ((Stream.construct 3 false 4).stream.feedIn exampleBatch).failure =
      some Failure.channelMismatch :=
  ⟨by decide!,
   (feedIn_mismatch_fails (Stream.construct 3 false 4).stream exampleBatch
    (Or.inl (by decide!))).1⟩

/-- C4: on a stream that is not paused, one call of `feedIn` with a batch of
the stream's shape emits `dataAdded` exactly once and no other signal,
whatever the number of samples and whether or not a copy was made. -/
theorem feedIn_emits_dataAdded_once (s : Stream) (pack : SamplePack)
    (hactive : s.paused = false) (hnox : s.hasX = false)
    (hshape : pack.numChannels = s.numChannels ∧ pack.hasX = s.hasX) :
    (s.feedIn pack).failure = none ∧
    (s.feedIn pack).emitted = [Signal.dataAdded] ∧
    (s.feedIn pack).emitted.count Signal.dataAdded = 1 := by
  obtain ⟨st, hst⟩ := Stream.ingested_isSome s pack
  rw [Stream.feedIn_active s pack hactive hnox hshape st hst]
  exact ⟨rfl, rfl, by simp⟩

theorem feedIn_emits_dataAdded_once_witness :
    (exampleGainStream.paused = false ∧ exampleGainStream.hasX = false) ∧
    (exampleGainStream.feedIn exampleHistory).emitted = [Signal.dataAdded] :=
  ⟨by decide!,
   (feedIn_emits_dataAdded_once exampleGainStream exampleHistory (by decide!) (by decide!)
    (by decide!)).2.1⟩

/-- C5: `feedIn` leaves the caller's batch as it was, in every state and for
every batch; `applyGainOffset` makes a copy, writes only to that copy and
leaves the batch it was given untouched. -/
theorem feedIn_leaves_batch_unchanged (s : Stream) (pack : SamplePack) :
    (s.feedIn pack).pack = pack ∧
    ∀ st st', s.applyGainOffset st = some st' → st'.pack = st.pack ∧ st'.mPack.isSome := by
  constructor
  · by_cases hshape : pack.numChannels = s.numChannels ∧ pack.hasX = s.hasX
    · cases hp : s.paused
      · cases hx : s.hasx
        · obtain ⟨st, hst⟩ := Stream.ingested_isSome s pack
          rw [Stream.feedIn_active s pack hp hx hshape st hst]
          exact Stream.ingested_pack s pack st hst
        · unfold Stream.feedIn
          rw [if_neg (not_not.mpr hshape), hp, hx]
          rfl
      · unfold Stream.feedIn
        rw [if_neg (not_not.mpr hshape), hp]
        rfl
    · unfold Stream.feedIn
      rw [if_pos hshape]
  · intro st st' h
    obtain ⟨hp, m, hm, _⟩ := Stream.applyGainOffset_eq s st st' h
    exact ⟨hp, by simp [hm]⟩

theorem feedIn_leaves_batch_unchanged_witness :
    exampleGainStream.applyGainOffset { pack := exampleBatch, mPack := none } =
      some { pack := exampleBatch, mPack := some { exampleBatch with yData := [[20], [5]] } } ∧
    (exampleGainStream.feedIn exampleBatch).pack = exampleBatch ∧
    ({ pack := exampleBatch, mPack := some { exampleBatch with yData := [[20], [5]] } } :
      PackStore).pack = exampleBatch :=
  ⟨by decide!,
   (feedIn_leaves_batch_unchanged exampleGainStream exampleBatch).1,
   ((feedIn_leaves_batch_unchanged exampleGainStream exampleBatch).2
      { pack := exampleBatch, mPack := none }
      { pack := exampleBatch, mPack := some { exampleBatch with yData := [[20], [5]] } }
      (by decide!)).1⟩

/-- C6: `setNumChannels(nc, hasX())` with `nc` above the current number of
channels keeps the channels `0 .. oldNum - 1` as they are, samples included,
and makes each of the channels `oldNum .. nc - 1` a channel of index `i` with
a new ring buffer of capacity `numSamples()` that holds no sample; growing two
channels with different histories to four leaves channels 0 and 1 unchanged
and channels 2 and 3 empty. -/
theorem setNumChannels_grow_keeps_channels (s : Stream) (nc : Nat)
    (hgrow : nc > s.numChannels) :
    (s.setNumChannels nc s.hasX).failure = none ∧
    (s.setNumChannels nc s.hasX).stream.numChannels = nc ∧
    (s.setNumChannels nc s.hasX).stream.numSamples = s.numSamples ∧
    (∀ i, i < s.numChannels → (s.setNumChannels nc s.hasX).stream.channel i = s.channel i) ∧
    (∀ i, s.numChannels ≤ i → i < nc →
      (s.setNumChannels nc s.hasX).stream.channel i =
        some { index := i, xData := s.xData, yData := RingBuffer.new s.numSamples }) ∧
    (∀ n, (RingBuffer.new n).capacity = n ∧ (RingBuffer.new n).count = 0 ∧
      ∀ j, (RingBuffer.new n).read j = none) ∧
    (exampleFedStream.setNumChannels 4 false).stream.channels.map
        (fun c => (c.yData.count, (List.range 2).map c.yData.read)) =
      [(2, [some 1, some 2]), (2, [some 3, some 4]), (0, [none, none]), (0, [none, none])] := by
  have hne : nc ≠ s.numChannels := by omega
  rw [Stream.setNumChannels_sameX s nc hne, if_pos hgrow]
  refine ⟨rfl, ?_, rfl, ?_, ?_, ?_, ?_⟩
  · simp only [Stream.numChannels, List.length_append, List.length_map, List.length_range] at *
    omega
  · intro i hi
    exact List.getElem?_append_left hi
  · intro i hlo hhi
    show (s.channels ++ _)[i]? = _
    rw [List.getElem?_append_right hlo, List.getElem?_map]
    have hk : i - s.channels.length < nc - s.numChannels := by
      simp only [Stream.numChannels] at *
      omega
    rw [List.getElem?_range hk]
    simp only [Option.map_some', Stream.numChannels] at *
    congr 2
    omega
  · intro n
    exact ⟨rfl, rfl, fun j => by simp [RingBuffer.read, RingBuffer.new]⟩
  · decide!

theorem setNumChannels_grow_keeps_channels_witness :
    4 > exampleFedStream.numChannels ∧
    (exampleFedStream.setNumChannels 4 exampleFedStream.hasX).stream.channel 1 =
      exampleFedStream.channel 1 ∧
    (exampleFedStream.setNumChannels 4 exampleFedStream.hasX).stream.channel 3 =
      some { index := 3, xData := exampleFedStream.xData,
             yData := RingBuffer.new exampleFedStream.numSamples } :=
  ⟨by decide!,
   (setNumChannels_grow_keeps_channels exampleFedStream 4 (by decide!)).2.2.2.1 1 (by decide!),
   (setNumChannels_grow_keeps_channels exampleFedStream 4 (by decide!)).2.2.2.2.1 3
     (by decide!) (by decide!)⟩

/-- C7, at the failing input: `setNumChannels(0, hasX())` on `Stream(2, false, 4)`
returns normally and the stream still has its two channels; `numChannels()`
is 2, not the requested 0, because the shrink loop compares `i` with the
`unsigned` value of `nc - 1`, which is `UINT_MAX` for `nc = 0`. -/
theorem setNumChannels_zero_removes_no_channel :
    usub 0 1 = UINT_RANGE - 1 ∧
    exampleStream.numChannels = 2 ∧
    (exampleStream.setNumChannels 0 exampleStream.hasX).failure = none ∧
    (exampleStream.setNumChannels 0 exampleStream.hasX).stream.numChannels = 2 ∧
    (exampleStream.setNumChannels 0 exampleStream.hasX).stream.numChannels ≠ 0 := by
  decide!

/-- C8: `setNumChannels(nc, hasX())` with `nc` below the current number of
channels removes channels from the tail only: the channel list after the call
is an initial segment of the list before it, and for every `i < nc` channel
`i` is what it was, ring buffer and samples included. -/
theorem setNumChannels_shrink_keeps_head (s : Stream) (nc : Nat)
    (hshrink : nc < s.numChannels) (hnc : nc < UINT_RANGE) :
    (s.setNumChannels nc s.hasX).failure = none ∧
    (∃ k, nc ≤ k ∧ (s.setNumChannels nc s.hasX).stream.channels = s.channels.take k) ∧
    (∀ i, i < nc → (s.setNumChannels nc s.hasX).stream.channel i = s.channel i) := by
  have hne : nc ≠ s.numChannels := by omega
  have hg : ¬ nc > s.numChannels := by omega
  rw [Stream.setNumChannels_sameX s nc hne, if_neg hg]
  have hb : nc = 0 ∨ usub nc 1 = nc - 1 := by
    rcases Nat.eq_zero_or_pos nc with h0 | hpos
    · exact Or.inl h0
    · exact Or.inr (usub_one nc hpos hnc)
  generalize usub nc 1 = b at hb ⊢
  have hk : nc ≤ s.channels.length - (s.numChannels - 1 - b) := by
    simp only [Stream.numChannels] at *
    omega
  refine ⟨rfl, ⟨s.channels.length - (s.numChannels - 1 - b), hk, rfl⟩, ?_⟩
  intro i hi
  show (s.channels.take _)[i]? = s.channels[i]?
  rw [List.getElem?_take]
  have : i < s.channels.length - (s.numChannels - 1 - b) := by omega
  simp [this]

theorem setNumChannels_shrink_keeps_head_witness :
    (1 < exampleFedStream.numChannels ∧ 1 < UINT_RANGE) ∧
    (exampleFedStream.setNumChannels 1 exampleFedStream.hasX).stream.channel 0 =
      exampleFedStream.channel 0 :=
  ⟨by decide!,
   (setNumChannels_shrink_keeps_head exampleFedStream 1 (by decide!) (by decide!)).2.2 0
     (by decide!)⟩

/-- C9: `setNumChannels(numChannels(), hasX())` returns at once: the state
(channel list, buffers, X buffer, registry, `numSamples`, `paused`) is the
same, no signal is emitted and nothing is passed on to `Sink`. -/
theorem setNumChannels_same_is_noop (s : Stream) :
    s.setNumChannels s.numChannels s.hasX =
      { failure := none, stream := s, emitted := [], sinkCalls := [] } := by
  unfold Stream.setNumChannels
  rw [if_pos ⟨rfl, rfl⟩]

/-- C10, at the failing input: `setNumChannels(0, false)` on
`Stream(2, false, 4)` leaves the number of channels at 2, the count has not
changed, and still emits `numChannelsChanged(0)`. -/
theorem setNumChannels_zero_emits_numChannelsChanged :
    (exampleStream.setNumChannels 0 false).failure = none ∧
    (exampleStream.setNumChannels 0 false).stream.numChannels = exampleStream.numChannels ∧
    (exampleStream.setNumChannels 0 false).emitted = [Signal.numChannelsChanged 0] := by
  decide!

/-! ## Ring buffers -/

theorem RingBuffer.writeWrapped_length (cap : Nat) (vs : List ℚ) :
    ∀ (values : List ℚ) (pos : Nat),
      (RingBuffer.writeWrapped cap values pos vs).length = values.length := by
  induction vs with
  | nil => intro values pos; rfl
  | cons v vs ih =>
    intro values pos
    simp only [RingBuffer.writeWrapped]
    rw [ih, List.length_set]

theorem RingBuffer.writeWrapped_append (cap : Nat) (xs ys : List ℚ) :
    ∀ (values : List ℚ) (pos : Nat),
      RingBuffer.writeWrapped cap values pos (xs ++ ys) =
        RingBuffer.writeWrapped cap (RingBuffer.writeWrapped cap values pos xs)
          (pos + xs.length) ys := by
  induction xs with
  | nil => intro values pos; rfl
  | cons x xs ih =>
    intro values pos
    rw [List.cons_append]
    simp only [RingBuffer.writeWrapped, List.length_cons]
    rw [ih]
    congr 1
    omega

/-- Where a write starts matters only modulo the capacity. -/
theorem RingBuffer.writeWrapped_congr (cap : Nat) (vs : List ℚ) :
    ∀ (values : List ℚ) (p q : Nat), p % cap = q % cap →
      RingBuffer.writeWrapped cap values p vs = RingBuffer.writeWrapped cap values q vs := by
  induction vs with
  | nil => intro values p q _; rfl
  | cons v vs ih =>
    intro values p q h
    simp only [RingBuffer.writeWrapped]
    rw [h]
    apply ih
    rw [Nat.add_mod, h, ← Nat.add_mod]

/-- Two appends in a row are one append of the two sequences. -/
theorem RingBuffer.addSamples_append (b : RingBuffer) (xs ys : List ℚ) :
    (b.addSamples xs).addSamples ys = b.addSamples (xs ++ ys) := by
  unfold RingBuffer.addSamples
  simp only [List.length_append]
  congr 1
  · rw [RingBuffer.writeWrapped_append]
    apply RingBuffer.writeWrapped_congr
    exact Nat.mod_mod _ _
  · rw [Nat.mod_add_mod, Nat.add_assoc]
  · omega

/-- A sequence of appends is one append of all the samples. -/
theorem RingBuffer.foldl_addSamples (batches : List (List ℚ)) :
    ∀ (b : RingBuffer) (first : List ℚ),
      batches.foldl RingBuffer.addSamples (b.addSamples first) =
        b.addSamples (first ++ batches.flatten) := by
  induction batches with
  | nil => intro b first; simp
  | cons x xs ih =>
    intro b first
    simp only [List.foldl_cons, List.flatten_cons]
    rw [RingBuffer.addSamples_append, ih, List.append_assoc]

theorem RingBuffer.addSamples_count_le (b : RingBuffer) (samples : List ℚ) :
    (b.addSamples samples).count ≤ b.capacity := by
  unfold RingBuffer.addSamples
  exact Nat.min_le_left _ _

theorem RingBuffer.addSamples_WF (b : RingBuffer) (samples : List ℚ) (h : b.WF) :
    (b.addSamples samples).WF := by
  obtain ⟨hl, _⟩ := h
  refine ⟨?_, RingBuffer.addSamples_count_le b samples⟩
  unfold RingBuffer.addSamples
  simp only [RingBuffer.writeWrapped_length]
  exact hl

/-- After an append that ends with the sample `x`, the newest logical index,
`count - 1`, reads `x`. -/
theorem RingBuffer.read_newest (b : RingBuffer) (xs : List ℚ) (x : ℚ)
    (hl : b.values.length = b.capacity) (hc : 1 ≤ b.capacity) :
    (b.addSamples (xs ++ [x])).read ((b.addSamples (xs ++ [x])).count - 1) = some x := by
  have hcount : 1 ≤ (b.addSamples (xs ++ [x])).count ∧
      (b.addSamples (xs ++ [x])).count ≤ b.capacity := by
    unfold RingBuffer.addSamples
    simp only [List.length_append, List.length_singleton]
    omega
  unfold RingBuffer.read
  rw [if_pos (by omega)]
  have hidx : ((b.addSamples (xs ++ [x])).writeCursor + (b.addSamples (xs ++ [x])).capacity -
      (b.addSamples (xs ++ [x])).count + ((b.addSamples (xs ++ [x])).count - 1)) %
      (b.addSamples (xs ++ [x])).capacity = (b.writeCursor + xs.length) % b.capacity := by
    have e1 : (b.addSamples (xs ++ [x])).capacity = b.capacity := rfl
    have e2 : (b.addSamples (xs ++ [x])).writeCursor =
        (b.writeCursor + xs.length + 1) % b.capacity := by
      unfold RingBuffer.addSamples
      simp only [List.length_append, List.length_singleton, Nat.add_assoc]
    rw [e1]
    rw [e2]
    have e3 : (b.writeCursor + xs.length + 1) % b.capacity + b.capacity -
        (b.addSamples (xs ++ [x])).count + ((b.addSamples (xs ++ [x])).count - 1) =
        (b.writeCursor + xs.length + 1) % b.capacity + (b.capacity - 1) := by omega
    rw [e3, Nat.mod_add_mod]
    have e4 : b.writeCursor + xs.length + 1 + (b.capacity - 1) =
        b.writeCursor + xs.length + b.capacity := by omega
    rw [e4, Nat.add_mod_right]
  rw [hidx]
  show (RingBuffer.writeWrapped b.capacity b.values b.writeCursor (xs ++ [x]))[
    (b.writeCursor + xs.length) % b.capacity]? = some x
  rw [RingBuffer.writeWrapped_append]
  simp only [RingBuffer.writeWrapped]
  apply List.getElem?_set_self
  rw [RingBuffer.writeWrapped_length, hl]
  exact Nat.mod_lt _ (by omega)

/-- A stored sample is what `read` returns. -/
theorem RingBuffer.read_eq_sample (b : RingBuffer) (h : b.WF) (i : Nat) (hi : i < b.count) :
    b.read i = some (b.sample i) := by
  obtain ⟨hl, hc⟩ := h
  have hpos : 0 < b.capacity := by omega
  have hidx : (b.writeCursor + b.capacity - b.count + i) % b.capacity < b.values.length := by
    rw [hl]
    exact Nat.mod_lt _ hpos
  unfold RingBuffer.read RingBuffer.sample
  rw [if_pos hi, List.getD_eq_getElem?_getD, List.getElem?_eq_getElem hidx]
  rfl

theorem RingBuffer.resize_slot (m n i : Nat) (hm : m ≤ n) (hi : i < m) :
    (m % n + n - m + i) % n = i := by
  rcases Nat.lt_or_ge m n with h | h
  · rw [Nat.mod_eq_of_lt h]
    have e : m + n - m + i = i + n := by omega
    rw [e, Nat.add_mod_right]
    exact Nat.mod_eq_of_lt (by omega)
  · have e : m = n := by omega
    subst e
    rw [Nat.mod_self]
    have e2 : 0 + m - m + i = i := by omega
    rw [e2]
    exact Nat.mod_eq_of_lt hi

/-- The reads of a resized buffer: the newest `min count n` samples, oldest
first, and nothing after them. -/
theorem RingBuffer.resize_read (b : RingBuffer) (h : b.WF) (n i : Nat) :
    (b.resize n).read i =
      if i < min b.count n then b.read (b.count - min b.count n + i) else none := by
  by_cases hi : i < min b.count n
  · rw [if_pos hi, RingBuffer.read_eq_sample b h _ (by omega)]
    unfold RingBuffer.resize RingBuffer.read
    simp only
    rw [if_pos hi, RingBuffer.resize_slot _ _ _ (Nat.min_le_right _ _) hi,
      List.getElem?_append_left (by simpa using hi), List.getElem?_map,
      List.getElem?_range hi]
    rfl
  · rw [if_neg hi]
    unfold RingBuffer.resize RingBuffer.read
    simp only
    rw [if_neg hi]

theorem RingBuffer.resize_WF (b : RingBuffer) (n : Nat) : (b.resize n).WF := by
  unfold RingBuffer.resize RingBuffer.WF
  simp only [List.length_append, List.length_map, List.length_range, List.length_replicate]
  omega

/-- Two storages of the same size that agree on slot `j`, or in which slot
`j` is overwritten, agree on slot `j` after the same write. -/
theorem RingBuffer.writeWrapped_agree (cap : Nat) (vs : List ℚ) :
    ∀ (v1 v2 : List ℚ) (pos j : Nat), v1.length = v2.length →
      (v1[j]? = v2[j]? ∨ ∃ p, pos ≤ p ∧ p < pos + vs.length ∧ p % cap = j) →
      (RingBuffer.writeWrapped cap v1 pos vs)[j]? =
        (RingBuffer.writeWrapped cap v2 pos vs)[j]? := by
  induction vs with
  | nil =>
    intro v1 v2 pos j _ h
    rcases h with h | ⟨p, h1, h2, _⟩
    · exact h
    · simp only [List.length_nil] at h2
      omega
  | cons v vs ih =>
    intro v1 v2 pos j hl h
    simp only [RingBuffer.writeWrapped]
    apply ih _ _ _ _ (by simp [hl])
    have hset : pos % cap = j → (v1.set (pos % cap) v)[j]? = (v2.set (pos % cap) v)[j]? := by
      intro e
      rw [List.getElem?_set, List.getElem?_set, hl]
      simp [e]
    rcases h with h | ⟨p, h1, h2, h3⟩
    · left
      by_cases e : pos % cap = j
      · exact hset e
      · rw [List.getElem?_set_ne e, List.getElem?_set_ne e]
        exact h
    · by_cases e : p = pos
      · left
        subst e
        exact hset h3
      · right
        refine ⟨p, by omega, ?_, h3⟩
        simp only [List.length_cons] at h2
        omega

/-- The slot a read looks at, after `n` samples were appended to a cleared
buffer, is a slot one of these samples was written to. -/
theorem RingBuffer.read_slot_written (cap n i : Nat) (hi : i < min cap n) :
    ∃ p, 0 ≤ p ∧ p < 0 + n ∧ p % cap = (n % cap + cap - min cap n + i) % cap := by
  have hcap : 0 < cap := by omega
  refine ⟨(n % cap + cap - min cap n + i) % cap, Nat.zero_le _, ?_, Nat.mod_mod _ _⟩
  rcases Nat.lt_or_ge n cap with h | h
  · have e1 : min cap n = n := by omega
    rw [e1, Nat.mod_eq_of_lt h]
    have e2 : n + cap - n + i = i + cap := by omega
    rw [e2, Nat.add_mod_right, Nat.mod_eq_of_lt (by omega)]
    omega
  · have := Nat.mod_lt (n % cap + cap - min cap n + i) hcap
    omega

/-! ## What each operation does to the channel buffers and to the X buffer -/

theorem Stream.transformRow_length (s : Stream) (ns ci : Nat) (row : List ℚ) :
    (s.transformRow ns ci row).length = row.length := by
  unfold Stream.transformRow
  have hg := forLoop_modify_length (fun _ (v : ℚ) => v * s.infoModel.gain ci) ns
  have ho := forLoop_modify_length (fun _ (v : ℚ) => v + s.infoModel.offset ci) ns
  cases s.infoModel.gainEn ci <;> cases s.infoModel.offsetEn ci
  · rfl
  · simp only [Bool.false_eq_true, if_false, if_true]
    exact ho row
  · simp only [Bool.false_eq_true, if_false, if_true]
    exact hg row
  · simp only [if_true]
    rw [ho, hg]

/-- Every channel of a well-formed batch of the stream's shape hands
`numSamples` samples to its ring buffer, copy or no copy. -/
theorem Stream.ingested_data_length (s : Stream) (pack : SamplePack) (st : PackStore)
    (hst : s.ingested pack = some st) (hshape : pack.numChannels = s.numChannels)
    (hwf : pack.WF) (i : Nat) (hi : i < s.numChannels) :
    ((st.effective.data i).take pack.numSamples).length = pack.numSamples := by
  obtain ⟨hlen, hrows⟩ := hwf
  have hil : i < pack.yData.length := by omega
  have hrow : pack.yData[i]? = some pack.yData[i] := List.getElem?_eq_getElem hil
  have hrl : (pack.yData[i]).length = pack.numSamples := hrows _ (List.getElem_mem hil)
  unfold Stream.ingested at hst
  split at hst
  · obtain ⟨_, m, hm, _, hrowsm⟩ := Stream.applyGainOffset_eq s _ st hst
    have hmi := hrowsm i
    simp only [hi, if_true, hrow, Option.map_some'] at hmi
    have : st.effective.data i = s.transformRow pack.numSamples i pack.yData[i] := by
      simp [PackStore.effective, hm, SamplePack.data, List.getD_eq_getElem?_getD, hmi]
    rw [this, List.length_take, Stream.transformRow_length, hrl]
    exact Nat.min_self _
  · simp only [Option.some.injEq] at hst
    subst hst
    have : (PackStore.effective { pack := pack, mPack := none }).data i = pack.yData[i] := by
      simp [PackStore.effective, SamplePack.data, List.getD_eq_getElem?_getD, hrow]
    rw [this, List.length_take, hrl]
    exact Nat.min_self _

/-- A call of `feedIn` either leaves the stream as it is (paused, or an
assertion failed) or runs the channel loop on a batch of the stream's
shape. -/
theorem Stream.feedIn_stream (s : Stream) (pack : SamplePack) :
    (s.feedIn pack).stream = s ∨
    ∃ st, s.ingested pack = some st ∧ pack.numChannels = s.numChannels ∧
      (s.feedIn pack).stream =
        { s with channels := forLoop (feedChannel st pack.numSamples) s.numChannels s.channels } := by
  by_cases hshape : pack.numChannels = s.numChannels ∧ pack.hasX = s.hasX
  · by_cases hp : s.paused = true
    · left
      unfold Stream.feedIn
      rw [if_neg (not_not.mpr hshape), if_pos hp]
    · by_cases hx : s.hasx = true
      · left
        unfold Stream.feedIn
        rw [if_neg (not_not.mpr hshape), if_neg hp]
        simp only [hx, if_true]
      · right
        obtain ⟨st, hst⟩ := Stream.ingested_isSome s pack
        have hp' : s.paused = false := by simpa using hp
        have hx' : s.hasX = false := by simpa [Stream.hasX] using hx
        exact ⟨st, hst, hshape.1, by rw [Stream.feedIn_active s pack hp' hx' hshape st hst]⟩
  · left
    unfold Stream.feedIn
    rw [if_pos hshape]

/-- The channel loop of `feedIn` appends to the buffer of channel `j` what the
batch holds for channel `j`, and touches nothing else. -/
theorem feedLoop_buffers (st : PackStore) (ns : Nat) (chs : List StreamChannel) (j : Nat) :
    ((forLoop (feedChannel st ns) chs.length chs).map (fun c => c.yData))[j]? =
      ((chs.map (fun c => c.yData))[j]?).map
        (fun b => b.addSamples ((st.effective.data j).take ns)) := by
  have hbody : feedChannel st ns =
      fun ci (chs : List StreamChannel) => chs.modify (fun c =>
        { c with yData := c.yData.addSamples ((st.effective.data ci).take ns) }) ci := by
    funext ci chs
    rfl
  rw [hbody, List.getElem?_map, List.getElem?_map, forLoop_modify_getElem?]
  by_cases hj : j < chs.length
  · rw [if_pos hj, List.getElem?_eq_getElem hj]
    rfl
  · rw [if_neg hj, List.getElem?_eq_none (by omega)]
    rfl

/-- The buffers after `feedIn`: the old ones, each with some samples
appended, in every case with the same capacity as before. -/
theorem Stream.feedIn_buffers (s : Stream) (pack : SamplePack) :
    (s.feedIn pack).stream.numSamples = s.numSamples ∧
    (s.feedIn pack).stream.xHeap = s.xHeap ∧ (s.feedIn pack).stream.xData = s.xData ∧
    ((s.feedIn pack).stream.buffers = s.buffers ∨
      ∃ samples : Nat → List ℚ,
        (pack.WF → ∀ j : Nat, j < s.numChannels → (samples j).length = pack.numSamples) ∧
        ∀ j : Nat, (s.feedIn pack).stream.buffers[j]? =
          (s.buffers[j]?).map (fun b => b.addSamples (samples j))) := by
  rcases Stream.feedIn_stream s pack with h | ⟨st, hst, hshape, h⟩
  · rw [h]
    exact ⟨rfl, rfl, rfl, Or.inl rfl⟩
  · rw [h]
    refine ⟨rfl, rfl, rfl, Or.inr ⟨fun j => (st.effective.data j).take pack.numSamples, ?_, ?_⟩⟩
    · intro hwf j hj
      exact Stream.ingested_data_length s pack st hst hshape hwf j hj
    · intro j
      exact feedLoop_buffers st pack.numSamples s.channels j

theorem Stream.makeXBuffer_size (s : Stream) : s.makeXBuffer.size = s.numSamples := by
  unfold Stream.makeXBuffer
  cases s.xAsIndex <;> rfl

theorem Stream.assignNewXBuffer_xSized (s : Stream) : s.assignNewXBuffer.XSized := by
  refine ⟨s.makeXBuffer, ?_, Stream.makeXBuffer_size s⟩
  show (s.xHeap ++ [s.makeXBuffer])[s.xHeap.length]? = some s.makeXBuffer
  rw [List.getElem?_append_right (Nat.le_refl _)]
  simp

theorem map_yData_setX (chs : List StreamChannel) (a : Nat) :
    (chs.map (fun c => ({ c with xData := a } : StreamChannel))).map (fun c => c.yData) =
      chs.map (fun c => c.yData) := by
  rw [List.map_map]
  rfl

theorem map_range_const {α : Type} (n : Nat) (a : α) :
    (List.range n).map (fun _ => a) = List.replicate n a := by
  induction n with
  | zero => rfl
  | succ n ih => rw [List.range_succ, List.map_append, ih, List.replicate_succ']; rfl

theorem Stream.withChannelCount_fields (s : Stream) (nc : Nat) :
    (s.withChannelCount nc).numSamples = s.numSamples ∧
    (s.withChannelCount nc).xHeap = s.xHeap ∧
    (s.withChannelCount nc).xData = s.xData ∧
    (s.withChannelCount nc).hasx = s.hasx ∧
    (s.withChannelCount nc).paused = s.paused ∧
    (s.withChannelCount nc).xAsIndex = s.xAsIndex := by
  unfold Stream.withChannelCount
  split
  · exact ⟨rfl, rfl, rfl, rfl, rfl, rfl⟩
  · split
    · exact ⟨rfl, rfl, rfl, rfl, rfl, rfl⟩
    · exact ⟨rfl, rfl, rfl, rfl, rfl, rfl⟩

/-- The buffers after the first step of `setNumChannels`: new, empty buffers
of capacity `numSamples()` after the old ones when the stream grows, an
initial segment of the old ones otherwise. -/
theorem Stream.withChannelCount_buffers (s : Stream) (nc : Nat) :
    (s.numChannels < nc ∧
      (s.withChannelCount nc).buffers =
        s.buffers ++ List.replicate (nc - s.numChannels) (RingBuffer.new s.numSamples)) ∨
    (nc ≤ s.numChannels ∧ ∃ k, (s.withChannelCount nc).buffers = s.buffers.take k) := by
  unfold Stream.withChannelCount
  by_cases hg : nc > s.numChannels
  · left
    refine ⟨hg, ?_⟩
    rw [if_pos hg]
    unfold Stream.buffers forRange
    simp only [forLoop_append, List.map_append, List.map_map]
    congr 1
    exact map_range_const _ _
  · right
    refine ⟨by omega, ?_⟩
    rw [if_neg hg]
    by_cases hl : nc < s.numChannels
    · rw [if_pos hl, takeLastLoop_eq_take]
      generalize usub nc 1 = bnd
      refine ⟨s.channels.length - (s.numChannels - 1 - bnd), ?_⟩
      simp [Stream.buffers, List.map_take]
    · rw [if_neg hl]
      exact ⟨s.buffers.length, (List.take_length _).symm⟩

theorem Stream.finishSetNumChannels_fields (t : Stream) (oldNum nc : Nat) (x : Bool) :
    (t.finishSetNumChannels oldNum nc x).failure = none ∧
    (t.finishSetNumChannels oldNum nc x).stream.channels = t.channels ∧
    (t.finishSetNumChannels oldNum nc x).stream.numSamples = t.numSamples ∧
    (t.finishSetNumChannels oldNum nc x).stream.xHeap = t.xHeap ∧
    (t.finishSetNumChannels oldNum nc x).stream.xData = t.xData := by
  unfold Stream.finishSetNumChannels
  split
  · exact ⟨rfl, rfl, rfl, rfl, rfl⟩
  · exact ⟨rfl, rfl, rfl, rfl, rfl⟩

theorem Stream.setNumChannels_unfold (s : Stream) (nc : Nat) (x : Bool) :
    s.setNumChannels nc x =
      if s.numChannels = nc ∧ x = s.hasx then
        { failure := none, stream := s, emitted := [], sinkCalls := [] }
      else if x ≠ (s.withChannelCount nc).hasx then
        if x then
          { failure := some Failure.xRingBufferUnimplemented, stream := s.withChannelCount nc,
            emitted := [], sinkCalls := [] }
        else
          Stream.finishSetNumChannels
            { (s.withChannelCount nc).assignNewXBuffer with
              channels := (s.withChannelCount nc).assignNewXBuffer.channels.map
                (fun c => { c with xData := (s.withChannelCount nc).assignNewXBuffer.xData })
              hasx := x }
            s.numChannels nc x
      else (s.withChannelCount nc).finishSetNumChannels s.numChannels nc x := by
  unfold Stream.setNumChannels Stream.withChannelCount
  rfl

/-- What `setNumChannels(nc, x)` leaves, whether it returns or fails: the
buffers of the first step, the same capacity setting, and either the old X
buffer or a newly made one. -/
theorem Stream.setNumChannels_state (s : Stream) (nc : Nat) (x : Bool) :
    (s.setNumChannels nc x).stream.buffers = (s.withChannelCount nc).buffers ∧
    (s.setNumChannels nc x).stream.numSamples = s.numSamples ∧
    (((s.setNumChannels nc x).stream.xHeap = s.xHeap ∧
        (s.setNumChannels nc x).stream.xData = s.xData) ∨
      ((s.setNumChannels nc x).stream.xHeap = (s.withChannelCount nc).assignNewXBuffer.xHeap ∧
        (s.setNumChannels nc x).stream.xData = (s.withChannelCount nc).assignNewXBuffer.xData)) := by
  obtain ⟨hns, hheap, hxd, _, _, _⟩ := Stream.withChannelCount_fields s nc
  rw [Stream.setNumChannels_unfold]
  by_cases h0 : s.numChannels = nc ∧ x = s.hasx
  · rw [if_pos h0]
    refine ⟨?_, rfl, Or.inl ⟨rfl, rfl⟩⟩
    have : s.withChannelCount nc = s := by
      unfold Stream.withChannelCount
      rw [if_neg (by omega), if_neg (by omega)]
    rw [this]
  · rw [if_neg h0]
    by_cases h1 : x ≠ (s.withChannelCount nc).hasx
    · rw [if_pos h1]
      cases x
      · simp only [Bool.false_eq_true, if_false]
        obtain ⟨_, hch, hn, hh, hd⟩ := Stream.finishSetNumChannels_fields
          { (s.withChannelCount nc).assignNewXBuffer with
            channels := (s.withChannelCount nc).assignNewXBuffer.channels.map
              (fun c => { c with xData := (s.withChannelCount nc).assignNewXBuffer.xData })
            hasx := false }
          s.numChannels nc false
        refine ⟨?_, ?_, Or.inr ⟨hh, hd⟩⟩
        · unfold Stream.buffers
          rw [hch]
          exact map_yData_setX _ _
        · rw [hn]
          exact hns
      · rw [if_pos rfl]
        exact ⟨rfl, hns, Or.inl ⟨hheap, hxd⟩⟩
    · rw [if_neg h1]
      obtain ⟨_, hch, hn, hh, hd⟩ :=
        Stream.finishSetNumChannels_fields (s.withChannelCount nc) s.numChannels nc x
      refine ⟨?_, by rw [hn]; exact hns, Or.inl ⟨by rw [hh]; exact hheap, by rw [hd]; exact hxd⟩⟩
      unfold Stream.buffers
      rw [hch]

theorem Stream.setNumChannels_xSized (s : Stream) (nc : Nat) (x : Bool) (h : s.XSized) :
    (s.setNumChannels nc x).stream.XSized := by
  obtain ⟨_, hns, hx⟩ := Stream.setNumChannels_state s nc x
  obtain ⟨hns1, _, _, _, _, _⟩ := Stream.withChannelCount_fields s nc
  unfold Stream.XSized
  rcases hx with ⟨hh, hd⟩ | ⟨hh, hd⟩
  · rw [hh, hd, hns]
    exact h
  · rw [hh, hd, hns, ← hns1]
    exact Stream.assignNewXBuffer_xSized _

/-! ## The claims on ring buffers -/

/-- C14: ring invariant. For a well-formed buffer of capacity `c ≥ 1` and a
sequence of appends with more than `c` samples in total (a single append of
more than `c` samples included), the fill count is at most `c` after every
append, it is `c` at the end, and logical index `count - 1` reads the sample
appended last. -/
theorem ring_invariant (b : RingBuffer) (hwf : b.WF) (hcap : 1 ≤ b.capacity)
    (batches : List (List ℚ)) (htotal : b.capacity < batches.flatten.length) :
    (∀ k, ((batches.take k).foldl RingBuffer.addSamples b).count ≤ b.capacity) ∧
    (batches.foldl RingBuffer.addSamples b).count = b.capacity ∧
    (batches.foldl RingBuffer.addSamples b).read
        ((batches.foldl RingBuffer.addSamples b).count - 1) = batches.flatten.getLast? ∧
    (List.range 5).map ((RingBuffer.new 4).addSamples [1, 2, 3, 4, 5, 6]).read =
      [some 3, some 4, some 5, some 6, none] := by
  have hfold : ∀ l : List (List ℚ), l ≠ [] →
      l.foldl RingBuffer.addSamples b = b.addSamples l.flatten := by
    intro l hl
    cases l with
    | nil => exact absurd rfl hl
    | cons x xs =>
      simp only [List.foldl_cons, List.flatten_cons]
      exact RingBuffer.foldl_addSamples xs b x
  have hne : batches ≠ [] := by
    intro e
    subst e
    simp at htotal
  refine ⟨?_, ?_, ?_, by decide!⟩
  · intro k
    by_cases hk : batches.take k = []
    · rw [hk]
      exact hwf.2
    · rw [hfold _ hk]
      exact RingBuffer.addSamples_count_le _ _
  · rw [hfold _ hne]
    unfold RingBuffer.addSamples
    simp only
    omega
  · rw [hfold _ hne]
    rcases List.eq_nil_or_concat batches.flatten with e | ⟨xs, x, e⟩
    · rw [e] at htotal
      simp at htotal
    · rw [e, List.concat_eq_append, List.getLast?_concat]
      exact RingBuffer.read_newest b xs x hwf.1 hcap

theorem ring_invariant_witness :
    ((RingBuffer.new 2).WF ∧ 1 ≤ (RingBuffer.new 2).capacity ∧
      (RingBuffer.new 2).capacity < [[1], [2, 3], [4]].flatten.length) ∧
    ([[1], [2, 3], [4]].foldl RingBuffer.addSamples (RingBuffer.new 2)).read
        (([[1], [2, 3], [4]].foldl RingBuffer.addSamples (RingBuffer.new 2)).count - 1) =
      some 4 :=
  ⟨by decide!,
   (ring_invariant (RingBuffer.new 2) (by decide!) (by decide!) [[1], [2, 3], [4]]
    (by decide!)).2.2.1⟩

/-- C15: resize keeps the newest data. Resizing a well-formed buffer that
holds `count` samples to capacity `n` gives a buffer of capacity `n` with
`min count n` samples: logical index `i` reads what index
`count - min count n + i` read before, oldest first, and nothing is read
beyond; a capacity-5 buffer with 1, 2, 3, 4, 5 resized to 3 reads 3, 4, 5. -/
theorem resize_keeps_newest (b : RingBuffer) (hwf : b.WF) (n : Nat) :
    (b.resize n).capacity = n ∧
    (b.resize n).count = min b.count n ∧
    (b.resize n).WF ∧
    (∀ i, i < min b.count n →
      (b.resize n).read i = b.read (b.count - min b.count n + i) ∧
      ((b.resize n).read i).isSome) ∧
    (∀ i, min b.count n ≤ i → (b.resize n).read i = none) ∧
    (List.range 4).map (exampleFullBuffer.resize 3).read = [some 3, some 4, some 5, none] := by
  refine ⟨rfl, rfl, RingBuffer.resize_WF b n, ?_, ?_, by decide!⟩
  · intro i hi
    have h := RingBuffer.resize_read b hwf n i
    rw [if_pos hi] at h
    refine ⟨h, ?_⟩
    rw [h, RingBuffer.read_eq_sample b hwf _ (by omega)]
    rfl
  · intro i hi
    have h := RingBuffer.resize_read b hwf n i
    rw [if_neg (by omega)] at h
    exact h

theorem resize_keeps_newest_witness :
    exampleFullBuffer.WF ∧
    (exampleFullBuffer.resize 3).read 0 = exampleFullBuffer.read (5 - min 5 3 + 0) :=
  ⟨by decide!, ((resize_keeps_newest exampleFullBuffer (by decide!) 3).2.2.2.1 0 (by decide!)).1⟩

/-- C16: clear round trip. After `clear()`, appending a sequence `s` gives, at
every logical index, the read result that appending `s` to a new buffer of
the same capacity gives, and the same fill count: what the slots held before
the clear is not visible. -/
theorem clear_then_append_reads_as_new (b : RingBuffer) (hwf : b.WF) (s : List ℚ) :
    (b.clear.addSamples s).count = ((RingBuffer.new b.capacity).addSamples s).count ∧
    (∀ i, (b.clear.addSamples s).read i =
      ((RingBuffer.new b.capacity).addSamples s).read i) ∧
    b.clear.count = 0 ∧ (∀ i, b.clear.read i = none) := by
  refine ⟨rfl, ?_, rfl, ?_⟩
  · intro i
    unfold RingBuffer.read
    show (if i < min b.capacity (0 + s.length) then
        (RingBuffer.writeWrapped b.capacity b.values 0 s)[
          ((0 + s.length) % b.capacity + b.capacity - min b.capacity (0 + s.length) + i) %
            b.capacity]?
      else none) =
      (if i < min b.capacity (0 + s.length) then
        (RingBuffer.writeWrapped b.capacity (List.replicate b.capacity 0) 0 s)[
          ((0 + s.length) % b.capacity + b.capacity - min b.capacity (0 + s.length) + i) %
            b.capacity]?
      else none)
    by_cases hi : i < min b.capacity (0 + s.length)
    · rw [if_pos hi, if_pos hi]
      rw [Nat.zero_add] at hi ⊢
      apply RingBuffer.writeWrapped_agree
      · rw [hwf.1, List.length_replicate]
      · right
        exact RingBuffer.read_slot_written b.capacity s.length i hi
    · rw [if_neg hi, if_neg hi]
  · intro i
    unfold RingBuffer.read RingBuffer.clear
    simp

theorem clear_then_append_reads_as_new_witness :
    exampleFullBuffer.WF ∧
    (List.range 3).map (exampleFullBuffer.clear.addSamples [8, 9]).read = [some 8, some 9, none] ∧
    (exampleFullBuffer.clear.addSamples [8, 9]).read 0 =
      ((RingBuffer.new exampleFullBuffer.capacity).addSamples [8, 9]).read 0 :=
  ⟨by decide!, by decide!,
   (clear_then_append_reads_as_new exampleFullBuffer (by decide!) [8, 9]).2.1 0⟩

/-! ## Capacity and fill count under the operations -/

theorem Stream.construct_stream (nc ns : Nat) :
    (Stream.construct nc false ns).stream =
      { infoModel := ChannelInfoModel.new nc, numSamples := ns, paused := false,
        xAsIndex := true, xMin := 0, xMax := 1, hasx := false, xData := 0,
        xHeap := [XFrameBuffer.indexBuffer ns],
        channels := (List.range nc).map
          (fun i => { index := i, xData := 0, yData := RingBuffer.new ns }) } := by
  unfold Stream.construct
  simp only [Bool.false_eq_true, if_false, forLoop_append]
  rfl

theorem Stream.setNumSamples_same (s : Stream) :
    s.setNumSamples s.numSamples =
      { failure := none, stream := s, emitted := [], sinkCalls := [] } := by
  unfold Stream.setNumSamples
  rw [if_pos rfl]

theorem Stream.setNumSamples_other (s : Stream) (v : Nat) (h : v ≠ s.numSamples) :
    s.setNumSamples v =
      { failure := none
        stream := { s with
          numSamples := v
          xHeap := s.xHeap.modify (fun b => b.resize v) s.xData
          channels := s.channels.map (fun c => { c with yData := c.yData.resize v }) }
        emitted := []
        sinkCalls := [] } := by
  unfold Stream.setNumSamples
  rw [if_neg h]

theorem XFrameBuffer.resize_size (b : XFrameBuffer) (n : Nat) : (b.resize n).size = n := by
  cases b <;> rfl

/-- The buffers and the capacity setting after `setNumSamples(v)`. -/
theorem Stream.setNumSamples_buffers (s : Stream) (v : Nat) :
    (s.setNumSamples v).stream.numSamples = v ∧
    ((v = s.numSamples ∧ (s.setNumSamples v).stream = s) ∨
      (v ≠ s.numSamples ∧
        (s.setNumSamples v).stream.buffers = s.buffers.map (fun b => b.resize v))) := by
  by_cases h : v = s.numSamples
  · subst h
    rw [Stream.setNumSamples_same]
    exact ⟨rfl, Or.inl ⟨rfl, rfl⟩⟩
  · rw [Stream.setNumSamples_other s v h]
    refine ⟨rfl, Or.inr ⟨h, ?_⟩⟩
    unfold Stream.buffers
    simp only [List.map_map]
    rfl

theorem Stream.setNumSamples_xSized (s : Stream) (v : Nat) (h : s.XSized) :
    (s.setNumSamples v).stream.XSized := by
  by_cases hv : v = s.numSamples
  · subst hv
    rw [Stream.setNumSamples_same]
    exact h
  · rw [Stream.setNumSamples_other s v hv]
    obtain ⟨b, hb, _⟩ := h
    refine ⟨b.resize v, ?_, XFrameBuffer.resize_size b v⟩
    show (s.xHeap.modify (fun b => b.resize v) s.xData)[s.xData]? = _
    rw [List.getElem?_modify, hb]
    simp

/-- The run of `setXAxis` on a stream without external X: a new X buffer is
made for the new mode and range, and every channel is pointed to it. -/
theorem Stream.setXAxis_noX (s : Stream) (asIndex : Bool) (lo hi : ℚ) (h : s.hasx = false) :
    s.setXAxis asIndex lo hi =
      { failure := none
        stream := { s with
          xAsIndex := asIndex, xMin := lo, xMax := hi
          xHeap := s.xHeap ++
            [Stream.makeXBuffer { s with xAsIndex := asIndex, xMin := lo, xMax := hi }]
          xData := s.xHeap.length
          channels := s.channels.map (fun c => { c with xData := s.xHeap.length }) }
        emitted := []
        sinkCalls := [] } := by
  unfold Stream.setXAxis
  simp only [Stream.hasX, h, Bool.not_false, if_true]
  rfl

theorem Stream.setXAxis_hasX (s : Stream) (asIndex : Bool) (lo hi : ℚ) (h : s.hasx = true) :
    s.setXAxis asIndex lo hi =
      { failure := none
        stream := { s with xAsIndex := asIndex, xMin := lo, xMax := hi }
        emitted := []
        sinkCalls := [] } := by
  unfold Stream.setXAxis
  simp only [Stream.hasX, h, Bool.not_true, Bool.false_eq_true, if_false]

theorem Stream.setXAxis_buffers (s : Stream) (asIndex : Bool) (lo hi : ℚ) :
    (s.setXAxis asIndex lo hi).stream.buffers = s.buffers ∧
    (s.setXAxis asIndex lo hi).stream.numSamples = s.numSamples := by
  cases h : s.hasx
  · rw [Stream.setXAxis_noX s asIndex lo hi h]
    exact ⟨map_yData_setX _ _, rfl⟩
  · rw [Stream.setXAxis_hasX s asIndex lo hi h]
    exact ⟨rfl, rfl⟩

theorem Stream.setXAxis_xSized (s : Stream) (asIndex : Bool) (lo hi : ℚ) (h : s.XSized) :
    (s.setXAxis asIndex lo hi).stream.XSized := by
  cases hx : s.hasx
  · rw [Stream.setXAxis_noX s asIndex lo hi hx]
    exact Stream.assignNewXBuffer_xSized
      ({ s with xAsIndex := asIndex, xMin := lo, xMax := hi } : Stream)
  · rw [Stream.setXAxis_hasX s asIndex lo hi hx]
    exact h

theorem Stream.clear_buffers (s : Stream) :
    s.clear.stream.buffers = s.buffers.map (fun b => b.clear) := by
  unfold Stream.clear Stream.buffers
  simp only [List.map_map]
  rfl

/-- Buffers that are the old ones with samples appended have the capacities
of the old ones. -/
theorem sameCapacity_of_appended (old new : List RingBuffer) (samples : Nat → List ℚ) (n : Nat)
    (h : ∀ j : Nat, new[j]? = (old[j]?).map (fun b => b.addSamples (samples j)))
    (hold : ∀ b ∈ old, b.capacity = n) : ∀ b ∈ new, b.capacity = n := by
  intro b hb
  obtain ⟨j, hj⟩ := List.mem_iff_getElem?.mp hb
  rw [h j] at hj
  cases ho : old[j]? with
  | none => rw [ho] at hj; exact absurd hj (by simp)
  | some b0 =>
    rw [ho] at hj
    simp only [Option.map_some', Option.some.injEq] at hj
    rw [← hj]
    exact hold b0 (List.getElem?_mem ho)

theorem Stream.feedIn_sameCapacity (s : Stream) (pack : SamplePack) (h : s.SameCapacity) :
    (s.feedIn pack).stream.SameCapacity := by
  obtain ⟨hns, _, _, hb⟩ := Stream.feedIn_buffers s pack
  unfold Stream.SameCapacity at *
  rw [hns]
  rcases hb with hb | ⟨samples, _, hb⟩
  · rw [hb]
    exact h
  · exact sameCapacity_of_appended _ _ samples _ hb h

theorem Stream.feedIn_xSized (s : Stream) (pack : SamplePack) (h : s.XSized) :
    (s.feedIn pack).stream.XSized := by
  obtain ⟨hns, hh, hd, _⟩ := Stream.feedIn_buffers s pack
  unfold Stream.XSized
  rw [hns, hh, hd]
  exact h

theorem Stream.setNumChannels_sameCapacity (s : Stream) (nc : Nat) (x : Bool)
    (h : s.SameCapacity) : (s.setNumChannels nc x).stream.SameCapacity := by
  obtain ⟨hb, hns, _⟩ := Stream.setNumChannels_state s nc x
  unfold Stream.SameCapacity at *
  rw [hb, hns]
  rcases Stream.withChannelCount_buffers s nc with ⟨_, hw⟩ | ⟨_, k, hw⟩
  · rw [hw]
    intro b hmem
    rcases List.mem_append.mp hmem with hm | hm
    · exact h b hm
    · rw [(List.mem_replicate.mp hm).2]
      rfl
  · rw [hw]
    intro b hmem
    exact h b (List.mem_of_mem_take hmem)

theorem Stream.setNumSamples_sameCapacity (s : Stream) (v : Nat) (h : s.SameCapacity) :
    (s.setNumSamples v).stream.SameCapacity := by
  obtain ⟨hns, hb⟩ := Stream.setNumSamples_buffers s v
  unfold Stream.SameCapacity at *
  rw [hns]
  rcases hb with ⟨hv, hs⟩ | ⟨_, hs⟩
  · rw [hs, hv]
    exact h
  · rw [hs]
    intro b hmem
    obtain ⟨b0, _, e⟩ := List.mem_map.mp hmem
    rw [← e]
    rfl

theorem Stream.setXAxis_sameCapacity (s : Stream) (asIndex : Bool) (lo hi : ℚ)
    (h : s.SameCapacity) : (s.setXAxis asIndex lo hi).stream.SameCapacity := by
  obtain ⟨hb, hns⟩ := Stream.setXAxis_buffers s asIndex lo hi
  unfold Stream.SameCapacity at *
  rw [hb, hns]
  exact h

theorem Stream.clear_sameCapacity (s : Stream) (h : s.SameCapacity) :
    s.clear.stream.SameCapacity := by
  unfold Stream.SameCapacity at *
  rw [Stream.clear_buffers]
  intro b hmem
  obtain ⟨b0, hb0, e⟩ := List.mem_map.mp hmem
  rw [← e]
  exact h b0 hb0

/-- Capacity invariant along every run. -/
theorem Stream.Reachable.capacity (nc ns : Nat) (s : Stream) (h : Stream.Reachable nc ns s) :
    s.SameCapacity ∧ s.XSized := by
  induction h with
  | construct =>
    rw [Stream.construct_stream]
    constructor
    · intro b hb
      unfold Stream.buffers at hb
      simp only [List.map_map, List.mem_map, List.mem_range] at hb
      obtain ⟨i, _, e⟩ := hb
      rw [← e]
      rfl
    · exact ⟨XFrameBuffer.indexBuffer ns, rfl, rfl⟩
  | feedIn s pack _ _ ih =>
    exact ⟨Stream.feedIn_sameCapacity s pack ih.1, Stream.feedIn_xSized s pack ih.2⟩
  | setNumChannels s n x _ _ ih =>
    exact ⟨Stream.setNumChannels_sameCapacity s n x ih.1, Stream.setNumChannels_xSized s n x ih.2⟩
  | setNumSamples s v _ ih =>
    exact ⟨Stream.setNumSamples_sameCapacity s v ih.1, Stream.setNumSamples_xSized s v ih.2⟩
  | setXAxis s asIndex lo hi _ ih =>
    exact ⟨Stream.setXAxis_sameCapacity s asIndex lo hi ih.1,
      Stream.setXAxis_xSized s asIndex lo hi ih.2⟩
  | clear s _ ih =>
    exact ⟨Stream.clear_sameCapacity s ih.1, ih.2⟩
  | pause s paused _ ih =>
    exact ih

theorem Stream.synchronised_of (s : Stream) (hcap : s.SameCapacity) (hcount : s.SameCount) :
    s.Synchronised := by
  intro b hb b' hb'
  exact ⟨hcount b hb b' hb', by rw [hcap b hb, hcap b' hb']⟩

theorem Stream.feedIn_sameCount (s : Stream) (pack : SamplePack) (hwf : pack.WF)
    (hcap : s.SameCapacity) (hcount : s.SameCount) : (s.feedIn pack).stream.SameCount := by
  obtain ⟨_, _, _, hb⟩ := Stream.feedIn_buffers s pack
  rcases hb with hb | ⟨samples, hlen, hb⟩
  · unfold Stream.SameCount
    rw [hb]
    exact hcount
  · have key : ∀ b ∈ (s.feedIn pack).stream.buffers, ∃ b0 ∈ s.buffers,
        b.count = min b0.capacity (b0.count + pack.numSamples) := by
      intro b hmem
      obtain ⟨j, hj⟩ := List.mem_iff_getElem?.mp hmem
      rw [hb j] at hj
      cases ho : s.buffers[j]? with
      | none => rw [ho] at hj; exact absurd hj (by simp)
      | some b0 =>
        rw [ho] at hj
        simp only [Option.map_some', Option.some.injEq] at hj
        have hjlt : j < s.numChannels := by
          have := (List.getElem?_eq_some.mp ho).1
          simpa [Stream.buffers, Stream.numChannels] using this
        refine ⟨b0, List.getElem?_mem ho, ?_⟩
        rw [← hj]
        show min b0.capacity (b0.count + (samples j).length) = _
        rw [hlen hwf j hjlt]
    intro b hmem b' hmem'
    obtain ⟨b0, h0, e0⟩ := key b hmem
    obtain ⟨b1, h1, e1⟩ := key b' hmem'
    rw [e0, e1, hcap b0 h0, hcap b1 h1, hcount b0 h0 b1 h1]

theorem Stream.setNumChannels_sameCount (s : Stream) (nc : Nat) (x : Bool)
    (hle : nc ≤ s.numChannels) (hcount : s.SameCount) :
    (s.setNumChannels nc x).stream.SameCount := by
  obtain ⟨hb, _, _⟩ := Stream.setNumChannels_state s nc x
  unfold Stream.SameCount at *
  rw [hb]
  rcases Stream.withChannelCount_buffers s nc with ⟨hlt, _⟩ | ⟨_, k, hw⟩
  · omega
  · rw [hw]
    intro b hmem b' hmem'
    exact hcount b (List.mem_of_mem_take hmem) b' (List.mem_of_mem_take hmem')

theorem Stream.setNumSamples_sameCount (s : Stream) (v : Nat) (hcount : s.SameCount) :
    (s.setNumSamples v).stream.SameCount := by
  obtain ⟨_, hb⟩ := Stream.setNumSamples_buffers s v
  unfold Stream.SameCount at *
  rcases hb with ⟨_, hs⟩ | ⟨_, hs⟩
  · rw [hs]
    exact hcount
  · rw [hs]
    intro b hmem b' hmem'
    obtain ⟨b0, h0, e0⟩ := List.mem_map.mp hmem
    obtain ⟨b1, h1, e1⟩ := List.mem_map.mp hmem'
    rw [← e0, ← e1]
    show min b0.count v = min b1.count v
    rw [hcount b0 h0 b1 h1]

theorem Stream.setXAxis_sameCount (s : Stream) (asIndex : Bool) (lo hi : ℚ)
    (hcount : s.SameCount) : (s.setXAxis asIndex lo hi).stream.SameCount := by
  unfold Stream.SameCount at *
  rw [(Stream.setXAxis_buffers s asIndex lo hi).1]
  exact hcount

theorem Stream.clear_sameCount (s : Stream) : s.clear.stream.SameCount := by
  unfold Stream.SameCount
  rw [Stream.clear_buffers]
  intro b hmem b' hmem'
  obtain ⟨b0, _, e0⟩ := List.mem_map.mp hmem
  obtain ⟨b1, _, e1⟩ := List.mem_map.mp hmem'
  rw [← e0, ← e1]
  rfl

/-! ## The claims on capacity, synchronisation and reconfiguration -/

/-- C11: capacity invariant. In every state reachable from
`Stream(nc, false, ns)` by calls of `feedIn`, `setNumChannels`,
`setNumSamples`, `setXAxis`, `clear` and `pause`, every channel buffer has
capacity `numSamples()` and the X buffer of the stream has size
`numSamples()`. -/
theorem reachable_capacity_invariant (nc ns : Nat) (s : Stream)
    (h : Stream.Reachable nc ns s) :
    (∀ c ∈ s.channels, c.yData.capacity = s.numSamples) ∧
    (∃ x, s.xHeap[s.xData]? = some x ∧ x.size = s.numSamples) := by
  obtain ⟨hcap, hx⟩ := Stream.Reachable.capacity nc ns s h
  refine ⟨?_, hx⟩
  intro c hc
  exact hcap c.yData (List.mem_map.mpr ⟨c, hc, rfl⟩)

theorem reachable_capacity_invariant_witness :
    Stream.Reachable 2 4 (exampleFedStream.setNumSamples 7).stream ∧
    (∀ c ∈ (exampleFedStream.setNumSamples 7).stream.channels,
      c.yData.capacity = (exampleFedStream.setNumSamples 7).stream.numSamples) :=
  ⟨Stream.Reachable.setNumSamples _ 7
      (Stream.Reachable.feedIn _ exampleHistory Stream.Reachable.construct (by decide!)),
   (reachable_capacity_invariant 2 4 (exampleFedStream.setNumSamples 7).stream
      (Stream.Reachable.setNumSamples _ 7
        (Stream.Reachable.feedIn _ exampleHistory Stream.Reachable.construct (by decide!)))).1⟩

/-- C12, counterexample: `exampleFedStream`, reachable from `Stream(2, false, 4)`
by one `feedIn`, has two channels with two samples each; `setNumChannels(4,
false)` returns and leaves channels with fill counts 2, 2, 0, 0: the buffers
do not all hold the same number of samples. -/
theorem setNumChannels_grow_leaves_different_counts :
    Stream.Reachable 2 4 exampleFedStream ∧
    exampleFedStream.Synchronised ∧
    (exampleFedStream.setNumChannels 4 false).failure = none ∧
    (exampleFedStream.setNumChannels 4 false).stream.buffers.map (fun b => b.count) =
      [2, 2, 0, 0] ∧
    ¬ (exampleFedStream.setNumChannels 4 false).stream.Synchronised :=
  ⟨Stream.Reachable.feedIn _ exampleHistory Stream.Reachable.construct (by decide!),
   by decide!, by decide!, by decide!, by decide!⟩

/-- C12, amended: on a stream whose channel buffers all have capacity
`numSamples()` and the same fill count, every operation, whether it returns
or fails an assertion, leaves all channel buffers with capacity
`numSamples()`; `feedIn` of a well-formed batch, `setNumSamples`, `setXAxis`,
`clear`, `pause` and a `setNumChannels` that adds no channel leave them
synchronised (same fill count, same capacity); a `setNumChannels` that adds
channels keeps the old buffers and adds empty ones. -/
theorem operations_keep_buffers_synchronised (s : Stream)
    (hcap : s.SameCapacity) (hcount : s.SameCount) :
    (∀ pack, (s.feedIn pack).stream.SameCapacity ∧
      (pack.WF → (s.feedIn pack).stream.Synchronised)) ∧
    (∀ nc x, (s.setNumChannels nc x).stream.SameCapacity ∧
      (nc ≤ s.numChannels → (s.setNumChannels nc x).stream.Synchronised) ∧
      (s.numChannels < nc → (s.setNumChannels nc x).stream.buffers =
        s.buffers ++ List.replicate (nc - s.numChannels) (RingBuffer.new s.numSamples))) ∧
    (∀ v, (s.setNumSamples v).stream.SameCapacity ∧ (s.setNumSamples v).stream.Synchronised) ∧
    (∀ asIndex lo hi, (s.setXAxis asIndex lo hi).stream.SameCapacity ∧
      (s.setXAxis asIndex lo hi).stream.Synchronised) ∧
    (s.clear.stream.SameCapacity ∧ s.clear.stream.Synchronised) ∧
    (∀ paused, (s.pause paused).stream.SameCapacity ∧ (s.pause paused).stream.Synchronised) := by
  refine ⟨?_, ?_, ?_, ?_, ?_, ?_⟩
  · intro pack
    have h1 := Stream.feedIn_sameCapacity s pack hcap
    exact ⟨h1, fun hwf =>
      Stream.synchronised_of _ h1 (Stream.feedIn_sameCount s pack hwf hcap hcount)⟩
  · intro nc x
    have h1 := Stream.setNumChannels_sameCapacity s nc x hcap
    refine ⟨h1, fun hle =>
      Stream.synchronised_of _ h1 (Stream.setNumChannels_sameCount s nc x hle hcount), ?_⟩
    intro hlt
    rw [(Stream.setNumChannels_state s nc x).1]
    rcases Stream.withChannelCount_buffers s nc with ⟨_, hw⟩ | ⟨hle, _⟩
    · exact hw
    · omega
  · intro v
    have h1 := Stream.setNumSamples_sameCapacity s v hcap
    exact ⟨h1, Stream.synchronised_of _ h1 (Stream.setNumSamples_sameCount s v hcount)⟩
  · intro asIndex lo hi
    have h1 := Stream.setXAxis_sameCapacity s asIndex lo hi hcap
    exact ⟨h1, Stream.synchronised_of _ h1 (Stream.setXAxis_sameCount s asIndex lo hi hcount)⟩
  · have h1 := Stream.clear_sameCapacity s hcap
    exact ⟨h1, Stream.synchronised_of _ h1 (Stream.clear_sameCount s)⟩
  · intro paused
    exact ⟨hcap, Stream.synchronised_of _ hcap hcount⟩

theorem operations_keep_buffers_synchronised_witness :
    (exampleFedStream.SameCapacity ∧ exampleFedStream.SameCount ∧ exampleBatch.WF) ∧
    (exampleFedStream.feedIn exampleBatch).stream.Synchronised ∧
    (exampleFedStream.setNumChannels 1 true).stream.Synchronised :=
  ⟨by decide!,
   ((operations_keep_buffers_synchronised exampleFedStream (by decide!) (by decide!)).1
      exampleBatch).2 (by decide!),
   ((operations_keep_buffers_synchronised exampleFedStream (by decide!) (by decide!)).2.1
      1 true).2.1 (by decide!)⟩

/-- C13: after `setNumSamples(v)`, on a stream whose channel buffers and X
buffer have size `numSamples()`: `numSamples() == v`, every channel buffer
and the X buffer have size `v` (each channel buffer is the old one resized to
`v` when `v` is a new value), the number of channels, the paused flag and the
X mode are what they were, and no signal is emitted. -/
theorem setNumSamples_resizes_all (s : Stream) (v : Nat)
    (hcap : s.SameCapacity) (hx : s.XSized) :
    (s.setNumSamples v).failure = none ∧
    (s.setNumSamples v).stream.numSamples = v ∧
    (∀ c ∈ (s.setNumSamples v).stream.channels, c.yData.capacity = v) ∧
    (∃ x, (s.setNumSamples v).stream.xHeap[(s.setNumSamples v).stream.xData]? = some x ∧
      x.size = v) ∧
    (v ≠ s.numSamples →
      (s.setNumSamples v).stream.channels =
        s.channels.map (fun c => { c with yData := c.yData.resize v })) ∧
    (s.setNumSamples v).stream.numChannels = s.numChannels ∧
    (s.setNumSamples v).stream.paused = s.paused ∧
    (s.setNumSamples v).stream.hasX = s.hasX ∧
    (s.setNumSamples v).stream.xAsIndex = s.xAsIndex ∧
    (s.setNumSamples v).stream.xData = s.xData ∧
    (s.setNumSamples v).emitted = [] := by
  have h1 := Stream.setNumSamples_sameCapacity s v hcap
  have h2 := Stream.setNumSamples_xSized s v hx
  have hns := (Stream.setNumSamples_buffers s v).1
  unfold Stream.SameCapacity at h1
  unfold Stream.XSized at h2
  rw [hns] at h1 h2
  refine ⟨?_, hns, ?_, h2, ?_, ?_⟩
  · by_cases hv : v = s.numSamples
    · subst hv
      rw [Stream.setNumSamples_same]
    · rw [Stream.setNumSamples_other s v hv]
  · intro c hc
    exact h1 c.yData (List.mem_map.mpr ⟨c, hc, rfl⟩)
  · intro hv
    rw [Stream.setNumSamples_other s v hv]
  · by_cases hv : v = s.numSamples
    · subst hv
      rw [Stream.setNumSamples_same]
      exact ⟨rfl, rfl, rfl, rfl, rfl, rfl⟩
    · rw [Stream.setNumSamples_other s v hv]
      refine ⟨?_, rfl, rfl, rfl, rfl, rfl⟩
      show (s.channels.map _).length = s.channels.length
      rw [List.length_map]

theorem setNumSamples_resizes_all_witness :
    (exampleFedStream.SameCapacity ∧ exampleFedStream.XSized) ∧
    (exampleFedStream.setNumSamples 7).stream.numSamples = 7 :=
  ⟨⟨by decide!, ⟨XFrameBuffer.indexBuffer 4, by decide!, by decide!⟩⟩,
   (setNumSamples_resizes_all exampleFedStream 7 (by decide!)
    ⟨XFrameBuffer.indexBuffer 4, by decide!, by decide!⟩).2.1⟩

/-- C17: `clear()` empties the ring buffer of every channel (fill count 0,
no logical index readable, capacity kept) and changes nothing else: the
channels keep their index and X buffer, and `numChannels()`, `numSamples()`,
the registry with its gain and offset settings, the paused flag and the X
buffer are the same; no signal is emitted. -/
theorem clear_empties_buffers_only (s : Stream) :
    s.clear.failure = none ∧
    s.clear.emitted = [] ∧
    s.clear.stream =
      { s with channels := s.channels.map (fun c => { c with yData := c.yData.clear }) } ∧
    (∀ b ∈ s.clear.stream.buffers, b.count = 0 ∧ ∀ i, b.read i = none) ∧
    s.clear.stream.buffers.map (fun b => b.capacity) = s.buffers.map (fun b => b.capacity) ∧
    s.clear.stream.numChannels = s.numChannels ∧
    s.clear.stream.numSamples = s.numSamples ∧
    s.clear.stream.infoModel = s.infoModel ∧
    s.clear.stream.paused = s.paused ∧
    s.clear.stream.xData = s.xData ∧
    s.clear.stream.xHeap = s.xHeap ∧
    s.clear.stream.hasX = s.hasX := by
  refine ⟨rfl, rfl, rfl, ?_, ?_, ?_, rfl, rfl, rfl, rfl, rfl, rfl⟩
  · intro b hb
    rw [Stream.clear_buffers] at hb
    obtain ⟨b0, _, e⟩ := List.mem_map.mp hb
    rw [← e]
    refine ⟨rfl, fun i => ?_⟩
    unfold RingBuffer.read RingBuffer.clear
    simp
  · rw [Stream.clear_buffers, List.map_map]
    rfl
  · show (s.channels.map _).length = s.channels.length
    rw [List.length_map]

/-- C18: `pause(b)` sets the paused flag to `b` and changes no other field, and
emits nothing; so `pause(b)` twice is `pause(b)` once, and on a stream that is
not paused `pause(true)` followed by `pause(false)` gives back the state. -/
theorem pause_sets_flag_only (s : Stream) (b : Bool) :
    (s.pause b).failure = none ∧
    (s.pause b).emitted = [] ∧
    (s.pause b).stream = { s with paused := b } ∧
    (s.pause b).stream.paused = b ∧
    ((s.pause b).stream.pause b).stream = (s.pause b).stream ∧
    (s.paused = false → ((s.pause true).stream.pause false).stream = s) ∧
    (s.paused = true → ((s.pause false).stream.pause true).stream = s) := by
  refine ⟨rfl, rfl, rfl, rfl, rfl, ?_, ?_⟩
  · intro h
    show ({ s with paused := false } : Stream) = s
    rw [← h]
  · intro h
    show ({ s with paused := true } : Stream) = s
    rw [← h]

theorem pause_sets_flag_only_witness :
    exampleFedStream.paused = false ∧
    ((exampleFedStream.pause true).stream.pause false).stream = exampleFedStream :=
  ⟨by decide!, (pause_sets_flag_only exampleFedStream true).2.2.2.2.2.1 (by decide!)⟩

theorem Stream.withChannelCount_paused (s : Stream) (p : Bool) (nc : Nat) :
    Stream.withChannelCount { s with paused := p } nc =
      { s.withChannelCount nc with paused := p } := by
  unfold Stream.withChannelCount
  simp only [Stream.numChannels]
  generalize usub nc 1 = bnd
  split_ifs <;> rfl

theorem Stream.finishSetNumChannels_paused (t : Stream) (p : Bool) (oldNum nc : Nat) (x : Bool) :
    Stream.finishSetNumChannels { t with paused := p } oldNum nc x =
      { t.finishSetNumChannels oldNum nc x with
        stream := { (t.finishSetNumChannels oldNum nc x).stream with paused := p } } := by
  unfold Stream.finishSetNumChannels
  split_ifs <;> rfl

theorem Stream.setNumChannels_paused (s : Stream) (p : Bool) (nc : Nat) (x : Bool) :
    Stream.setNumChannels { s with paused := p } nc x =
      { s.setNumChannels nc x with
        stream := { (s.setNumChannels nc x).stream with paused := p } } := by
  rw [Stream.setNumChannels_unfold, Stream.setNumChannels_unfold, Stream.withChannelCount_paused]
  simp only [Stream.numChannels]
  by_cases h0 : s.channels.length = nc ∧ x = s.hasx
  · rw [if_pos h0, if_pos h0]
  · rw [if_neg h0, if_neg h0]
    by_cases h1 : x ≠ (s.withChannelCount nc).hasx
    · rw [if_pos h1, if_pos h1]
      cases x
      · simp only [Bool.false_eq_true, if_false]
        exact Stream.finishSetNumChannels_paused
          { (s.withChannelCount nc).assignNewXBuffer with
            channels := (s.withChannelCount nc).assignNewXBuffer.channels.map
              (fun c => { c with xData := (s.withChannelCount nc).assignNewXBuffer.xData })
            hasx := false }
          p s.channels.length nc false
      · rw [if_pos rfl, if_pos rfl]
    · rw [if_neg h1, if_neg h1]
      exact Stream.finishSetNumChannels_paused _ p _ _ _

theorem Stream.setNumSamples_paused (s : Stream) (p : Bool) (v : Nat) :
    Stream.setNumSamples { s with paused := p } v =
      { s.setNumSamples v with stream := { (s.setNumSamples v).stream with paused := p } } := by
  unfold Stream.setNumSamples
  simp only
  split_ifs <;> rfl

theorem Stream.setXAxis_paused (s : Stream) (p : Bool) (asIndex : Bool) (lo hi : ℚ) :
    Stream.setXAxis { s with paused := p } asIndex lo hi =
      { s.setXAxis asIndex lo hi with
        stream := { (s.setXAxis asIndex lo hi).stream with paused := p } } := by
  rcases Bool.eq_false_or_eq_true s.hasx with h | h
  · rw [Stream.setXAxis_hasX { s with paused := p } asIndex lo hi h,
      Stream.setXAxis_hasX s asIndex lo hi h]
  · rw [Stream.setXAxis_noX { s with paused := p } asIndex lo hi h,
      Stream.setXAxis_noX s asIndex lo hi h]
    rfl

/-- C19: reconfiguration does not look at the pause state. For a stream `s`
and the stream that differs from it in the paused flag only, each of
`setNumChannels`, `setNumSamples`, `setXAxis` and `clear`, with the same
arguments, ends the same way (returns or fails the same assertion), emits the
same signals and leaves states that again differ in the paused flag only;
`feedIn` is the operation that differs: the same batch is stored and
signalled on the active stream, and dropped on the paused one. -/
theorem reconfiguration_ignores_pause (s : Stream) (p : Bool) :
    (∀ nc x, Stream.setNumChannels { s with paused := p } nc x =
      { s.setNumChannels nc x with
        stream := { (s.setNumChannels nc x).stream with paused := p } }) ∧
    (∀ v, Stream.setNumSamples { s with paused := p } v =
      { s.setNumSamples v with stream := { (s.setNumSamples v).stream with paused := p } }) ∧
    (∀ asIndex lo hi, Stream.setXAxis { s with paused := p } asIndex lo hi =
      { s.setXAxis asIndex lo hi with
        stream := { (s.setXAxis asIndex lo hi).stream with paused := p } }) ∧
    Stream.clear { s with paused := p } =
      { s.clear with stream := { s.clear.stream with paused := p } } ∧
    ((exampleStream.feedIn exampleBatch).emitted = [Signal.dataAdded] ∧
      (Stream.feedIn { exampleStream with paused := true } exampleBatch).emitted = [] ∧
      (exampleStream.feedIn exampleBatch).stream.buffers.map (fun b => b.count) = [1, 1] ∧
      (Stream.feedIn { exampleStream with paused := true } exampleBatch).stream.buffers.map
        (fun b => b.count) = [0, 0]) :=
  ⟨fun nc x => Stream.setNumChannels_paused s p nc x,
   fun v => Stream.setNumSamples_paused s p v,
   fun asIndex lo hi => Stream.setXAxis_paused s p asIndex lo hi,
   rfl,
   by decide!⟩

/-! ## The linear X axis -/

/-- The values of the linear X buffer of capacity `n ≥ 2`: the first is the
lower end of the range and the last the upper end. -/
theorem XFrameBuffer.linIndexBuffer_values (n : Nat) (lo hi : ℚ) (hn : 2 ≤ n) :
    (∀ i, i < n → (XFrameBuffer.linIndexBuffer n lo hi).sample i =
      some (lo + (i : ℚ) * (hi - lo) / ((n : ℚ) - 1))) ∧
    (XFrameBuffer.linIndexBuffer n lo hi).sample 0 = some lo ∧
    (XFrameBuffer.linIndexBuffer n lo hi).sample (n - 1) = some hi := by
  have hne : (n : ℚ) - 1 ≠ 0 := by
    have : (2 : ℚ) ≤ (n : ℚ) := by exact_mod_cast hn
    linarith
  have h0 : 0 < n := by omega
  have h1 : n - 1 < n := by omega
  refine ⟨?_, ?_, ?_⟩
  · intro i hi'
    simp only [XFrameBuffer.sample]
    rw [if_pos hi']
  · simp only [XFrameBuffer.sample]
    rw [if_pos h0]
    simp
  · simp only [XFrameBuffer.sample]
    rw [if_pos h1]
    have hc : ((n - 1 : ℕ) : ℚ) = (n : ℚ) - 1 := by
      rw [Nat.cast_sub (by omega)]
      simp
    rw [hc]
    congr 1
    field_simp

theorem Stream.setXAxis_linearX (s : Stream) (lo hi : ℚ) (hnox : s.hasX = false) :
    (s.setXAxis false lo hi).stream.LinearX lo hi ∧
    (s.setXAxis false lo hi).stream.numSamples = s.numSamples := by
  have hx : s.hasx = false := hnox
  rw [Stream.setXAxis_noX s false lo hi hx]
  refine ⟨⟨?_, ?_⟩, rfl⟩
  · intro c hc
    obtain ⟨c0, _, e⟩ := List.mem_map.mp hc
    rw [← e]
  · show (s.xHeap ++ [_])[s.xHeap.length]? = _
    rw [List.getElem?_append_right (Nat.le_refl _)]
    simp [Stream.makeXBuffer]

theorem Stream.setNumSamples_linearX (s : Stream) (lo hi : ℚ) (m : Nat)
    (h : s.LinearX lo hi) : (s.setNumSamples m).stream.LinearX lo hi := by
  by_cases hm : m = s.numSamples
  · subst hm
    rw [Stream.setNumSamples_same]
    exact h
  · rw [Stream.setNumSamples_other s m hm]
    obtain ⟨hch, hheap⟩ := h
    refine ⟨?_, ?_⟩
    · intro c hc
      obtain ⟨c0, hc0, e⟩ := List.mem_map.mp hc
      rw [← e]
      exact hch c0 hc0
    · show (s.xHeap.modify (fun b => b.resize m) s.xData)[s.xData]? = _
      rw [List.getElem?_modify, hheap]
      simp [XFrameBuffer.resize]

theorem Stream.LinearX.xAt (s : Stream) (lo hi : ℚ) (h : s.LinearX lo hi)
    (c : StreamChannel) (hc : c ∈ s.channels) (i : Nat) :
    s.xAt c i = (XFrameBuffer.linIndexBuffer s.numSamples lo hi).sample i := by
  unfold Stream.xAt
  rw [h.1 c hc, h.2]
  rfl

/-- C20: linear X mapping. On a stream without external X and of capacity
`n ≥ 2`, right after `setXAxis(false, min, max)` every channel sees, at
logical index `i < n`, the X value `min + i * (max - min) / (n - 1)`, so
`xAt(0) == min` and `xAt(n - 1) == max`; after a following
`setNumSamples(m)` with `m ≥ 2` the same holds with `m` in place of `n`. This
needs no assumption on the order of `min` and `max`. With capacity 10,
`min = 0` and `max = 10`: `xAt(0) == 0` and `xAt(9) == 10`. -/
theorem setXAxis_linear_mapping (s : Stream) (lo hi : ℚ) (m : Nat)
    (hnox : s.hasX = false) (hn : 2 ≤ s.numSamples) (hm : 2 ≤ m) :
    (∀ c ∈ (s.setXAxis false lo hi).stream.channels,
      (∀ i, i < s.numSamples → (s.setXAxis false lo hi).stream.xAt c i =
        some (lo + (i : ℚ) * (hi - lo) / ((s.numSamples : ℚ) - 1))) ∧
      (s.setXAxis false lo hi).stream.xAt c 0 = some lo ∧
      (s.setXAxis false lo hi).stream.xAt c (s.numSamples - 1) = some hi) ∧
    (((s.setXAxis false lo hi).stream.setNumSamples m).stream.numSamples = m ∧
      ∀ c ∈ ((s.setXAxis false lo hi).stream.setNumSamples m).stream.channels,
        (∀ i, i < m → ((s.setXAxis false lo hi).stream.setNumSamples m).stream.xAt c i =
          some (lo + (i : ℚ) * (hi - lo) / ((m : ℚ) - 1))) ∧
        ((s.setXAxis false lo hi).stream.setNumSamples m).stream.xAt c 0 = some lo ∧
        ((s.setXAxis false lo hi).stream.setNumSamples m).stream.xAt c (m - 1) = some hi) ∧
    (exampleTenStream.setXAxis false 0 10).stream.channels.map
        (fun c => ((exampleTenStream.setXAxis false 0 10).stream.xAt c 0,
          (exampleTenStream.setXAxis false 0 10).stream.xAt c 9)) = [(some 0, some 10)] := by
  obtain ⟨hlin, hns⟩ := Stream.setXAxis_linearX s lo hi hnox
  have hlin2 := Stream.setNumSamples_linearX _ lo hi m hlin
  have hns2 := (Stream.setNumSamples_buffers (s.setXAxis false lo hi).stream m).1
  refine ⟨?_, ⟨hns2, ?_⟩, by decide!⟩
  · intro c hc
    obtain ⟨h1, h2, h3⟩ := XFrameBuffer.linIndexBuffer_values s.numSamples lo hi hn
    have hx := Stream.LinearX.xAt _ lo hi hlin c hc
    rw [hns] at hx
    refine ⟨fun i hi' => ?_, ?_, ?_⟩
    · rw [hx, h1 i hi']
    · rw [hx, h2]
    · rw [hx, h3]
  · intro c hc
    obtain ⟨h1, h2, h3⟩ := XFrameBuffer.linIndexBuffer_values m lo hi hm
    have hx := Stream.LinearX.xAt _ lo hi hlin2 c hc
    rw [hns2] at hx
    refine ⟨fun i hi' => ?_, ?_, ?_⟩
    · rw [hx, h1 i hi']
    · rw [hx, h2]
    · rw [hx, h3]

theorem setXAxis_linear_mapping_witness :
    (exampleTenStream.hasX = false ∧ 2 ≤ exampleTenStream.numSamples ∧ 2 ≤ 5) ∧
    ((exampleTenStream.setXAxis false 0 10).stream.setNumSamples 5).stream.xAt
      { index := 0, xData := 1, yData := (RingBuffer.new 10).resize 5 } 4 = some 10 :=
  ⟨by decide!,
   ((setXAxis_linear_mapping exampleTenStream 0 10 5 (by decide!) (by decide!) (by decide!)).2.1.2
      { index := 0, xData := 1, yData := (RingBuffer.new 10).resize 5 } (by decide!)).2.2⟩

/-! ## The X buffer: range, sharing, and the assertion on external X -/

/-- C21, counterexample: `setXAxis(false, 10, 0)`, a range with `min >= max`,
on `Stream(1, false, 10)` returns without failure and is applied: the X mode
becomes linear, `xMin` and `xMax` are overwritten (they were 0 and 1) and the
channel sees a new linear X buffer for the range 10 .. 0. -/
theorem setXAxis_applies_reversed_range :
    (exampleTenStream.xAsIndex = true ∧ exampleTenStream.xMin = 0 ∧
      exampleTenStream.xMax = 1 ∧
      exampleTenStream.xHeap[exampleTenStream.xData]? = some (XFrameBuffer.indexBuffer 10)) ∧
    (exampleTenStream.setXAxis false 10 0).failure = none ∧
    (exampleTenStream.setXAxis false 10 0).stream.xAsIndex = false ∧
    (exampleTenStream.setXAxis false 10 0).stream.xMin = 10 ∧
    (exampleTenStream.setXAxis false 10 0).stream.xMax = 0 ∧
    (exampleTenStream.setXAxis false 10 0).stream.channels.map
        (fun c => (exampleTenStream.setXAxis false 10 0).stream.xHeap[c.xData]?) =
      [some (XFrameBuffer.linIndexBuffer 10 10 0)] := by
  decide!

/-- C21, amended: `setXAxis(false, min, max)` with `min >= max` is applied like
any other range, without failure and without a signal: the X mode is linear
afterwards, `xMin` and `xMax` hold the new values, and on a stream without
external X every channel reads a new linear X buffer for that range. -/
theorem setXAxis_applies_any_range (s : Stream) (lo hi : ℚ) (hrange : hi ≤ lo) :
    (s.setXAxis false lo hi).failure = none ∧
    (s.setXAxis false lo hi).emitted = [] ∧
    (s.setXAxis false lo hi).stream.xAsIndex = false ∧
    (s.setXAxis false lo hi).stream.xMin = lo ∧
    (s.setXAxis false lo hi).stream.xMax = hi ∧
    (s.hasX = false → (s.setXAxis false lo hi).stream.LinearX lo hi) := by
  have _ := hrange
  rcases Bool.eq_false_or_eq_true s.hasx with h | h
  · rw [Stream.setXAxis_hasX s false lo hi h]
    refine ⟨rfl, rfl, rfl, rfl, rfl, ?_⟩
    intro hn
    have : s.hasx = false := hn
    rw [h] at this
    exact absurd this (by decide)
  · refine ⟨?_, ?_, ?_, ?_, ?_, fun hn => (Stream.setXAxis_linearX s lo hi hn).1⟩ <;>
      rw [Stream.setXAxis_noX s false lo hi h]

theorem setXAxis_applies_any_range_witness :
    ((0 : ℚ) ≤ 10 ∧ exampleTenStream.hasX = false) ∧
    (exampleTenStream.setXAxis false 10 0).stream.xMin = 10 ∧
    (exampleTenStream.setXAxis false 10 0).stream.LinearX 10 0 :=
  ⟨by decide!,
   (setXAxis_applies_any_range exampleTenStream 10 0 (by decide!)).2.2.2.1,
   (setXAxis_applies_any_range exampleTenStream 10 0 (by decide!)).2.2.2.2.2 (by decide!)⟩

theorem Stream.withChannelCount_channels (s : Stream) (nc : Nat) :
    ∀ c ∈ (s.withChannelCount nc).channels, c ∈ s.channels ∨ c.xData = s.xData := by
  unfold Stream.withChannelCount
  by_cases hg : nc > s.numChannels
  · rw [if_pos hg]
    unfold forRange
    simp only [forLoop_append]
    intro c hc
    rcases List.mem_append.mp hc with h | h
    · exact Or.inl h
    · obtain ⟨k, _, e⟩ := List.mem_map.mp h
      right
      rw [← e]
  · rw [if_neg hg]
    by_cases hl : nc < s.numChannels
    · rw [if_pos hl, takeLastLoop_eq_take]
      generalize usub nc 1 = bnd
      intro c hc
      exact Or.inl (List.mem_of_mem_take hc)
    · rw [if_neg hl]
      intro c hc
      exact Or.inl hc

theorem Stream.withChannelCount_sharedX (s : Stream) (nc : Nat) (h : s.SharedX) :
    (s.withChannelCount nc).SharedX := by
  obtain ⟨_, hheap, hxd, _, _, _⟩ := Stream.withChannelCount_fields s nc
  refine ⟨?_, by rw [hheap, hxd]; exact h.2⟩
  intro c hc
  rw [hxd]
  rcases Stream.withChannelCount_channels s nc c hc with hm | hm
  · exact h.1 c hm
  · exact hm

/-- Pointing every channel to a newly made X buffer gives a shared X
buffer. -/
theorem Stream.repointed_sharedX (t : Stream) (x : Bool) :
    Stream.SharedX
      { t.assignNewXBuffer with
        channels := t.assignNewXBuffer.channels.map
          (fun c => { c with xData := t.assignNewXBuffer.xData })
        hasx := x } := by
  refine ⟨?_, ?_⟩
  · intro c hc
    obtain ⟨c0, _, e⟩ := List.mem_map.mp hc
    rw [← e]
  · show t.xHeap.length + 1 = (t.xHeap ++ [t.makeXBuffer]).length
    simp

theorem Stream.finishSetNumChannels_sharedX (t : Stream) (oldNum nc : Nat) (x : Bool)
    (h : t.SharedX) : (t.finishSetNumChannels oldNum nc x).stream.SharedX := by
  obtain ⟨_, hch, _, hh, hd⟩ := Stream.finishSetNumChannels_fields t oldNum nc x
  unfold Stream.SharedX
  rw [hch, hh, hd]
  exact h

theorem Stream.setNumChannels_sharedX (s : Stream) (nc : Nat) (x : Bool) (h : s.SharedX) :
    (s.setNumChannels nc x).stream.SharedX := by
  rw [Stream.setNumChannels_unfold]
  by_cases h0 : s.numChannels = nc ∧ x = s.hasx
  · rw [if_pos h0]
    exact h
  · rw [if_neg h0]
    by_cases h1 : x ≠ (s.withChannelCount nc).hasx
    · rw [if_pos h1]
      cases x
      · simp only [Bool.false_eq_true, if_false]
        exact Stream.finishSetNumChannels_sharedX _ _ _ _
          (Stream.repointed_sharedX (s.withChannelCount nc) false)
      · rw [if_pos rfl]
        exact Stream.withChannelCount_sharedX s nc h
    · rw [if_neg h1]
      exact Stream.finishSetNumChannels_sharedX _ _ _ _
        (Stream.withChannelCount_sharedX s nc h)

theorem Stream.feedIn_sharedX (s : Stream) (pack : SamplePack) (h : s.SharedX) :
    (s.feedIn pack).stream.SharedX := by
  rcases Stream.feedIn_stream s pack with e | ⟨st, _, _, e⟩
  · rw [e]
    exact h
  · rw [e]
    refine ⟨?_, h.2⟩
    intro c hc
    have hbody : feedChannel st pack.numSamples =
        fun ci (chs : List StreamChannel) => chs.modify (fun c =>
          { c with
            yData := c.yData.addSamples ((st.effective.data ci).take pack.numSamples) }) ci := by
      funext ci chs
      rfl
    have hc' : c ∈ forLoop (feedChannel st pack.numSamples) s.numChannels s.channels := hc
    obtain ⟨j, hj⟩ := List.mem_iff_getElem?.mp hc'
    rw [hbody, forLoop_modify_getElem?] at hj
    cases ho : s.channels[j]? with
    | none =>
      rw [ho] at hj
      simp at hj
    | some c0 =>
      rw [ho] at hj
      have hx0 := h.1 c0 (List.getElem?_mem ho)
      by_cases hjn : j < s.numChannels
      · rw [if_pos hjn] at hj
        simp only [Option.map_some', Option.some.injEq] at hj
        rw [← hj]
        exact hx0
      · rw [if_neg hjn] at hj
        simp only [Option.some.injEq] at hj
        rw [← hj]
        exact hx0

theorem Stream.setNumSamples_sharedX (s : Stream) (v : Nat) (h : s.SharedX) :
    (s.setNumSamples v).stream.SharedX := by
  by_cases hv : v = s.numSamples
  · subst hv
    rw [Stream.setNumSamples_same]
    exact h
  · rw [Stream.setNumSamples_other s v hv]
    refine ⟨?_, ?_⟩
    · intro c hc
      obtain ⟨c0, hc0, e⟩ := List.mem_map.mp hc
      rw [← e]
      exact h.1 c0 hc0
    · show s.xData + 1 = (s.xHeap.modify (fun b => b.resize v) s.xData).length
      rw [List.length_modify]
      exact h.2

theorem Stream.setXAxis_sharedX (s : Stream) (asIndex : Bool) (lo hi : ℚ) (h : s.SharedX) :
    (s.setXAxis asIndex lo hi).stream.SharedX := by
  rcases Bool.eq_false_or_eq_true s.hasx with hx | hx
  · rw [Stream.setXAxis_hasX s asIndex lo hi hx]
    exact h
  · rw [Stream.setXAxis_noX s asIndex lo hi hx]
    refine ⟨?_, ?_⟩
    · intro c hc
      obtain ⟨c0, _, e⟩ := List.mem_map.mp hc
      rw [← e]
    · show s.xHeap.length + 1 = (s.xHeap ++ [_]).length
      simp

theorem Stream.clear_sharedX (s : Stream) (h : s.SharedX) : s.clear.stream.SharedX := by
  refine ⟨?_, h.2⟩
  intro c hc
  have hc' : c ∈ s.channels.map (fun c => ({ c with yData := c.yData.clear } : StreamChannel)) :=
    hc
  obtain ⟨c0, hc0, e⟩ := List.mem_map.mp hc'
  rw [← e]
  exact h.1 c0 hc0

/-- C22: shared X source invariant. In every state reachable from
`Stream(nc, false, ns)` by calls of `setNumChannels`, `setNumSamples`,
`setXAxis`, `feedIn`, `clear` and `pause`, every channel points to the X
buffer of the stream, and that buffer is the one made last by `makeXBuffer`
(the last one allocated): no channel keeps a replaced buffer. -/
theorem reachable_shared_x_source (nc ns : Nat) (s : Stream)
    (h : Stream.Reachable nc ns s) :
    (∀ c ∈ s.channels, c.xData = s.xData) ∧ s.xData + 1 = s.xHeap.length := by
  have key : s.SharedX := by
    induction h with
    | construct =>
      rw [Stream.construct_stream]
      refine ⟨?_, rfl⟩
      intro c hc
      obtain ⟨i, _, e⟩ := List.mem_map.mp hc
      rw [← e]
    | feedIn s pack _ _ ih => exact Stream.feedIn_sharedX s pack ih
    | setNumChannels s n x _ _ ih => exact Stream.setNumChannels_sharedX s n x ih
    | setNumSamples s v _ ih => exact Stream.setNumSamples_sharedX s v ih
    | setXAxis s asIndex lo hi _ ih => exact Stream.setXAxis_sharedX s asIndex lo hi ih
    | clear s _ ih => exact Stream.clear_sharedX s ih
    | pause s paused _ ih => exact ih
  exact key

theorem reachable_shared_x_source_witness :
    Stream.Reachable 2 4 ((exampleFedStream.setXAxis false 0 10).stream.setNumChannels 3 false).stream ∧
    ((exampleFedStream.setXAxis false 0 10).stream.setNumChannels 3 false).stream.channels.map
        (fun c => c.xData) = [1, 1, 1] ∧
    (∀ c ∈ ((exampleFedStream.setXAxis false 0 10).stream.setNumChannels 3 false).stream.channels,
      c.xData = ((exampleFedStream.setXAxis false 0 10).stream.setNumChannels 3 false).stream.xData) :=
  ⟨Stream.Reachable.setNumChannels _ 3 false
      (Stream.Reachable.setXAxis _ false 0 10
        (Stream.Reachable.feedIn _ exampleHistory Stream.Reachable.construct (by decide!)))
      (by decide!),
   by decide!,
   (reachable_shared_x_source 2 4 _
      (Stream.Reachable.setNumChannels _ 3 false
        (Stream.Reachable.setXAxis _ false 0 10
          (Stream.Reachable.feedIn _ exampleHistory Stream.Reachable.construct (by decide!)))
        (by decide!))).1⟩

theorem Stream.setNumChannels_true_fails (s : Stream) (nc : Nat) (h : s.hasX = false) :
    (s.setNumChannels nc true).failure = some Failure.xRingBufferUnimplemented := by
  have hx : s.hasx = false := h
  have hw : (s.withChannelCount nc).hasx = false := by
    rw [(Stream.withChannelCount_fields s nc).2.2.2.1]
    exact hx
  rw [Stream.setNumChannels_unfold]
  have h0 : ¬ (s.numChannels = nc ∧ true = s.hasx) := by
    rw [hx]
    intro e
    exact absurd e.2 (by decide)
  have h1 : true ≠ (s.withChannelCount nc).hasx := by
    rw [hw]
    decide
  rw [if_neg h0, if_pos h1, if_pos rfl]

theorem Stream.setNumChannels_hasx (s : Stream) (nc : Nat) (x : Bool) (h : s.hasx = false)
    (hret : (s.setNumChannels nc x).failure = none) :
    (s.setNumChannels nc x).stream.hasx = false := by
  cases x
  · have hw : (s.withChannelCount nc).hasx = false := by
      rw [(Stream.withChannelCount_fields s nc).2.2.2.1]
      exact h
    rw [Stream.setNumChannels_unfold]
    by_cases h0 : s.numChannels = nc ∧ false = s.hasx
    · rw [if_pos h0]
      exact h
    · rw [if_neg h0]
      have h1 : ¬ (false ≠ (s.withChannelCount nc).hasx) := by
        rw [hw]
        exact fun e => e rfl
      rw [if_neg h1]
      unfold Stream.finishSetNumChannels
      split
      · exact hw
      · exact hw
  · rw [Stream.setNumChannels_true_fails s nc h] at hret
    exact absurd hret (by simp)

theorem Stream.Reachable.hasx (nc ns : Nat) (s : Stream) (h : Stream.Reachable nc ns s) :
    s.hasx = false := by
  induction h with
  | construct =>
    rw [Stream.construct_stream]
  | feedIn s pack _ _ ih =>
    rcases Stream.feedIn_stream s pack with e | ⟨st, _, _, e⟩
    · rw [e]
      exact ih
    · rw [e]
      exact ih
  | setNumChannels s n x _ hret ih => exact Stream.setNumChannels_hasx s n x ih hret
  | setNumSamples s v _ ih =>
    by_cases hv : v = s.numSamples
    · subst hv
      rw [Stream.setNumSamples_same]
      exact ih
    · rw [Stream.setNumSamples_other s v hv]
      exact ih
  | setXAxis s asIndex lo hi _ ih =>
    rw [Stream.setXAxis_noX s asIndex lo hi ih]
    exact ih
  | clear s _ ih => exact ih
  | pause s paused _ ih => exact ih

theorem Stream.feedIn_not_xBranch (s : Stream) (pack : SamplePack) (h : s.hasx = false) :
    (s.feedIn pack).failure ≠ some Failure.xRingBufferUnimplemented := by
  by_cases hshape : pack.numChannels = s.numChannels ∧ pack.hasX = s.hasX
  · by_cases hp : s.paused = true
    · unfold Stream.feedIn
      rw [if_neg (not_not.mpr hshape), if_pos hp]
      simp
    · obtain ⟨st, hst⟩ := Stream.ingested_isSome s pack
      rw [Stream.feedIn_active s pack (by simpa using hp) h hshape st hst]
      simp
  · unfold Stream.feedIn
    rw [if_pos hshape]
    simp

/-- C23: external X is behind an assertion. The constructor with `x == true`
fails `Q_ASSERT(false)`, and so does `setNumChannels(nc, true)` on a stream
with `hasX() == false`, for every `nc`; hence `hasX() == false` in every state
reachable from `Stream(nc, false, ns)` by calls that return, and in such a
state `feedIn` never fails in its `hasX` branch. -/
theorem external_x_is_asserted_out :
    (∀ nc ns, (Stream.construct nc true ns).failure =
      some Failure.xRingBufferUnimplemented) ∧
    (∀ (s : Stream) nc, s.hasX = false →
      (s.setNumChannels nc true).failure = some Failure.xRingBufferUnimplemented) ∧
    (∀ nc ns (s : Stream), Stream.Reachable nc ns s →
      s.hasX = false ∧
      ∀ pack, (s.feedIn pack).failure ≠ some Failure.xRingBufferUnimplemented) := by
  refine ⟨fun nc ns => rfl, fun s nc h => Stream.setNumChannels_true_fails s nc h, ?_⟩
  intro nc ns s h
  have hx := Stream.Reachable.hasx nc ns s h
  exact ⟨hx, fun pack => Stream.feedIn_not_xBranch s pack hx⟩

theorem external_x_is_asserted_out_witness :
    (exampleFedStream.hasX = false ∧ Stream.Reachable 2 4 exampleFedStream) ∧
    (exampleFedStream.setNumChannels 3 true).failure =
      some Failure.xRingBufferUnimplemented ∧
    (exampleFedStream.setNumChannels 3 true).stream.numChannels = 3 ∧
    (exampleFedStream.feedIn exampleBatch).failure ≠ some Failure.xRingBufferUnimplemented :=
  ⟨⟨by decide!,
    Stream.Reachable.feedIn _ exampleHistory Stream.Reachable.construct (by decide!)⟩,
   external_x_is_asserted_out.2.1 exampleFedStream 3 (by decide!),
   by decide!,
   (external_x_is_asserted_out.2.2 2 4 exampleFedStream
      (Stream.Reachable.feedIn _ exampleHistory Stream.Reachable.construct (by decide!))).2
      exampleBatch⟩

/-- C24, counterexample: on the paused stream `Stream(2, false, 4)` a batch
with three channels does not return as a no-op: `feedIn` fails its first
statement, the shape assertion. -/
theorem feedIn_paused_mismatch_fails :
    ({ exampleStream with paused := true } : Stream).paused = true ∧
    exampleThreeBatch.numChannels ≠ ({ exampleStream with paused := true } : Stream).numChannels ∧
    (Stream.feedIn { exampleStream with paused := true } exampleThreeBatch).failure =
      some Failure.channelMismatch := by
  decide!

/-- C24, amended: the shape assertion is the first statement of `feedIn` and
the pause gate the second. On a paused stream a batch of the stream's shape
returns at once as a no-op (no failure, state unchanged, no signal); a batch
whose channel count or `hasX` differs fails the assertion, on a paused stream
as on an active one, with the state unchanged and no signal. -/
theorem feedIn_checks_shape_then_pause (s : Stream) (pack : SamplePack)
    (hpaused : s.paused = true) :
    (pack.numChannels = s.numChannels ∧ pack.hasX = s.hasX →
      (s.feedIn pack).failure = none ∧ (s.feedIn pack).stream = s ∧
      (s.feedIn pack).emitted = []) ∧
    (pack.numChannels ≠ s.numChannels ∨ pack.hasX ≠ s.hasX →
      (s.feedIn pack).failure = some Failure.channelMismatch ∧ (s.feedIn pack).stream = s ∧
      (s.feedIn pack).emitted = []) := by
  constructor
  · intro hshape
    have h : s.feedIn pack =
        { failure := none, stream := s, pack := pack, emitted := [], sinkCalls := [] } := by
      unfold Stream.feedIn
      rw [if_neg (not_not.mpr hshape), if_pos hpaused]
    rw [h]
    exact ⟨rfl, rfl, rfl⟩
  · intro hmis
    have hn : ¬ (pack.numChannels = s.numChannels ∧ pack.hasX = s.hasX) := by
      intro hc
      rcases hmis with h | h
      · exact h hc.1
      · exact h hc.2
    have h : s.feedIn pack =
        { failure := some Failure.channelMismatch, stream := s, pack := pack,
          emitted := [], sinkCalls := [] } := by
      unfold Stream.feedIn
      rw [if_pos hn]
    rw [h]
    exact ⟨rfl, rfl, rfl⟩

theorem feedIn_checks_shape_then_pause_witness :
    ({ exampleStream with paused := true } : Stream).paused = true ∧
    (Stream.feedIn { exampleStream with paused := true } exampleBatch).failure = none ∧
    (Stream.feedIn { exampleStream with paused := true } exampleThreeBatch).stream =
      { exampleStream with paused := true } :=
  ⟨rfl,
   ((feedIn_checks_shape_then_pause { exampleStream with paused := true } exampleBatch rfl).1
      (by decide!)).1,
   ((feedIn_checks_shape_then_pause { exampleStream with paused := true } exampleThreeBatch
      rfl).2 (Or.inl (by decide!))).2.1⟩

/-! ## `PlotControlPanel::onNumOfSamples` -/

/-- C25: `onNumOfSamples(value)` shows the confirmation dialog exactly when
`warnNumOfSamples` is set and `value > NUMSAMPLES_CONFIRM_AT` (1000000), and
then once, for `value`. If the dialog was shown and not closed with Apply,
`_numOfSamples` keeps its value, the spin box is set back to it and
`numOfSamplesChanged` is not emitted; in every other case `_numOfSamples` is
`value` afterwards and `numOfSamplesChanged(value)` is emitted exactly once. -/
theorem onNumOfSamples_confirms_large_values (p : PlotControlPanel) (value : Int)
    (answer : NSAnswer) :
    NUMSAMPLES_CONFIRM_AT = 1000000 ∧
    ((p.onNumOfSamples value answer).asked ≠ [] ↔
      (p.warnNumOfSamples = true ∧ value > NUMSAMPLES_CONFIRM_AT)) ∧
    ((p.onNumOfSamples value answer).asked = [value] ∨
      (p.onNumOfSamples value answer).asked = []) ∧
    ((p.onNumOfSamples value answer).asked ≠ [] ∧ answer.apply = false →
      (p.onNumOfSamples value answer).panel._numOfSamples = p._numOfSamples ∧
      (p.onNumOfSamples value answer).panel.spNumOfSamples = p._numOfSamples ∧
      (p.onNumOfSamples value answer).emitted = []) ∧
    (¬ ((p.onNumOfSamples value answer).asked ≠ [] ∧ answer.apply = false) →
      (p.onNumOfSamples value answer).panel._numOfSamples = value ∧
      (p.onNumOfSamples value answer).emitted = [value]) := by
  refine ⟨rfl, ?_⟩
  by_cases hc : p.warnNumOfSamples = true ∧ value > NUMSAMPLES_CONFIRM_AT
  · rcases Bool.eq_false_or_eq_true answer.apply with ha | ha
    · have hrun : p.onNumOfSamples value answer =
          { panel := { (p.askNSConfirmation answer).2 with _numOfSamples := value }
            asked := [value]
            emitted := [value] } := by
        unfold PlotControlPanel.onNumOfSamples
        rw [if_pos hc, if_neg]
        show ¬ (answer.apply = false)
        rw [ha]
        decide
      rw [hrun]
      refine ⟨⟨fun _ => hc, fun _ => by simp⟩, Or.inl rfl, ?_, fun _ => ⟨rfl, rfl⟩⟩
      intro h
      rw [ha] at h
      exact absurd h.2 (by decide)
    · have hrun : p.onNumOfSamples value answer =
          { panel :=
              { (p.askNSConfirmation answer).2 with
                spNumOfSamples := (p.askNSConfirmation answer).2._numOfSamples }
            asked := [value]
            emitted := [] } := by
        unfold PlotControlPanel.onNumOfSamples
        rw [if_pos hc, if_pos]
        exact ha
      rw [hrun]
      refine ⟨⟨fun _ => hc, fun _ => by simp⟩, Or.inl rfl, fun _ => ⟨rfl, rfl, rfl⟩, ?_⟩
      intro h
      exact absurd ⟨by simp, ha⟩ h
  · have hrun : p.onNumOfSamples value answer =
        { panel := { p with _numOfSamples := value }, asked := [], emitted := [value] } := by
      unfold PlotControlPanel.onNumOfSamples
      rw [if_neg hc]
    rw [hrun]
    refine ⟨⟨fun h => absurd rfl h, fun h => absurd h hc⟩, Or.inr rfl, ?_, fun _ => ⟨rfl, rfl⟩⟩
    intro h
    exact absurd rfl h.1

theorem onNumOfSamples_confirms_large_values_witness :
    (examplePanel.onNumOfSamples 2000000 { stateChanged := [], apply := false }).asked =
      [2000000] ∧
    (examplePanel.onNumOfSamples 2000000
      { stateChanged := [], apply := false }).panel.spNumOfSamples = 1000 ∧
    (examplePanel.onNumOfSamples 2000000 { stateChanged := [], apply := false }).emitted = [] ∧
    (examplePanel.onNumOfSamples 2000000 { stateChanged := [true], apply := true }).emitted =
      [2000000] ∧
    (examplePanel.onNumOfSamples 1000000 { stateChanged := [], apply := false }).emitted =
      [1000000] :=
  ⟨by decide,
   ((onNumOfSamples_confirms_large_values examplePanel 2000000
      { stateChanged := [], apply := false }).2.2.2.1 ⟨by decide, rfl⟩).2.1,
   ((onNumOfSamples_confirms_large_values examplePanel 2000000
      { stateChanged := [], apply := false }).2.2.2.1 ⟨by decide, rfl⟩).2.2,
   ((onNumOfSamples_confirms_large_values examplePanel 2000000
      { stateChanged := [true], apply := true }).2.2.2.2 (by decide)).2,
   ((onNumOfSamples_confirms_large_values examplePanel 1000000
      { stateChanged := [], apply := false }).2.2.2.2 (by decide)).2⟩

/-! ## `Plot::calcSymbolSize` and `Plot::setSymbols` -/

theorem Plot.calcSymbolSize_size (p : Plot) (d : Int) :
    (p.calcSymbolSize d).symbolSize = if d < 5 then 0 else min 7 (d - 4) := by
  unfold Plot.calcSymbolSize SYMBOL_SHOW_AT_WIDTH SYMBOL_SIZE_MAX
  by_cases h : d < 5
  · rw [if_pos h, if_pos h]
  · rw [if_neg h, if_neg h]
    show min 7 (d - 5 + 1) = min 7 (d - 4)
    congr 1
    omega

theorem Plot.calcSymbolSize_range (p : Plot) (d : Int) :
    0 ≤ (p.calcSymbolSize d).symbolSize ∧ (p.calcSymbolSize d).symbolSize ≤ 7 := by
  rw [Plot.calcSymbolSize_size]
  by_cases h : d < 5
  · rw [if_pos h]
    omega
  · rw [if_neg h]
    omega

theorem Plot.setSymbols_size (p : Plot) (d : Int) :
    (p.setSymbols ShowSymbols.ShowSymbolsAuto d).symbolSize = (p.calcSymbolSize d).symbolSize ∧
    (p.setSymbols ShowSymbols.ShowSymbolsShow d).symbolSize = 7 ∧
    (p.setSymbols ShowSymbols.ShowSymbolsHide d).symbolSize = 0 := by
  refine ⟨?_, ?_, ?_⟩
  · unfold Plot.setSymbols
    rw [if_pos rfl, Plot.calcSymbolSize_size, Plot.calcSymbolSize_size]
  · unfold Plot.setSymbols
    rw [if_neg (by decide), if_pos rfl]
    rfl
  · unfold Plot.setSymbols
    rw [if_neg (by decide), if_neg (by decide)]

/-- C30: with `d` the integer pixel distance between samples, `calcSymbolSize`
sets `symbolSize` to 0 when `d < SYMBOL_SHOW_AT_WIDTH` (5) and to
`min(SYMBOL_SIZE_MAX, d - 4)` otherwise; so `symbolSize` is 0 iff `d < 5`, is
non-decreasing in `d`, and `0 ≤ symbolSize ≤ 7` after every call of
`calcSymbolSize` or `setSymbols`, where Show gives 7 and Hide gives 0. -/
theorem symbol_size_rule :
    SYMBOL_SHOW_AT_WIDTH = 5 ∧ SYMBOL_SIZE_MAX = 7 ∧
    (∀ (p : Plot) (d : Int),
      (p.calcSymbolSize d).symbolSize =
        if d < SYMBOL_SHOW_AT_WIDTH then 0 else min SYMBOL_SIZE_MAX (d - 4)) ∧
    (∀ (p : Plot) (d : Int), (p.calcSymbolSize d).symbolSize = 0 ↔ d < 5) ∧
    (∀ (p q : Plot) (d e : Int), d ≤ e →
      (p.calcSymbolSize d).symbolSize ≤ (q.calcSymbolSize e).symbolSize) ∧
    (∀ (p : Plot) (d : Int),
      0 ≤ (p.calcSymbolSize d).symbolSize ∧ (p.calcSymbolSize d).symbolSize ≤ 7) ∧
    (∀ (p : Plot) (shown : ShowSymbols) (d : Int),
      0 ≤ (p.setSymbols shown d).symbolSize ∧ (p.setSymbols shown d).symbolSize ≤ 7) ∧
    (∀ (p : Plot) (d : Int),
      (p.setSymbols ShowSymbols.ShowSymbolsAuto d).symbolSize =
        (p.calcSymbolSize d).symbolSize ∧
      (p.setSymbols ShowSymbols.ShowSymbolsShow d).symbolSize = 7 ∧
      (p.setSymbols ShowSymbols.ShowSymbolsHide d).symbolSize = 0) := by
  refine ⟨rfl, rfl, fun p d => Plot.calcSymbolSize_size p d, ?_, ?_,
    fun p d => Plot.calcSymbolSize_range p d, ?_, fun p d => Plot.setSymbols_size p d⟩
  · intro p d
    rw [Plot.calcSymbolSize_size]
    by_cases h : d < 5
    · rw [if_pos h]
      exact ⟨fun _ => h, fun _ => rfl⟩
    · rw [if_neg h]
      constructor
      · intro h0
        omega
      · intro h5
        exact absurd h5 h
  · intro p q d e hde
    rw [Plot.calcSymbolSize_size, Plot.calcSymbolSize_size]
    by_cases h : d < 5
    · rw [if_pos h]
      by_cases h2 : e < 5
      · rw [if_pos h2]
      · rw [if_neg h2]
        omega
    · rw [if_neg h, if_neg (by omega : ¬ e < 5)]
      omega
  · intro p shown d
    cases shown
    · rw [(Plot.setSymbols_size p d).1]
      exact Plot.calcSymbolSize_range p d
    · rw [(Plot.setSymbols_size p d).2.1]
      omega
    · rw [(Plot.setSymbols_size p d).2.2]
      omega

theorem symbol_size_rule_witness :
    (Plot.new.calcSymbolSize 4).symbolSize = 0 ∧
    (Plot.new.calcSymbolSize 5).symbolSize = 1 ∧
    (Plot.new.calcSymbolSize 11).symbolSize = 7 ∧
    (Plot.new.calcSymbolSize 12).symbolSize = 7 ∧
    (Plot.new.calcSymbolSize 7).symbolSize ≤ (Plot.new.calcSymbolSize 9).symbolSize :=
  ⟨by decide, by decide, by decide, by decide,
   symbol_size_rule.2.2.2.2.1 Plot.new Plot.new 7 9 (by decide)⟩

/-! ## `ScalePicker::eventFilter` -/

theorem ScalePicker.snap_none (posPx : Int) (snapPoints : List Int)
    (h : ∀ sp ∈ snapPoints, ¬ |posPx - sp| ≤ SNAP_DISTANCE) :
    ScalePicker.snap posPx snapPoints = posPx := by
  induction snapPoints with
  | nil => rfl
  | cons sp rest ih =>
    unfold ScalePicker.snap
    rw [if_neg (h sp (List.mem_cons_self sp rest))]
    exact ih (fun q hq => h q (List.mem_cons_of_mem sp hq))

theorem ScalePicker.snap_some (posPx : Int) (snapPoints : List Int)
    (h : ∃ sp ∈ snapPoints, |posPx - sp| ≤ SNAP_DISTANCE) :
    ScalePicker.snap posPx snapPoints ∈ snapPoints ∧
    |posPx - ScalePicker.snap posPx snapPoints| ≤ SNAP_DISTANCE := by
  induction snapPoints with
  | nil =>
    obtain ⟨sp, hsp, _⟩ := h
    exact absurd hsp (List.not_mem_nil sp)
  | cons sp rest ih =>
    unfold ScalePicker.snap
    by_cases hc : |posPx - sp| ≤ SNAP_DISTANCE
    · rw [if_pos hc]
      exact ⟨List.mem_cons_self sp rest, hc⟩
    · rw [if_neg hc]
      have h2 : ∃ q ∈ rest, |posPx - q| ≤ SNAP_DISTANCE := by
        obtain ⟨q, hq, hd⟩ := h
        rcases List.mem_cons.mp hq with e | hin
        · rw [e] at hd
          exact absurd hd hc
        · exact ⟨q, hin, hd⟩
      exact ⟨List.mem_cons_of_mem sp (ih h2).1, (ih h2).2⟩

theorem ScalePicker.snappedPx_cases (e : MouseEvent) (snapPoints : List Int) :
    (e.shift = false → (∃ sp ∈ snapPoints, |e.posPx - sp| ≤ SNAP_DISTANCE) →
      ScalePicker.snappedPx e snapPoints ∈ snapPoints ∧
      |e.posPx - ScalePicker.snappedPx e snapPoints| ≤ SNAP_DISTANCE) ∧
    (e.shift = false → (∀ sp ∈ snapPoints, ¬ |e.posPx - sp| ≤ SNAP_DISTANCE) →
      ScalePicker.snappedPx e snapPoints = e.posPx) ∧
    (e.shift = true → ScalePicker.snappedPx e snapPoints = e.posPx) := by
  refine ⟨?_, ?_, ?_⟩
  · intro hs h
    unfold ScalePicker.snappedPx
    rw [if_pos hs]
    exact ScalePicker.snap_some e.posPx snapPoints h
  · intro hs h
    unfold ScalePicker.snappedPx
    rw [if_pos hs]
    exact ScalePicker.snap_none e.posPx snapPoints h
  · intro hs
    unfold ScalePicker.snappedPx
    rw [if_neg]
    rw [hs]
    decide

/-- C26, the code at the failing input: without Shift, at pixel 10 with the
snap points 14 and 10 in that order, both within `SNAP_DISTANCE`, the position
`eventFilter` uses is 14, the first one in the list, although the snap point
10 is nearer (distance 0 against 4). -/
theorem snap_takes_first_not_nearest :
    ScalePicker.snappedPx
      { type := MouseEventType.MouseMove, leftButton := false, shift := false, posPx := 10 }
      [14, 10] = 14 ∧
    |(10 : Int) - 10| < |(10 : Int) - 14| ∧ |(10 : Int) - 14| ≤ SNAP_DISTANCE ∧
    (ScalePicker.eventFilter (ScalePicker.construct 0 0 0)
      { ticksPx := [14, 10], position := fun px => (px : ℚ) }
      (PickerEvent.mouse
        { type := MouseEventType.MouseMove, leftButton := false, shift := false,
          posPx := 10 })).picker.currentPosPx = 14 := by
  decide

/-! ### Minimum pick size -/

theorem ScalePicker.eventFilter_picked (sp : ScalePicker) (view : ScaleView)
    (event : PickerEvent) (h : (sp.eventFilter view event).picked ≠ []) :
    sp.started = true ∧
    ∃ e, event = PickerEvent.mouse e ∧ e.type ≠ MouseEventType.MouseMove ∧
      ¬ (e.type = MouseEventType.MouseButtonPress ∧ e.leftButton = true) ∧
      sp.firstPos ≠ view.position (sp.eventFilter view event).picker.currentPosPx ∧
      (sp.eventFilter view event).picked =
        [(sp.firstPos, view.position (sp.eventFilter view event).picker.currentPosPx)] ∧
      (sp.eventFilter view event).picker.started = false ∧
      (sp.eventFilter view event).picker.firstPosPx = sp.firstPosPx := by
  cases event with
  | leave => exact absurd rfl h
  | other => exact absurd rfl h
  | mouse e =>
    unfold ScalePicker.eventFilter at h ⊢
    simp only at h ⊢
    by_cases h1 : e.type = MouseEventType.MouseButtonPress ∧ e.leftButton = true
    · rw [if_pos h1] at h
      exact absurd rfl h
    · rw [if_neg h1] at h ⊢
      by_cases h2 : e.type = MouseEventType.MouseMove
      · rw [if_pos h2] at h
        split at h
        · exact absurd rfl h
        · exact absurd rfl h
      · rw [if_neg h2] at h ⊢
        by_cases h3 : sp.started = true
        · rw [if_pos h3] at h ⊢
          by_cases h4 : sp.firstPos ≠ view.position (ScalePicker.snappedPx e view.ticksPx)
          · rw [if_pos h4]
            exact ⟨h3, e, rfl, h2, h1, h4, rfl, rfl, rfl⟩
          · rw [if_neg h4] at h
            exact absurd rfl h
        · rw [if_neg h3] at h
          exact absurd rfl h

theorem ScalePicker.eventFilter_starts (sp : ScalePicker) (view : ScaleView)
    (event : PickerEvent) (h0 : sp.started = false)
    (h : (sp.eventFilter view event).picker.started = true) :
    ∃ e, event = PickerEvent.mouse e ∧ e.type = MouseEventType.MouseMove ∧
      sp.pressed = true ∧
      |(sp.eventFilter view event).picker.currentPosPx - sp.firstPosPx| > MIN_PICK_SIZE := by
  have hne : ¬ (sp.started = true) := by
    rw [h0]
    decide
  cases event with
  | leave => exact absurd h hne
  | other => exact absurd h hne
  | mouse e =>
    unfold ScalePicker.eventFilter at h ⊢
    simp only at h ⊢
    by_cases h1 : e.type = MouseEventType.MouseButtonPress ∧ e.leftButton = true
    · rw [if_pos h1] at h
      exact absurd h hne
    · rw [if_neg h1] at h ⊢
      by_cases h2 : e.type = MouseEventType.MouseMove
      · rw [if_pos h2] at h ⊢
        by_cases h3 : sp.started = false ∧ sp.pressed = true ∧
            |ScalePicker.snappedPx e view.ticksPx - sp.firstPosPx| > MIN_PICK_SIZE
        · rw [if_pos h3]
          exact ⟨e, rfl, h2, h3.2.1, h3.2.2⟩
        · rw [if_neg h3] at h
          exact absurd h hne
      · rw [if_neg h2] at h
        rw [if_neg hne] at h
        exact absurd h hne

theorem ScalePicker.run_without_start (events : List (ScaleView × PickerEvent))
    (sp : ScalePicker) (h0 : sp.started = false)
    (hquiet : ∀ ve ∈ events, ve.2.isMove = false) :
    (sp.run events).2 = [] ∧ (sp.run events).1.started = false := by
  induction events generalizing sp with
  | nil => exact ⟨rfl, h0⟩
  | cons ve rest ih =>
    obtain ⟨view, event⟩ := ve
    have hp : (sp.eventFilter view event).picked = [] := by
      by_contra hc
      have hs := (ScalePicker.eventFilter_picked sp view event hc).1
      rw [h0] at hs
      exact absurd hs (by decide)
    have hst : (sp.eventFilter view event).picker.started = false := by
      rcases Bool.eq_false_or_eq_true (sp.eventFilter view event).picker.started with ht | hf
      · obtain ⟨e, he, hm, _⟩ := ScalePicker.eventFilter_starts sp view event h0 ht
        have hq : event.isMove = false := hquiet (view, event) (List.mem_cons_self _ _)
        rw [he] at hq
        have hq2 : decide (e.type = MouseEventType.MouseMove) = false := hq
        rw [hm] at hq2
        exact absurd hq2 (by decide)
      · exact hf
    have hrest := ih (sp.eventFilter view event).picker hst
      (fun ve hve => hquiet ve (List.mem_cons_of_mem _ hve))
    unfold ScalePicker.run
    rw [hp, hrest.1]
    exact ⟨rfl, hrest.2⟩

/-- C27, counterexample: a drag that goes out and comes back. After a press at
pixel 100, a move to pixel 110 and a release at pixel 101 on a scale without
ticks, `picked(100, 101)` is emitted while
`|currentPosPx - firstPosPx| = 1`, which is not larger than `MIN_PICK_SIZE`. -/
theorem picked_emitted_for_small_region :
    ((ScalePicker.construct 0 0 0).run exampleDragBack).2 = [(100, 101)] ∧
    |((ScalePicker.construct 0 0 0).run exampleDragBack).1.currentPosPx -
      ((ScalePicker.construct 0 0 0).run exampleDragBack).1.firstPosPx| = 1 ∧
    ¬ (|((ScalePicker.construct 0 0 0).run exampleDragBack).1.currentPosPx -
      ((ScalePicker.construct 0 0 0).run exampleDragBack).1.firstPosPx| > MIN_PICK_SIZE) := by
  decide!

/-- C27, amended: `MIN_PICK_SIZE` gates the start of a pick, not its emission.
`picked(firstPos, pos)` is emitted only by a mouse event that is neither a
move nor a left-button press, handled while `started` is set, with
`firstPos != pos`, and that event clears `started`; `started` is set only by a
move event handled while `pressed` is set and
`|currentPosPx - firstPosPx| > MIN_PICK_SIZE` (2) at that move. So from a
state where no pick is started, a sequence of events without a move, such as a
click, never emits `picked`; the distance at the moment of emission is not
constrained. -/
theorem pick_size_gates_the_start :
    MIN_PICK_SIZE = 2 ∧
    (∀ (sp : ScalePicker) (view : ScaleView) (event : PickerEvent),
      (sp.eventFilter view event).picked ≠ [] →
      sp.started = true ∧
      ∃ e, event = PickerEvent.mouse e ∧ e.type ≠ MouseEventType.MouseMove ∧
        ¬ (e.type = MouseEventType.MouseButtonPress ∧ e.leftButton = true) ∧
        sp.firstPos ≠ view.position (sp.eventFilter view event).picker.currentPosPx ∧
        (sp.eventFilter view event).picked =
          [(sp.firstPos, view.position (sp.eventFilter view event).picker.currentPosPx)] ∧
        (sp.eventFilter view event).picker.started = false ∧
        (sp.eventFilter view event).picker.firstPosPx = sp.firstPosPx) ∧
    (∀ (sp : ScalePicker) (view : ScaleView) (event : PickerEvent),
      sp.started = false → (sp.eventFilter view event).picker.started = true →
      ∃ e, event = PickerEvent.mouse e ∧ e.type = MouseEventType.MouseMove ∧
        sp.pressed = true ∧
        |(sp.eventFilter view event).picker.currentPosPx - sp.firstPosPx| > MIN_PICK_SIZE) ∧
    (∀ (events : List (ScaleView × PickerEvent)) (sp : ScalePicker), sp.started = false →
      (∀ ve ∈ events, ve.2.isMove = false) →
      (sp.run events).2 = [] ∧ (sp.run events).1.started = false) :=
  ⟨rfl, ScalePicker.eventFilter_picked, ScalePicker.eventFilter_starts,
   ScalePicker.run_without_start⟩

theorem pick_size_gates_the_start_witness :
    ((ScalePicker.construct 0 0 0).run exampleClick).2 = [] ∧
    ((ScalePicker.construct 0 0 0).run exampleClick).1.started = false :=
  pick_size_gates_the_start.2.2.2 exampleClick (ScalePicker.construct 0 0 0) rfl (by decide)

/-! ## `PlotManager`: number of curves and layout -/

theorem forLoopE_zero {σ ε : Type} (body : Nat → σ → Except ε σ) (st : σ) :
    forLoopE body 0 st = Except.ok st := rfl

theorem forLoopE_succ {σ ε : Type} (body : Nat → σ → Except ε σ) (n : Nat) (st : σ) :
    forLoopE body (n + 1) st =
      match forLoopE body n st with
      | Except.ok st1 => body n st1
      | Except.error e => Except.error e := rfl

theorem forLoopE_ind {σ ε : Type} (P : Nat → σ → Prop) (body : Nat → σ → Except ε σ)
    (n : Nat) (st : σ) (h0 : P 0 st)
    (hstep : ∀ k s s1, k < n → P k s → body k s = Except.ok s1 → P (k + 1) s1)
    (st1 : σ) (hrun : forLoopE body n st = Except.ok st1) : P n st1 := by
  induction n generalizing st1 with
  | zero =>
    rw [forLoopE_zero] at hrun
    cases hrun
    exact h0
  | succ n ih =>
    rw [forLoopE_succ] at hrun
    cases hprev : forLoopE body n st with
    | error e =>
      rw [hprev] at hrun
      cases hrun
    | ok s =>
      rw [hprev] at hrun
      exact hstep n s st1 (Nat.lt_succ_self n)
        (ih (fun k a b hk => hstep k a b (Nat.lt_succ_of_lt hk)) s hprev) hrun

theorem forLoopE_total {σ ε : Type} (P : Nat → σ → Prop) (body : Nat → σ → Except ε σ)
    (n : Nat) (st : σ) (h0 : P 0 st)
    (hstep : ∀ k s, k < n → P k s → ∃ s1, body k s = Except.ok s1 ∧ P (k + 1) s1) :
    ∃ st1, forLoopE body n st = Except.ok st1 ∧ P n st1 := by
  induction n with
  | zero => exact ⟨st, rfl, h0⟩
  | succ n ih =>
    obtain ⟨s, hs, hp⟩ := ih (fun k a hk => hstep k a (Nat.lt_succ_of_lt hk))
    obtain ⟨s1, hs1, hp1⟩ := hstep n s (Nat.lt_succ_self n) hp
    refine ⟨s1, ?_, hp1⟩
    rw [forLoopE_succ, hs]
    exact hs1

theorem PlotManager.onPlot_fields (pm : PlotManager) (plot : Nat) (f : PlotWidget → PlotWidget) :
    (pm.onPlot plot f).isMulti = pm.isMulti ∧ (pm.onPlot plot f).curves = pm.curves ∧
    (pm.onPlot plot f).plotWidgets.length = pm.plotWidgets.length :=
  ⟨rfl, rfl, List.length_modify f plot pm.plotWidgets⟩

theorem PlotManager.attach_fields (pm : PlotManager) (index plot : Nat) :
    (pm.attach index plot).isMulti = pm.isMulti ∧
    (pm.attach index plot).plotWidgets = pm.plotWidgets ∧
    (pm.attach index plot).curves.length = pm.curves.length :=
  ⟨rfl, rfl, List.length_modify _ index pm.curves⟩

theorem PlotManager.addPlotWidget_fields (pm : PlotManager) :
    pm.addPlotWidget.1.isMulti = pm.isMulti ∧ pm.addPlotWidget.1.curves = pm.curves ∧
    pm.addPlotWidget.1.plotWidgets.length = pm.plotWidgets.length + 1 ∧
    pm.addPlotWidget.2 = pm.plotWidgets.length :=
  ⟨rfl, rfl, List.length_append pm.plotWidgets [PlotWidget.new], rfl⟩

theorem PlotManager.checkNoVisChannels_ok (pm pm1 : PlotManager)
    (h : pm.checkNoVisChannels = Except.ok pm1) :
    pm1.isMulti = pm.isMulti ∧ pm1.curves = pm.curves ∧
    pm1.plotWidgets.length = pm.plotWidgets.length := by
  unfold PlotManager.checkNoVisChannels at h
  by_cases h0 : pm.plotWidgets.length = 0
  · rw [if_pos h0] at h
    cases h
  · rw [if_neg h0] at h
    cases h
    by_cases hm : pm.isMulti = true
    · rw [if_pos hm]
      exact PlotManager.onPlot_fields pm 0 _
    · rw [if_neg hm]
      exact PlotManager.onPlot_fields pm 0 _

theorem PlotManager.checkNoVisChannels_total (pm : PlotManager)
    (h : pm.plotWidgets.length ≠ 0) : ∃ pm1, pm.checkNoVisChannels = Except.ok pm1 := by
  unfold PlotManager.checkNoVisChannels
  rw [if_neg h]
  exact ⟨_, rfl⟩

theorem PlotManager.giveOwnPlot_ok (stream : Option Stream) (i : Nat) (pm pm1 : PlotManager)
    (h : PlotManager.giveOwnPlot stream i pm = Except.ok pm1) :
    pm1.isMulti = pm.isMulti ∧ pm1.curves.length = pm.curves.length ∧
    pm1.plotWidgets.length = pm.plotWidgets.length + 1 := by
  have key : ∀ f : PlotWidget → PlotWidget,
      ((pm.addPlotWidget.1.onPlot pm.addPlotWidget.2 f).attach i pm.addPlotWidget.2).isMulti =
        pm.isMulti ∧
      ((pm.addPlotWidget.1.onPlot pm.addPlotWidget.2 f).attach i
        pm.addPlotWidget.2).curves.length = pm.curves.length ∧
      ((pm.addPlotWidget.1.onPlot pm.addPlotWidget.2 f).attach i
        pm.addPlotWidget.2).plotWidgets.length = pm.plotWidgets.length + 1 := by
    intro f
    refine ⟨rfl, ?_, ?_⟩
    · rw [(PlotManager.attach_fields _ i _).2.2]
      rfl
    · rw [(PlotManager.attach_fields _ i _).2.1, (PlotManager.onPlot_fields _ _ f).2.2]
      exact (PlotManager.addPlotWidget_fields pm).2.2.1
  unfold PlotManager.giveOwnPlot at h
  cases stream with
  | none =>
    cases h
    exact key _
  | some s =>
    simp only at h
    cases hch : s.channel i with
    | none =>
      rw [hch] at h
      cases h
    | some ch =>
      rw [hch] at h
      cases h
      exact key _

theorem PlotManager.giveOwnPlot_total (s : Stream) (i : Nat) (pm : PlotManager)
    (h : i < s.numChannels) : ∃ pm1, PlotManager.giveOwnPlot (some s) i pm = Except.ok pm1 := by
  have hch : ∃ ch, s.channel i = some ch := by
    unfold Stream.channel
    exact ⟨s.channels[i], List.getElem?_eq_getElem h⟩
  obtain ⟨ch, hch⟩ := hch
  unfold PlotManager.giveOwnPlot
  simp only
  rw [hch]
  exact ⟨_, rfl⟩

theorem PlotManager.giveSharedPlot_fields (stream : Option Stream) (pm : PlotManager) :
    (PlotManager.giveSharedPlot stream pm).isMulti = pm.isMulti ∧
    (PlotManager.giveSharedPlot stream pm).curves.length = pm.curves.length ∧
    (PlotManager.giveSharedPlot stream pm).plotWidgets.length = pm.plotWidgets.length + 1 := by
  cases stream with
  | none =>
    refine ⟨rfl, ?_, ?_⟩
    · exact List.length_map _ _
    · exact (PlotManager.addPlotWidget_fields pm).2.2.1
  | some s =>
    refine ⟨rfl, ?_, ?_⟩
    · exact List.length_map _ _
    · show (List.modify _ _ _).length = _
      rw [List.length_modify]
      exact (PlotManager.addPlotWidget_fields pm).2.2.1

theorem PlotManager.setMulti_ok (pm : PlotManager) (stream : Option Stream) (enabled : Bool)
    (pm1 : PlotManager) (h : pm.setMulti stream enabled = Except.ok pm1) :
    pm1.LayoutOK ∧ pm1.isMulti = enabled ∧ pm1.curves.length = pm.curves.length := by
  have hfilled : ∀ filled : PlotManager,
      (filled.isMulti = enabled ∧ filled.curves.length = pm.curves.length ∧
        filled.LayoutOK) →
      (if filled.plotWidgets.length ≠ 0 then filled.checkNoVisChannels else Except.ok filled) =
        Except.ok pm1 →
      pm1.LayoutOK ∧ pm1.isMulti = enabled ∧ pm1.curves.length = pm.curves.length := by
    intro filled hf hrun
    by_cases hw : filled.plotWidgets.length ≠ 0
    · rw [if_pos hw] at hrun
      obtain ⟨e1, e2, e3⟩ := PlotManager.checkNoVisChannels_ok filled pm1 hrun
      refine ⟨?_, e1.trans hf.1, by rw [e2]; exact hf.2.1⟩
      have hl := hf.2.2
      unfold PlotManager.LayoutOK at hl ⊢
      rw [e1, e2, e3]
      exact hl
    · rw [if_neg hw] at hrun
      cases hrun
      exact ⟨hf.2.2, hf.1, hf.2.1⟩
  unfold PlotManager.setMulti at h
  simp only at h
  rcases Bool.eq_false_or_eq_true enabled with he | he
  · subst he
    rw [if_pos rfl] at h
    cases hloop : forLoopE (PlotManager.giveOwnPlot stream)
        (List.map (fun c => ({ c with plot := none } : PlotCurve)) pm.curves).length
        ({ isMulti := true
           curves := List.map (fun c => ({ c with plot := none } : PlotCurve)) pm.curves
           plotWidgets := [] } : PlotManager) with
    | error e =>
      rw [hloop] at h
      cases h
    | ok filled =>
      rw [hloop] at h
      have hinv := forLoopE_ind
        (fun k (st : PlotManager) => st.isMulti = true ∧ st.curves.length = pm.curves.length ∧
          st.plotWidgets.length = k)
        (PlotManager.giveOwnPlot stream)
        (List.map (fun c => ({ c with plot := none } : PlotCurve)) pm.curves).length
        ({ isMulti := true
           curves := List.map (fun c => ({ c with plot := none } : PlotCurve)) pm.curves
           plotWidgets := [] } : PlotManager)
        ⟨rfl, List.length_map _ _, rfl⟩
        (fun k a b _ ha hab => by
          obtain ⟨e1, e2, e3⟩ := PlotManager.giveOwnPlot_ok stream k a b hab
          exact ⟨e1.trans ha.1, e2.trans ha.2.1, by rw [e3, ha.2.2]⟩)
        filled hloop
      refine hfilled filled ⟨hinv.1, hinv.2.1, ?_⟩ h
      unfold PlotManager.LayoutOK
      rw [if_pos hinv.1, hinv.2.2, hinv.2.1]
      exact List.length_map _ _
  · subst he
    rw [if_neg (by decide)] at h
    have hm : (PlotManager.giveSharedPlot stream
        ({ isMulti := false
           curves := List.map (fun c => ({ c with plot := none } : PlotCurve)) pm.curves
           plotWidgets := [] } : PlotManager)).isMulti = false :=
      (PlotManager.giveSharedPlot_fields stream _).1
    refine hfilled _ ⟨hm,
      ((PlotManager.giveSharedPlot_fields stream _).2.1).trans (List.length_map _ _), ?_⟩ h
    unfold PlotManager.LayoutOK
    rw [hm, if_neg (by decide : ¬ (false = true))]
    exact (PlotManager.giveSharedPlot_fields stream _).2.2

theorem modify_append_last {α : Type} (f : α → α) (old : List α) (c : α) :
    List.modify f ((old ++ [c]).length - 1) (old ++ [c]) = old ++ [f c] := by
  induction old with
  | nil => rfl
  | cons a rest ih =>
    have e : ((a :: rest) ++ [c]).length - 1 = ((rest ++ [c]).length - 1) + 1 := by
      simp
    rw [e, List.cons_append, List.modify_succ_cons, ih]
    rfl

theorem PlotManager.attach_check_ok (x : PlotManager) (old : List PlotCurve) (curve : PlotCurve)
    (p : Nat) (pm1 : PlotManager) (hc : x.curves = old ++ [curve])
    (h : (x.attach ((old ++ [curve]).length - 1) p).checkNoVisChannels = Except.ok pm1) :
    pm1.isMulti = x.isMulti ∧ pm1.plotWidgets.length = x.plotWidgets.length ∧
    pm1.curves = old ++ [{ curve with plot := some p }] := by
  obtain ⟨e1, e2, e3⟩ := PlotManager.checkNoVisChannels_ok _ pm1 h
  refine ⟨e1, e3, ?_⟩
  rw [e2]
  show List.modify _ _ x.curves = _
  rw [hc]
  exact modify_append_last _ old curve

theorem PlotManager._addCurve_ok (pm : PlotManager) (stream : Option Stream) (curve : PlotCurve)
    (pm1 : PlotManager) (h : pm._addCurve stream curve = Except.ok pm1) :
    pm1.isMulti = pm.isMulti ∧
    pm1.plotWidgets.length =
      (if pm.isMulti = true then pm.plotWidgets.length + 1 else pm.plotWidgets.length) ∧
    ∃ p, pm1.curves = pm.curves ++ [{ curve with plot := some p }] := by
  unfold PlotManager._addCurve at h
  simp only at h
  by_cases hg : pm.isMulti = false ∧ pm.plotWidgets.length = 0
  · rw [if_pos hg] at h
    cases h
  · rw [if_neg hg] at h
    by_cases hm : pm.isMulti = true
    · rw [if_pos hm] at h
      rw [if_pos hm]
      cases stream with
      | none =>
        simp only at h
        obtain ⟨e1, e2, e3⟩ := PlotManager.attach_check_ok _ pm.curves curve _ pm1 rfl h
        exact ⟨e1, e2.trans (List.length_append _ _), _, e3⟩
      | some s =>
        simp only at h
        rw [if_pos hm] at h
        cases hch : s.channel ((pm.curves ++ [curve]).length - 1) with
        | none =>
          rw [hch] at h
          cases h
        | some ch =>
          rw [hch] at h
          simp only at h
          obtain ⟨e1, e2, e3⟩ := PlotManager.attach_check_ok _ pm.curves curve _ pm1 rfl h
          refine ⟨e1, e2.trans ?_, _, e3⟩
          rw [(PlotManager.onPlot_fields _ _ _).2.2]
          exact List.length_append _ _
    · rw [if_neg hm] at h
      rw [if_neg hm]
      cases stream with
      | none =>
        simp only at h
        obtain ⟨e1, e2, e3⟩ := PlotManager.attach_check_ok _ pm.curves curve _ pm1 rfl h
        exact ⟨e1, e2, _, e3⟩
      | some s =>
        simp only at h
        rw [if_neg hm] at h
        obtain ⟨e1, e2, e3⟩ := PlotManager.attach_check_ok _ pm.curves curve _ pm1 rfl h
        refine ⟨e1, e2.trans ?_, _, e3⟩
        exact (PlotManager.onPlot_fields _ _ _).2.2

theorem PlotManager._addCurve_total (pm : PlotManager) (stream : Option Stream)
    (curve : PlotCurve) (hw : pm.isMulti = true ∨ pm.plotWidgets.length ≠ 0)
    (hs : ∀ s, stream = some s → pm.isMulti = true → pm.curves.length < s.numChannels) :
    ∃ pm1, pm._addCurve stream curve = Except.ok pm1 := by
  unfold PlotManager._addCurve
  simp only
  have hg : ¬ (pm.isMulti = false ∧ pm.plotWidgets.length = 0) := by
    intro hc
    rcases hw with h | h
    · rw [hc.1] at h
      exact absurd h (by decide)
    · exact h hc.2
  rw [if_neg hg]
  by_cases hm : pm.isMulti = true
  · rw [if_pos hm]
    cases stream with
    | none =>
      simp only
      apply PlotManager.checkNoVisChannels_total
      rw [(PlotManager.attach_fields _ _ _).2.1]
      show (pm.plotWidgets ++ [PlotWidget.new]).length ≠ 0
      rw [List.length_append]
      exact Nat.succ_ne_zero _
    | some s =>
      simp only
      rw [if_pos hm]
      have hlt : (pm.curves ++ [curve]).length - 1 < s.numChannels := by
        rw [List.length_append]
        exact hs s rfl hm
      have hch : s.channel ((pm.curves ++ [curve]).length - 1) =
          some (s.channels[(pm.curves ++ [curve]).length - 1]) := by
        unfold Stream.channel
        exact List.getElem?_eq_getElem hlt
      rw [hch]
      simp only
      apply PlotManager.checkNoVisChannels_total
      rw [(PlotManager.attach_fields _ _ _).2.1, (PlotManager.onPlot_fields _ _ _).2.2]
      show (pm.plotWidgets ++ [PlotWidget.new]).length ≠ 0
      rw [List.length_append]
      exact Nat.succ_ne_zero _
  · have hne : pm.plotWidgets.length ≠ 0 := by
      rcases hw with h | h
      · exact absurd h hm
      · exact h
    rw [if_neg hm]
    cases stream with
    | none =>
      simp only
      apply PlotManager.checkNoVisChannels_total
      rw [(PlotManager.attach_fields _ _ _).2.1]
      exact hne
    | some s =>
      simp only
      rw [if_neg hm]
      apply PlotManager.checkNoVisChannels_total
      rw [(PlotManager.attach_fields _ _ _).2.1, (PlotManager.onPlot_fields _ _ _).2.2]
      exact hne

theorem PlotManager.LayoutOK_of (pm pm1 : PlotManager) (h : pm.LayoutOK)
    (hm : pm1.isMulti = pm.isMulti)
    (hw : pm1.plotWidgets.length =
      (if pm.isMulti = true then pm.plotWidgets.length + 1 else pm.plotWidgets.length))
    (hc : pm1.curves.length = pm.curves.length + 1) : pm1.LayoutOK := by
  unfold PlotManager.LayoutOK at h ⊢
  rw [hm]
  by_cases hmu : pm.isMulti = true
  · rw [if_pos hmu] at h hw ⊢
    rw [hw, hc, h]
  · rw [if_neg hmu] at h hw ⊢
    rw [hw]
    exact h

theorem PlotManager.LayoutOK.widgets (pm : PlotManager) (h : pm.LayoutOK) :
    pm.isMulti = true ∨ pm.plotWidgets.length ≠ 0 := by
  unfold PlotManager.LayoutOK at h
  by_cases hm : pm.isMulti = true
  · exact Or.inl hm
  · rw [if_neg hm] at h
    right
    rw [h]
    exact Nat.one_ne_zero

theorem PlotManager.addCurve_ok (pm : PlotManager) (stream : Option Stream) (xBuf yBuf : Nat)
    (pm1 : PlotManager) (hl : pm.LayoutOK) (h : pm.addCurve stream xBuf yBuf = Except.ok pm1) :
    pm1.LayoutOK ∧ pm1.isMulti = pm.isMulti ∧
    ∃ p, pm1.curves =
      pm.curves ++ [{ xBuf := xBuf, yBuf := yBuf, visible := true, plot := some p }] := by
  obtain ⟨e1, e2, p, e3⟩ := PlotManager._addCurve_ok pm stream _ pm1 h
  refine ⟨PlotManager.LayoutOK_of pm pm1 hl e1 e2 ?_, e1, p, e3⟩
  rw [e3, List.length_append]
  rfl

theorem PlotManager.removeLastCurve_spec (pm : PlotManager) (hl : pm.LayoutOK) :
    ∃ pm1, pm.removeLastCurve = Except.ok pm1 ∧ pm1.LayoutOK ∧ pm1.isMulti = pm.isMulti ∧
      pm1.curves = pm.curves.dropLast := by
  unfold PlotManager.removeLastCurve
  by_cases h0 : pm.curves.length = 0
  · rw [if_pos h0]
    refine ⟨pm, rfl, hl, rfl, ?_⟩
    rw [List.length_eq_zero.mp h0]
    rfl
  · rw [if_neg h0]
    unfold PlotManager.LayoutOK at hl
    by_cases hm : pm.isMulti = true
    · rw [if_pos hm] at hl ⊢
      have hw : ¬ (pm.plotWidgets.length = 0) := by
        rw [hl]
        exact h0
      rw [if_neg hw]
      refine ⟨_, rfl, ?_, rfl, rfl⟩
      unfold PlotManager.LayoutOK
      show (if pm.isMulti = true then
        pm.plotWidgets.dropLast.length = pm.curves.dropLast.length
        else pm.plotWidgets.dropLast.length = 1)
      rw [if_pos hm, List.length_dropLast, List.length_dropLast, hl]
    · rw [if_neg hm] at hl ⊢
      refine ⟨_, rfl, ?_, rfl, rfl⟩
      unfold PlotManager.LayoutOK
      show (if pm.isMulti = true then pm.plotWidgets.length = pm.curves.dropLast.length
        else pm.plotWidgets.length = 1)
      rw [if_neg hm]
      exact hl

theorem PlotManager.removeLoop_spec (pm : PlotManager) (number : Nat) (hl : pm.LayoutOK) :
    ∃ pm1, forLoopE (fun _ st => PlotManager.removeLastCurve st) number pm = Except.ok pm1 ∧
      pm1.LayoutOK ∧ pm1.isMulti = pm.isMulti ∧
      pm1.curves = pm.curves.take (pm.curves.length - number) := by
  have := forLoopE_total
    (fun k (st : PlotManager) => st.LayoutOK ∧ st.isMulti = pm.isMulti ∧
      st.curves = pm.curves.take (pm.curves.length - k))
    (fun _ st => PlotManager.removeLastCurve st) number pm
    ⟨hl, rfl, by rw [Nat.sub_zero, List.take_length]⟩
    (fun k st _ hst => by
      obtain ⟨st1, h1, h2, h3, h4⟩ := PlotManager.removeLastCurve_spec st hst.1
      refine ⟨st1, h1, h2, h3.trans hst.2.1, ?_⟩
      rw [h4, hst.2.2, List.dropLast_eq_take, List.take_take, List.length_take]
      congr 1
      omega)
  exact this

theorem PlotManager.removeCurves_spec (pm : PlotManager) (stream : Option Stream)
    (number : Nat) (hl : pm.LayoutOK) :
    ∃ pm1, pm.removeCurves stream number = Except.ok pm1 ∧ pm1.LayoutOK ∧
      pm1.isMulti = pm.isMulti ∧ pm1.curves = pm.curves.take (pm.curves.length - number) := by
  unfold PlotManager.removeCurves
  cases stream with
  | none => exact PlotManager.removeLoop_spec pm number hl
  | some s =>
    simp only
    by_cases hm : pm.isMulti = false
    · rw [if_pos hm]
      have hw : ¬ (pm.plotWidgets.length = 0) := by
        rcases PlotManager.LayoutOK.widgets pm hl with h | h
        · rw [hm] at h
          exact absurd h (by decide)
        · exact h
      rw [if_neg hw]
      have hl2 : (pm.onPlot 0
          (fun w => { w with dispChannels := s.allChannels.map (fun c => c.index) })).LayoutOK := by
        unfold PlotManager.LayoutOK at hl ⊢
        rw [(PlotManager.onPlot_fields pm 0 _).1, (PlotManager.onPlot_fields pm 0 _).2.1,
          (PlotManager.onPlot_fields pm 0 _).2.2]
        exact hl
      exact PlotManager.removeLoop_spec _ number hl2
    · rw [if_neg hm]
      exact PlotManager.removeLoop_spec pm number hl

theorem PlotManager.addChannelCurve_ok (stream : Option Stream) (i : Nat)
    (pm pm1 : PlotManager) (hl : pm.LayoutOK)
    (h : PlotManager.addChannelCurve stream i pm = Except.ok pm1) :
    pm1.LayoutOK ∧ pm1.isMulti = pm.isMulti := by
  unfold PlotManager.addChannelCurve at h
  cases stream with
  | none => cases h
  | some s =>
    simp only at h
    cases hch : s.channel i with
    | none =>
      rw [hch] at h
      cases h
    | some ch =>
      rw [hch] at h
      obtain ⟨e1, e2, _⟩ := PlotManager.addCurve_ok pm (some s) ch.xData ch.index pm1 hl h
      exact ⟨e1, e2⟩

theorem PlotManager.addChannelCurve_spec (s : Stream) (pm : PlotManager) (hl : pm.LayoutOK)
    (h : pm.curves.length < s.numChannels) :
    ∃ pm1 ch p, PlotManager.addChannelCurve (some s) pm.curves.length pm = Except.ok pm1 ∧
      s.channel pm.curves.length = some ch ∧ pm1.LayoutOK ∧ pm1.isMulti = pm.isMulti ∧
      pm1.curves =
        pm.curves ++ [{ xBuf := ch.xData, yBuf := ch.index, visible := true, plot := some p }] := by
  have hch : s.channel pm.curves.length = some (s.channels[pm.curves.length]) := by
    unfold Stream.channel
    exact List.getElem?_eq_getElem h
  obtain ⟨pm1, h1⟩ := PlotManager._addCurve_total pm (some s)
    { xBuf := (s.channels[pm.curves.length]).xData, yBuf := (s.channels[pm.curves.length]).index,
      visible := true, plot := none }
    (PlotManager.LayoutOK.widgets pm hl)
    (fun s1 hs1 _ => by
      cases hs1
      exact h)
  obtain ⟨e1, e2, p, e3⟩ := PlotManager.addCurve_ok pm (some s) _ _ pm1 hl h1
  refine ⟨pm1, _, p, ?_, hch, e1, e2, e3⟩
  unfold PlotManager.addChannelCurve
  simp only
  rw [hch]
  exact h1

theorem PlotManager.growLoop_spec (s : Stream) (pm : PlotManager) (n : Nat) (hl : pm.LayoutOK)
    (h : pm.curves.length + n ≤ s.numChannels) :
    ∃ pm1,
      forLoopE (fun k st => PlotManager.addChannelCurve (some s) (pm.numOfCurves + k) st) n pm =
        Except.ok pm1 ∧
      pm1.LayoutOK ∧ pm1.isMulti = pm.isMulti ∧ pm1.curves.length = pm.curves.length + n ∧
      pm1.curves.take pm.curves.length = pm.curves ∧
      ∀ i, pm.curves.length ≤ i → i < pm.curves.length + n →
        ∃ ch, s.channel i = some ch ∧
          (pm1.curves[i]?).map (fun c => (c.xBuf, c.yBuf)) = some (ch.xData, ch.index) := by
  apply forLoopE_total
    (fun k (st : PlotManager) => st.LayoutOK ∧ st.isMulti = pm.isMulti ∧
      st.curves.length = pm.curves.length + k ∧ st.curves.take pm.curves.length = pm.curves ∧
      ∀ i, pm.curves.length ≤ i → i < pm.curves.length + k →
        ∃ ch, s.channel i = some ch ∧
          (st.curves[i]?).map (fun c => (c.xBuf, c.yBuf)) = some (ch.xData, ch.index))
  · refine ⟨hl, rfl, rfl, List.take_length _, ?_⟩
    intro i h1 h2
    omega
  · intro k st hk hst
    obtain ⟨hl1, hm1, hlen, htake, hget⟩ := hst
    have hlt : st.curves.length < s.numChannels := by
      rw [hlen]
      omega
    obtain ⟨st1, ch, p, h1, h2, h3, h4, h5⟩ := PlotManager.addChannelCurve_spec s st hl1 hlt
    refine ⟨st1, ?_, h3, h4.trans hm1, ?_, ?_, ?_⟩
    · show PlotManager.addChannelCurve (some s) (pm.curves.length + k) st = Except.ok st1
      rw [← hlen]
      exact h1
    · rw [h5, List.length_append, hlen]
      rfl
    · rw [h5, List.take_append_of_le_length (by omega)]
      exact htake
    · intro i hi1 hi2
      by_cases hi : i < pm.curves.length + k
      · obtain ⟨c, hc1, hc2⟩ := hget i hi1 hi
        refine ⟨c, hc1, ?_⟩
        rw [h5, List.getElem?_append_left (by omega)]
        exact hc2
      · have hie : i = st.curves.length := by omega
        refine ⟨ch, ?_, ?_⟩
        · rw [hie]
          exact h2
        · rw [h5, hie, List.getElem?_append_right (Nat.le_refl _), Nat.sub_self]
          rfl

theorem PlotManager.onNumChannelsChanged_spec (pm : PlotManager) (s : Stream) (v : Nat)
    (hl : pm.LayoutOK) (hv : v ≤ s.numChannels) :
    ∃ pm1, pm.onNumChannelsChanged (some s) v = Except.ok pm1 ∧ pm1.LayoutOK ∧
      pm1.numOfCurves = v ∧
      (pm.numOfCurves ≤ v →
        pm1.curves.take pm.numOfCurves = pm.curves ∧
        ∀ i, pm.numOfCurves ≤ i → i < v →
          ∃ ch, s.channel i = some ch ∧
            (pm1.curves[i]?).map (fun c => (c.xBuf, c.yBuf)) = some (ch.xData, ch.index)) ∧
      (v ≤ pm.numOfCurves → pm1.curves = pm.curves.take v) := by
  unfold PlotManager.onNumChannelsChanged
  by_cases hg : v > pm.numOfCurves
  · rw [if_pos hg]
    have hg2 : pm.curves.length < v := hg
    obtain ⟨pm1, h1, h2, _, h4, h5, h6⟩ :=
      PlotManager.growLoop_spec s pm (v - pm.numOfCurves) hl (by
        show pm.curves.length + (v - pm.curves.length) ≤ s.numChannels
        omega)
    have hlen : pm1.curves.length = v := by
      rw [h4]
      show pm.curves.length + (v - pm.curves.length) = v
      omega
    refine ⟨pm1, h1, h2, hlen, fun _ => ⟨h5, fun i hi1 hi2 => h6 i hi1 ?_⟩, fun hle => ?_⟩
    · show i < pm.curves.length + (v - pm.curves.length)
      omega
    · have hle2 : v ≤ pm.curves.length := hle
      omega
  · rw [if_neg hg]
    have hg2 : ¬ (v > pm.curves.length) := hg
    by_cases hs : v < pm.numOfCurves
    · rw [if_pos hs]
      have hs2 : v < pm.curves.length := hs
      obtain ⟨pm1, h1, h2, _, h4⟩ :=
        PlotManager.removeCurves_spec pm (some s) (pm.numOfCurves - v) hl
      have he : pm.curves.length - (pm.numOfCurves - v) = v := by
        show pm.curves.length - (pm.curves.length - v) = v
        omega
      rw [he] at h4
      refine ⟨pm1, h1, h2, ?_, fun hle => ?_, fun _ => h4⟩
      · show pm1.curves.length = v
        rw [h4, List.length_take]
        omega
      · have hle2 : pm.curves.length ≤ v := hle
        omega
    · rw [if_neg hs]
      have hs2 : ¬ (v < pm.curves.length) := hs
      have he : pm.curves.length = v := by omega
      refine ⟨pm, rfl, hl, he, fun _ => ⟨List.take_length _, fun i hi1 hi2 => ?_⟩, fun _ => ?_⟩
      · have hi3 : pm.curves.length ≤ i := hi1
        omega
      · rw [← he, List.take_length]

theorem PlotManager.construct_ok (stream : Option Stream) (showMulti : Bool) (pm : PlotManager)
    (h : PlotManager.construct stream showMulti = Except.ok pm) :
    pm.LayoutOK ∧ pm.isMulti = showMulti ∧ pm.curves.length = 0 :=
  PlotManager.setMulti_ok _ stream showMulti pm h

theorem PlotManager.withStream_ok (stream : Option Stream) (showMulti : Bool)
    (pm : PlotManager) (h : PlotManager.withStream stream showMulti = Except.ok pm) :
    pm.LayoutOK ∧ pm.isMulti = showMulti := by
  unfold PlotManager.withStream at h
  cases hc : PlotManager.construct stream showMulti with
  | error e =>
    rw [hc] at h
    cases h
  | ok pm0 =>
    rw [hc] at h
    simp only at h
    obtain ⟨hl0, hm0, _⟩ := PlotManager.construct_ok stream showMulti pm0 hc
    cases stream with
    | none =>
      cases h
      exact ⟨hl0, hm0⟩
    | some s =>
      simp only at h
      exact forLoopE_ind (fun _ (st : PlotManager) => st.LayoutOK ∧ st.isMulti = showMulti)
        (fun i st => PlotManager.addChannelCurve (some s) i st) s.numChannels pm0 ⟨hl0, hm0⟩
        (fun k a b _ ha hab => by
          obtain ⟨e1, e2⟩ := PlotManager.addChannelCurve_ok (some s) k a b ha.1 hab
          exact ⟨e1, e2.trans ha.2⟩)
        pm h

theorem PlotManager.withSnapshot_ok (numChannels : Nat) (showMulti : Bool)
    (pm : PlotManager) (h : PlotManager.withSnapshot numChannels showMulti = Except.ok pm) :
    pm.LayoutOK ∧ pm.isMulti = showMulti := by
  unfold PlotManager.withSnapshot at h
  cases hc : PlotManager.construct none showMulti with
  | error e =>
    rw [hc] at h
    cases h
  | ok pm0 =>
    rw [hc] at h
    simp only at h
    obtain ⟨hl0, hm0, _⟩ := PlotManager.construct_ok none showMulti pm0 hc
    cases hloop : forLoopE (fun ci st => PlotManager.addCurve st none ci ci) numChannels pm0 with
    | error e =>
      rw [hloop] at h
      cases h
    | ok pm1 =>
      rw [hloop] at h
      simp only at h
      have h1 := forLoopE_ind (fun _ (st : PlotManager) => st.LayoutOK ∧ st.isMulti = showMulti)
        (fun ci st => PlotManager.addCurve st none ci ci) numChannels pm0 ⟨hl0, hm0⟩
        (fun k a b _ ha hab => by
          obtain ⟨e1, e2, _⟩ := PlotManager.addCurve_ok a none k k b ha.1 hab
          exact ⟨e1, e2.trans ha.2⟩)
        pm1 hloop
      obtain ⟨e1, e2, e3⟩ := PlotManager.checkNoVisChannels_ok pm1 pm h
      refine ⟨?_, e1.trans h1.2⟩
      have hl1 := h1.1
      unfold PlotManager.LayoutOK at hl1 ⊢
      rw [e1, e2, e3]
      exact hl1

theorem PlotManager.Reachable.layoutOK (pm : PlotManager) (h : PlotManager.Reachable pm) :
    pm.LayoutOK := by
  induction h with
  | withStream stream showMulti pm hrun => exact (PlotManager.withStream_ok stream showMulti pm hrun).1
  | withSnapshot n showMulti pm hrun => exact (PlotManager.withSnapshot_ok n showMulti pm hrun).1
  | setMulti pm stream enabled pm1 _ hrun _ => exact (PlotManager.setMulti_ok pm stream enabled pm1 hrun).1
  | addCurve pm stream xBuf yBuf pm1 _ hrun ih =>
    exact (PlotManager.addCurve_ok pm stream xBuf yBuf pm1 ih hrun).1
  | removeCurves pm stream number pm1 _ hrun ih =>
    obtain ⟨pm2, h1, h2, _⟩ := PlotManager.removeCurves_spec pm stream number ih
    rw [h1] at hrun
    cases hrun
    exact h2
  | onNumChannelsChanged pm stream value pm1 _ hrun ih =>
    unfold PlotManager.onNumChannelsChanged at hrun
    by_cases hg : value > pm.numOfCurves
    · rw [if_pos hg] at hrun
      exact (forLoopE_ind (fun _ (st : PlotManager) => st.LayoutOK)
        (fun k st => PlotManager.addChannelCurve stream (pm.numOfCurves + k) st)
        (value - pm.numOfCurves) pm ih
        (fun k a b _ ha hab =>
          (PlotManager.addChannelCurve_ok stream (pm.numOfCurves + k) a b ha hab).1)
        pm1 hrun)
    · rw [if_neg hg] at hrun
      by_cases hs : value < pm.numOfCurves
      · rw [if_pos hs] at hrun
        obtain ⟨pm2, h1, h2, _⟩ :=
          PlotManager.removeCurves_spec pm stream (pm.numOfCurves - value) ih
        rw [h1] at hrun
        cases hrun
        exact h2
      · rw [if_neg hs] at hrun
        cases hrun
        exact ih

theorem exampleManager_run :
    PlotManager.withStream (some exampleFedStream) true = Except.ok exampleManager := by
  rfl

/-- C28: for every manager that the constructors and the calls of `setMulti`,
`addCurve`, `removeCurves` and `onNumChannelsChanged` produce, attached to a
stream with at least `v` channels, `onNumChannelsChanged(v)` returns and
`numOfCurves() == v` afterwards. When growing, the curves that were there stay
in place and the curve at each position `i` from the old `numOfCurves()` to
`v - 1` reads the buffers of `channel(i)`; when shrinking, the curves left are
the first `v`, so exactly `numOfCurves() - v` are removed from the tail. -/
theorem onNumChannelsChanged_sets_curve_count (pm : PlotManager) (s : Stream) (v : Nat)
    (hreach : PlotManager.Reachable pm) (hv : v ≤ s.numChannels) :
    ∃ pm1, pm.onNumChannelsChanged (some s) v = Except.ok pm1 ∧
      pm1.numOfCurves = v ∧
      (pm.numOfCurves ≤ v →
        pm1.curves.take pm.numOfCurves = pm.curves ∧
        ∀ i, pm.numOfCurves ≤ i → i < v →
          ∃ ch, s.channel i = some ch ∧
            (pm1.curves[i]?).map (fun c => (c.xBuf, c.yBuf)) = some (ch.xData, ch.index)) ∧
      (v ≤ pm.numOfCurves →
        pm1.curves = pm.curves.take v ∧
        pm1.curves.length + (pm.numOfCurves - v) = pm.numOfCurves) := by
  obtain ⟨pm1, h1, _, h3, h4, h5⟩ :=
    PlotManager.onNumChannelsChanged_spec pm s v (PlotManager.Reachable.layoutOK pm hreach) hv
  refine ⟨pm1, h1, h3, h4, fun hle => ⟨h5 hle, ?_⟩⟩
  have h6 : pm1.curves.length = v := h3
  rw [h6]
  omega

theorem onNumChannelsChanged_sets_curve_count_witness :
    exampleManager.numOfCurves = 2 ∧ exampleFedStream.numChannels = 2 ∧
    ∃ pm1, exampleManager.onNumChannelsChanged (some exampleFedStream) 1 = Except.ok pm1 ∧
      pm1.numOfCurves = 1 ∧
      (exampleManager.numOfCurves ≤ 1 →
        pm1.curves.take exampleManager.numOfCurves = exampleManager.curves ∧
        ∀ i, exampleManager.numOfCurves ≤ i → i < 1 →
          ∃ ch, exampleFedStream.channel i = some ch ∧
            (pm1.curves[i]?).map (fun c => (c.xBuf, c.yBuf)) = some (ch.xData, ch.index)) ∧
      (1 ≤ exampleManager.numOfCurves →
        pm1.curves = exampleManager.curves.take 1 ∧
        pm1.curves.length + (exampleManager.numOfCurves - 1) = exampleManager.numOfCurves) :=
  ⟨by decide!, by decide!,
   onNumChannelsChanged_sets_curve_count exampleManager exampleFedStream 1
    (PlotManager.Reachable.withStream (some exampleFedStream) true exampleManager
      exampleManager_run)
    (by decide!)⟩

/-- C29: the layout invariant of `PlotManager`. After either constructor and
after every call of `setMulti`, `addCurve` and `removeCurves` that returns,
the number of plot widgets equals the number of curves when `isMulti` is set
and is exactly 1 when it is not. `setMulti` establishes it from any state;
`addCurve` and `removeCurves` keep it, and on a manager that satisfies it
`removeCurves` always returns, as does `addCurve` unless `Stream::channel`
fails its assertion. -/
theorem layout_invariant_holds :
    (∀ pm : PlotManager, pm.LayoutOK ↔
      ((pm.isMulti = true → pm.plotWidgets.length = pm.numOfCurves) ∧
       (pm.isMulti = false → pm.plotWidgets.length = 1))) ∧
    (∀ stream showMulti pm,
      PlotManager.withStream stream showMulti = Except.ok pm → pm.LayoutOK) ∧
    (∀ numChannels showMulti pm,
      PlotManager.withSnapshot numChannels showMulti = Except.ok pm → pm.LayoutOK) ∧
    (∀ (pm : PlotManager) stream enabled pm1,
      pm.setMulti stream enabled = Except.ok pm1 → pm1.LayoutOK ∧ pm1.isMulti = enabled) ∧
    (∀ (pm : PlotManager) stream xBuf yBuf pm1, pm.LayoutOK →
      pm.addCurve stream xBuf yBuf = Except.ok pm1 → pm1.LayoutOK) ∧
    (∀ (pm : PlotManager) stream number pm1, pm.LayoutOK →
      pm.removeCurves stream number = Except.ok pm1 → pm1.LayoutOK) ∧
    (∀ pm : PlotManager, PlotManager.Reachable pm → pm.LayoutOK) ∧
    (∀ (pm : PlotManager) stream number, pm.LayoutOK →
      ∃ pm1, pm.removeCurves stream number = Except.ok pm1) ∧
    (∀ (pm : PlotManager) stream xBuf yBuf, pm.LayoutOK →
      (∀ s, stream = some s → pm.isMulti = true → pm.numOfCurves < s.numChannels) →
      ∃ pm1, pm.addCurve stream xBuf yBuf = Except.ok pm1) := by
  refine ⟨?_, fun stream showMulti pm h => (PlotManager.withStream_ok stream showMulti pm h).1,
    fun n showMulti pm h => (PlotManager.withSnapshot_ok n showMulti pm h).1,
    fun pm stream enabled pm1 h =>
      ⟨(PlotManager.setMulti_ok pm stream enabled pm1 h).1,
       (PlotManager.setMulti_ok pm stream enabled pm1 h).2.1⟩,
    fun pm stream xBuf yBuf pm1 hl h => (PlotManager.addCurve_ok pm stream xBuf yBuf pm1 hl h).1,
    ?_, PlotManager.Reachable.layoutOK, ?_, ?_⟩
  · intro pm
    unfold PlotManager.LayoutOK PlotManager.numOfCurves
    by_cases hm : pm.isMulti = true
    · rw [if_pos hm]
      constructor
      · intro h
        refine ⟨fun _ => h, fun hf => ?_⟩
        rw [hm] at hf
        exact absurd hf (by decide)
      · intro h
        exact h.1 hm
    · rw [if_neg hm]
      constructor
      · intro h
        exact ⟨fun ht => absurd ht hm, fun _ => h⟩
      · intro h
        exact h.2 (by simpa using hm)
  · intro pm stream number pm1 hl h
    obtain ⟨pm2, h1, h2, _⟩ := PlotManager.removeCurves_spec pm stream number hl
    rw [h1] at h
    cases h
    exact h2
  · intro pm stream number hl
    obtain ⟨pm2, h1, _⟩ := PlotManager.removeCurves_spec pm stream number hl
    exact ⟨pm2, h1⟩
  · intro pm stream xBuf yBuf hl hs
    exact PlotManager._addCurve_total pm stream _ (PlotManager.LayoutOK.widgets pm hl) hs

theorem layout_invariant_holds_witness :
    (exampleManager.isMulti = true ∧ exampleManager.plotWidgets.length = 2 ∧
      exampleManager.curves.length = 2) ∧
    exampleManager.LayoutOK ∧
    (∀ pm1, exampleManager.setMulti (some exampleFedStream) false = Except.ok pm1 →
      pm1.LayoutOK ∧ pm1.isMulti = false) ∧
    ∃ pm1, exampleManager.removeCurves (some exampleFedStream) 1 = Except.ok pm1 :=
  ⟨by decide!,
   layout_invariant_holds.2.1 (some exampleFedStream) true exampleManager exampleManager_run,
   fun pm1 h => layout_invariant_holds.2.2.2.1 exampleManager (some exampleFedStream) false pm1 h,
   layout_invariant_holds.2.2.2.2.2.2.2.1 exampleManager (some exampleFedStream) 1
    (by decide!)⟩

/-! ## `feedIn` after `setNumChannels(0, false)` -/

/-- The registry counts the channels of a new stream, and
`setNumChannels(nc, hasX())` with `1 ≤ nc` keeps it so. -/
theorem Stream.registry_counts_channels :
    (∀ nc ns, (Stream.construct nc false ns).stream.infoModel.numOfChannels =
      (Stream.construct nc false ns).stream.numChannels) ∧
    (∀ (s : Stream) nc, s.infoModel.numOfChannels = s.numChannels → 1 ≤ nc →
      nc < UINT_RANGE →
      (s.setNumChannels nc s.hasX).stream.infoModel.numOfChannels =
        (s.setNumChannels nc s.hasX).stream.numChannels) := by
  constructor
  · intro nc ns
    rw [Stream.construct_stream]
    show nc = (List.map _ (List.range nc)).length
    rw [List.length_map, List.length_range]
  · intro s nc hs h1 h2
    rw [Stream.setNumChannels_numChannels s nc h1 h2]
    by_cases h : nc = s.numChannels
    · have hrun : s.setNumChannels nc s.hasX =
          { failure := none, stream := s, emitted := [], sinkCalls := [] } := by
        unfold Stream.setNumChannels
        rw [if_pos ⟨h.symm, rfl⟩]
      rw [hrun, h]
      exact hs
    · rw [Stream.setNumChannels_sameX s nc h]
      rfl

end SerialPlot
